import Mathlib

/-! mcs_upload: X-modem style firmware upload.

A shallow embedding of `mcs_upload.c`.  Every C function is a Lean function
with the same name.  The globals of the C file are the fields of `State`;
the FTDI library, the C library and the receiver on the other end of the
serial line are the fields of `Env`.  Unsigned 8-bit values are natural
numbers, reduced modulo 256 wherever the C code stores into an
`unsigned char`.
-/

namespace McsUpload

set_option autoImplicit false

/-! ## Constants -/

def NACK : Nat := 0x15
def ACK : Nat := 0x06
def CANCEL : Nat := 0x18
def RX_BUFFER_SIZE : Nat := 4096
def TX_BUFFER_SIZE : Nat := 4096
def BAUDRATE : Nat := 19200
def REGULAR_FRAME : Nat := 0x01
def END_OF_TRANSMISSION : Nat := 0x04
def PAYLOAD_SIZE : Nat := 128
def FLASH_UPLOAD : Nat := 123
def EEPROM_UPLOAD : Nat := 124
def EXIT_FAILURE : Int := 1
def EXIT_SUCCESS : Int := 0

/-! ## The frame -/

/-- The C struct `xmodemframe`: five `unsigned char` members, `data` an array
of `PAYLOAD_SIZE` cells. -/
structure xmodemframe where
  frametype : Nat
  blocknum : Nat
  invblocknum : Nat
  data : List Nat
  checksum : Nat
  deriving DecidableEq, Repr

/-- Size of the struct in bytes: all members are `unsigned char`, so there is
no padding. -/
def sizeof_xmodemframe : Nat := 1 + 1 + 1 + PAYLOAD_SIZE + 1

/-- The bytes of the struct in memory order, which is what
`ftdi_write_data(ctx, (const char*) frame, sizeof(xmodemframe))` reads. -/
def frame_bytes (frame : xmodemframe) : List Nat :=
  [frame.frametype, frame.blocknum, frame.invblocknum] ++ frame.data ++ [frame.checksum]

/-- The statically initialised global `frame` (all zero). -/
def frame_init : xmodemframe :=
  { frametype := 0, blocknum := 0, invblocknum := 0,
    data := List.replicate PAYLOAD_SIZE 0, checksum := 0 }

/-- Body of `calc_checksum`: `chksum` is an `unsigned char`, so every `+=`
wraps modulo 256. -/
def calc_checksum (frame : xmodemframe) : xmodemframe :=
  let chksum := 1
  let chksum := (chksum + frame.blocknum) % 256
  let chksum := (chksum + frame.invblocknum) % 256
  let chksum := (List.range PAYLOAD_SIZE).foldl
    (fun c i => (c + frame.data.getD i 0) % 256) chksum
  { frame with checksum := chksum }

/-- The value of `(unsigned char) ~b`: `b` is promoted to `int`, `~` yields
`-b - 1`, and the store into an `unsigned char` reduces modulo 256. -/
def bitnot_u8 (b : Nat) : Nat := ((-(b : Int) - 1) % 256).toNat

/-! ## The environment -/

/-- Everything outside the C file: the results of the setup calls, the file
behind `fopen` (`none` when it returns `NULL`, otherwise the bytes the stream
delivers), and the serial link.  `ftdi_usb_find_all` is the number of devices
found or a negative error code; the device list it hands back is taken to be
non-`NULL` exactly when devices were found.  `write_data log buf` is the return value
of the `ftdi_write_data` call that hands `buf` to the transport after the
buffers `log` were handed over earlier.  `read_data log j` is the outcome
`(ret, rxbuffer)` of the `j`-th `ftdi_read_data` call (counting from 0) made
after the writes `log` and before the next write; the receiver may therefore
react to everything written so far and answer with any delay. -/
structure Env where
  argc : Nat
  signal_ok : Bool
  fopen : Option (List Nat)
  ftdi_new_ok : Bool
  ftdi_usb_find_all : Int
  ftdi_usb_get_strings : Int
  ftdi_usb_open_dev : Int
  ftdi_set_baudrate : Int
  ftdi_set_line_property : Int
  ftdi_write_data_set_chunksize : Int
  ftdi_read_data_set_chunksize : Int
  write_data : List (List Nat) → List Nat → Int
  read_data : List (List Nat) → Nat → Int × Nat

/-- Names of the operations whose failure `fail` reports. -/
inductive Op where
  | send_frame | write | read | ftdi_usb_find_all | ftdi_usb_get_strings
  | open_device | ftdi_set_baud_rate | ftdi_set_line_property
  | ftdi_write_data_set_chunksize | ftdi_read_data_set_chunksize
  deriving DecidableEq, Repr

/-- The messages the program prints (stdout and stderr), with their
arguments. -/
inductive Msg where
  | cancelling
  | failed_to_cancel
  | failed (op : Op) (ret : Int)
  | received (b : Nat)
  | read_timeout
  | expected_but_received (value : Nat) (b : Nat)
  | expect_failed
  | expected_one_argument
  | failed_to_attach
  | failed_to_open_file
  | ftdi_new_failed
  | expected_exactly_one (ret : Int)
  | found_device
  | manufacturer
  | sending_init
  | expected_123 (b : Nat)
  | waiting_for_nack
  | failed_to_receive_nak
  | io_error_reading
  | now_sending (blocknum : Nat) (bytesToTransmit : Int)
  | failed_to_receive_ack
  | sending_eot
  | success
  deriving DecidableEq, Repr

/-- Resources released by `cleanup`. -/
inductive Res where
  | usb_close | list_free | ftdi_free | fclose
  deriving DecidableEq, Repr

/-- The globals of the C file, followed by four ghost fields that record what
the program did: `sent` lists the buffers handed to `ftdi_write_data` in
order, `polls` counts the `ftdi_read_data` calls since the last write, `out`
lists the messages printed and `released` the release calls made.
`fileToSend` is `none` for `NULL` and otherwise holds the bytes the stream
has still to deliver. -/
structure State where
  retval : Int
  deviceOpened : Bool
  transmissionRunning : Bool
  devlist : Bool
  ftdiContext : Bool
  fileToSend : Option (List Nat)
  frame : xmodemframe
  sent : List (List Nat)
  polls : Nat
  out : List Msg
  released : List Res
  deriving DecidableEq, Repr

/-- The globals as initialised at program start. -/
def State.init : State :=
  { retval := EXIT_FAILURE, deviceOpened := false, transmissionRunning := false,
    devlist := false, ftdiContext := false, fileToSend := none,
    frame := frame_init, sent := [], polls := 0, out := [], released := [] }

/-! ## Library calls -/

/-- Either `printf` or `fprintf(stderr, ...)`. -/
def print (s : State) (m : Msg) : State := { s with out := s.out ++ [m] }

/-- One `ftdi_write_data` call: the buffer is logged and the transport decides
the return value. -/
def ftdi_write_data (env : Env) (s : State) (buf : List Nat) : State × Int :=
  ({ s with sent := s.sent ++ [buf], polls := 0 }, env.write_data s.sent buf)

/-- One `ftdi_read_data` call for a single byte into an `unsigned char`. -/
def ftdi_read_data (env : Env) (s : State) : State × Int × Nat :=
  let r := env.read_data s.sent s.polls
  ({ s with polls := s.polls + 1 }, r.1, r.2 % 256)

/-- One `fread(buf, 1, PAYLOAD_SIZE, file)`: the stream delivers its next
bytes, at most `PAYLOAD_SIZE` of them. -/
def fread (file : List Nat) : List Nat × List Nat :=
  (file.take PAYLOAD_SIZE, file.drop PAYLOAD_SIZE)

/-! ## The functions of the C file -/

def fail (s : State) (op : Op) (ret : Int) : State := print s (Msg.failed op ret)

/-- Returns `true` for the C result 1 and `false` for 0. -/
def send_frame (env : Env) (s : State) (frame : xmodemframe) : State × Bool :=
  let (s, ret) := ftdi_write_data env s (frame_bytes frame)
  if ret ≠ (sizeof_xmodemframe : Int) then (fail s Op.send_frame ret, false)
  else (s, true)

/-- Returns the stream after the read, the frame and the byte count. -/
def file_to_frame (file : List Nat) (frame : xmodemframe) :
    List Nat × xmodemframe × Nat :=
  let frame := (List.range PAYLOAD_SIZE).foldl
    (fun (f : xmodemframe) i => { f with data := f.data.set i 0 }) frame
  let (chunk, file) := fread file
  let bytesRead := chunk.length
  let frame := { frame with data := chunk ++ frame.data.drop bytesRead }
  if bytesRead < 0 then (file, frame, 0) else (file, frame, bytesRead)

/-- Returns `true` for the C result 1 and `false` for 0. -/
def write_byte (env : Env) (s : State) (data : Nat) : State × Bool :=
  let txbuffer := data % 256
  let (s, ret) := ftdi_write_data env s [txbuffer]
  if ret ≠ 1 then (fail s Op.write ret, false) else (s, true)

/-- The loop of `read_byte` with `retries` polls left; `ret` is the result of
the previous poll. -/
def read_byte_loop (env : Env) : Nat → State → Int → State × Option Nat
  | 0, s, ret =>
    let s := print s Msg.read_timeout
    let s := if ret < 0 then fail s Op.read ret else s
    (s, none)
  | retries + 1, s, _ =>
    let (s, ret, rxbuffer) := ftdi_read_data env s
    if ret = 1 then (print s (Msg.received rxbuffer), some rxbuffer)
    else read_byte_loop env retries s ret

/-- Returns `some b` for the C result 1 with `*p = b`, and `none` for 0.  The
local `ret` is not initialised in C; it is assigned before it is first read,
so its initial value here is immaterial. -/
def read_byte (env : Env) (s : State) : State × Option Nat :=
  read_byte_loop env 50 s 0

/-- The loop of `expect` with `retries` calls of `read_byte` left. -/
def expect_loop (env : Env) (value : Nat) : Nat → State → State × Bool
  | 0, s => (print s Msg.expect_failed, false)
  | retries + 1, s =>
    match read_byte env s with
    | (s, some buffer) =>
      if buffer = value then (s, true)
      else (print s (Msg.expected_but_received value buffer), false)
    | (s, none) => expect_loop env value retries s

def expect (env : Env) (s : State) (value : Nat) : State × Bool :=
  expect_loop env value 10 s

def recv_nack (env : Env) (s : State) : State × Bool := expect env s NACK

def recv_ack (env : Env) (s : State) : State × Bool := expect env s ACK

def cleanup (env : Env) (s : State) : State :=
  let s :=
    if s.transmissionRunning then
      let s := print s Msg.cancelling
      let s := { s with transmissionRunning := false }
      let s := (write_byte env s CANCEL).1
      let (s, ok) := recv_ack env s
      if !ok then print s Msg.failed_to_cancel else s
    else s
  let s :=
    if s.deviceOpened then
      { s with released := s.released ++ [Res.usb_close], deviceOpened := false }
    else s
  let s :=
    if s.devlist then
      { s with released := s.released ++ [Res.list_free], devlist := false }
    else s
  let s :=
    if s.ftdiContext then
      { s with released := s.released ++ [Res.ftdi_free], ftdiContext := false }
    else s
  match s.fileToSend with
  | some _ => { s with released := s.released ++ [Res.fclose], fileToSend := none }
  | none => s

/-- How a loop of `main` is left. -/
inductive Exit where
  | next        -- `break`: control continues after the loop
  | done        -- `goto done`
  | fuel        -- the iteration bound of the model was reached
  deriving DecidableEq, Repr

/-- The handshake loop `while (1)` of `main`, at most `fuel` iterations. -/
def handshake_loop (env : Env) : Nat → State → State × Exit
  | 0, s => (s, Exit.fuel)
  | fuel + 1, s =>
    let s := print s Msg.sending_init
    match write_byte env s FLASH_UPLOAD with
    | (s, false) => (s, Exit.done)
    | (s, true) =>
      match read_byte env s with
      | (s, some rxbuffer) =>
        if rxbuffer = FLASH_UPLOAD then (s, Exit.next)
        else (print s (Msg.expected_123 rxbuffer), Exit.done)
      | (s, none) => handshake_loop env fuel s

/-- The transmission loop `while (1)` of `main`, at most `fuel` iterations. -/
def transfer_loop (env : Env) : Nat → State → State × Exit
  | 0, s => (s, Exit.fuel)
  | fuel + 1, s =>
    let (file, frame, n) := file_to_frame (s.fileToSend.getD []) s.frame
    let s := { s with fileToSend := s.fileToSend.map (fun _ => file), frame := frame }
    let bytesToTransmit : Int := n
    if bytesToTransmit < 0 then (print s Msg.io_error_reading, Exit.done)
    else
      let s := { s with frame := { s.frame with blocknum := (s.frame.blocknum + 1) % 256 } }
      let s := { s with frame := { s.frame with invblocknum := bitnot_u8 s.frame.blocknum } }
      let s := { s with frame := calc_checksum s.frame }
      let s := print s (Msg.now_sending s.frame.blocknum bytesToTransmit)
      let s := { s with transmissionRunning := true }
      let s := (send_frame env s s.frame).1
      match recv_ack env s with
      | (s, false) => (print s Msg.failed_to_receive_ack, Exit.done)
      | (s, true) =>
        if bytesToTransmit < PAYLOAD_SIZE then (s, Exit.next)
        else transfer_loop env fuel s

/-- The label `done:` of `main`: `cleanup(); return retval;`. -/
def main_done (env : Env) (s : State) : State × Option Int :=
  let s := cleanup env s
  (s, some s.retval)

/-- The part of `main` after the two loops: EOT and the final ACK. -/
def main_eot (env : Env) (s : State) : State × Option Int :=
  let s := print s Msg.sending_eot
  let s := (write_byte env s END_OF_TRANSMISSION).1
  let s := { s with transmissionRunning := false }
  match recv_ack env s with
  | (s, false) => main_done env (print s Msg.failed_to_receive_ack)
  | (s, true) =>
    let s := print s Msg.success
    let s := { s with retval := EXIT_SUCCESS }
    main_done env s

/-- The part of `main` from `frame.blocknum=0` on. -/
def main_transfer (env : Env) (fuel : Nat) (s : State) : State × Option Int :=
  let s := { s with frame := { s.frame with blocknum := 0 } }
  let s := { s with frame := { s.frame with frametype := REGULAR_FRAME } }
  match transfer_loop env fuel s with
  | (s, Exit.fuel) => (s, none)
  | (s, Exit.done) => main_done env s
  | (s, Exit.next) => main_eot env s

/-- The part of `main` from the handshake loop on. -/
def main_handshake (env : Env) (fuel : Nat) (s : State) : State × Option Int :=
  match handshake_loop env fuel s with
  | (s, Exit.fuel) => (s, none)
  | (s, Exit.done) => main_done env s
  | (s, Exit.next) =>
    match write_byte env s 0 with
    | (s, false) => main_done env s
    | (s, true) =>
      let s := print s Msg.waiting_for_nack
      match recv_nack env s with
      | (s, false) => main_done env (print s Msg.failed_to_receive_nak)
      | (s, true) => main_transfer env fuel s

/-- The function `main`.  The result is the final state together with the
value returned, or `none` when one of the two `while (1)` loops was still
running after `fuel` iterations. -/
def main (env : Env) (fuel : Nat) : State × Option Int :=
  let s := State.init
  if env.argc < 2 then (print s Msg.expected_one_argument, some EXIT_FAILURE)
  else if !env.signal_ok then (print s Msg.failed_to_attach, some 1)
  else
    let s := { s with fileToSend := env.fopen }
    if s.fileToSend = none then (print s Msg.failed_to_open_file, some EXIT_FAILURE)
    else
      let s := { s with ftdiContext := env.ftdi_new_ok }
      if !s.ftdiContext then
        let s := print s Msg.ftdi_new_failed
        ({ s with released := s.released ++ [Res.fclose] }, some EXIT_FAILURE)
      else
        let ret := env.ftdi_usb_find_all
        let s := { s with devlist := decide (0 < ret) }
        if ret < 0 then main_done env (fail s Op.ftdi_usb_find_all ret)
        else if ret ≠ 1 then main_done env (print s (Msg.expected_exactly_one ret))
        else
          let s := print s Msg.found_device
          let ret := env.ftdi_usb_get_strings
          if ret < 0 then main_done env (fail s Op.ftdi_usb_get_strings ret)
          else
            let s := print s Msg.manufacturer
            let ret := env.ftdi_usb_open_dev
            if ret < 0 then main_done env (fail s Op.open_device ret)
            else
              let s := { s with deviceOpened := true }
              let ret := env.ftdi_set_baudrate
              if ret < 0 then main_done env (fail s Op.ftdi_set_baud_rate ret)
              else
                let ret := env.ftdi_set_line_property
                if ret < 0 then main_done env (fail s Op.ftdi_set_line_property ret)
                else
                  let ret := env.ftdi_write_data_set_chunksize
                  if ret < 0 then
                    main_done env (fail s Op.ftdi_write_data_set_chunksize ret)
                  else
                    let ret := env.ftdi_read_data_set_chunksize
                    if ret < 0 then
                      main_done env (fail s Op.ftdi_read_data_set_chunksize ret)
                    else main_handshake env fuel s

/-! ## The receiver seen from the program -/

/-- The first byte the receiver delivers in the polls `start`, ...,
`start + budget - 1` that follow the writes `log`, if any. -/
def first_byte (env : Env) (log : List (List Nat)) : Nat → Nat → Option Nat
  | _, 0 => none
  | start, budget + 1 =>
    if (env.read_data log start).1 = 1 then some ((env.read_data log start).2 % 256)
    else first_byte env log (start + 1) budget

/-- The receiver's answer to the writes `log`: the first byte it delivers
within `budget` polls. -/
def answer (env : Env) (log : List (List Nat)) (budget : Nat) : Option Nat :=
  first_byte env log 0 budget

/-- Messages printed by `read_byte`, `expect`, `write_byte` and `send_frame`. -/
def Msg.diag : Msg → Bool
  | Msg.received _ => true
  | Msg.read_timeout => true
  | Msg.failed _ _ => true
  | Msg.expected_but_received _ _ => true
  | Msg.expect_failed => true
  | _ => false

/-! ## What a run writes and prints -/

/-- The marker byte written `n` times. -/
def markers (n : Nat) : List (List Nat) := List.replicate n [FLASH_UPLOAD]

/-- Messages the handshake loop may print. -/
def Msg.handshake : Msg → Bool
  | Msg.sending_init => true
  | Msg.expected_123 _ => true
  | m => Msg.diag m

/-- The byte counts announced by the `Now sending frame` messages. -/
def chunk_log : List Msg → List (Nat × Int)
  | [] => []
  | Msg.now_sending b n :: ms => (b, n) :: chunk_log ms
  | _ :: ms => chunk_log ms

/-- The frame the transmission loop builds for block number `b` and the bytes
`chunk` read from the file. -/
def frame_for (b : Nat) (chunk : List Nat) : xmodemframe :=
  calc_checksum
    { frametype := REGULAR_FRAME, blocknum := b, invblocknum := bitnot_u8 b,
      data := chunk ++ List.replicate (PAYLOAD_SIZE - chunk.length) 0, checksum := 0 }

/-- The wire bytes of the first `k` frames for the file `src`, the block
counter standing at `b` before the first of them. -/
def frames_from (src : List Nat) (b : Nat) : Nat → List (List Nat)
  | 0 => []
  | k + 1 =>
    frame_bytes (frame_for ((b + 1) % 256) (src.take PAYLOAD_SIZE))
      :: frames_from (src.drop PAYLOAD_SIZE) ((b + 1) % 256) k

/-- The block numbers and byte counts announced for those `k` frames. -/
def chunks_from (src : List Nat) (b : Nat) : Nat → List (Nat × Int)
  | 0 => []
  | k + 1 =>
    ((b + 1) % 256, ((src.take PAYLOAD_SIZE).length : Int))
      :: chunks_from (src.drop PAYLOAD_SIZE) ((b + 1) % 256) k

/-- The state after one more frame was built from the file `src` and handed to
the transport; `p` and `o` are the polls made and the messages printed since. -/
def State.sending (s : State) (src : List Nat) (p : Nat) (o : List Msg) : State :=
  { s with
    fileToSend := some (src.drop PAYLOAD_SIZE)
    frame := frame_for ((s.frame.blocknum + 1) % 256) (src.take PAYLOAD_SIZE)
    transmissionRunning := true
    sent := s.sent ++
      [frame_bytes (frame_for ((s.frame.blocknum + 1) % 256) (src.take PAYLOAD_SIZE))]
    polls := p
    out := s.out ++ Msg.now_sending ((s.frame.blocknum + 1) % 256)
      ((src.take PAYLOAD_SIZE).length : Int) :: o }

/-- Messages the transmission loop may print. -/
def Msg.transfer : Msg → Bool
  | Msg.now_sending _ _ => true
  | Msg.failed_to_receive_ack => true
  | m => Msg.diag m

/-- The receiver answers ACK to the `i`-th frame of the file `src`, the writes
`log` having preceded the first frame. -/
def Acked (env : Env) (log : List (List Nat)) (src : List Nat) (b i : Nat) : Prop :=
  answer env (log ++ frames_from src b i) 500 = some ACK

/-- The release calls `cleanup` makes in state `s`. -/
def releases (s : State) : List Res :=
  (if s.deviceOpened then [Res.usb_close] else [])
    ++ (if s.devlist then [Res.list_free] else [])
    ++ (if s.ftdiContext then [Res.ftdi_free] else [])
    ++ (if s.fileToSend.isSome then [Res.fclose] else [])

/-- The state `s` after everything still held was released. -/
def State.closed (s : State) : State :=
  { s with transmissionRunning := false, deviceOpened := false, devlist := false,
           ftdiContext := false, fileToSend := none,
           released := s.released ++ releases s }

/-- Messages `cleanup` may print. -/
def Msg.teardown : Msg → Bool
  | Msg.cancelling => true
  | Msg.failed_to_cancel => true
  | m => Msg.diag m

/-- The release steps of `cleanup` as a function of their own. -/
def release_all (s : State) : State :=
  let s :=
    if s.deviceOpened then
      { s with released := s.released ++ [Res.usb_close], deviceOpened := false }
    else s
  let s :=
    if s.devlist then
      { s with released := s.released ++ [Res.list_free], devlist := false }
    else s
  let s :=
    if s.ftdiContext then
      { s with released := s.released ++ [Res.ftdi_free], ftdiContext := false }
    else s
  match s.fileToSend with
  | some _ => { s with released := s.released ++ [Res.fclose], fileToSend := none }
  | none => s

/-- Messages printed after the transmission loop was left by `break`. -/
def Msg.final : Msg → Bool
  | Msg.sending_eot => true
  | Msg.success => true
  | Msg.failed_to_receive_ack => true
  | m => Msg.diag m

/-! ## Descriptions of whole runs -/

/-- Everything `cleanup` releases is released. -/
def TornDown (st : State) : Prop :=
  st.transmissionRunning = false ∧ st.deviceOpened = false ∧ st.devlist = false
    ∧ st.ftdiContext = false ∧ st.fileToSend = none

/-- Messages printed from the transmission loop on. -/
def Msg.after_nack (m : Msg) : Bool := Msg.transfer m || Msg.final m || Msg.teardown m

/-- What the part of `main` from the transmission loop on did, when it started
after the writes `log` with the file `src`: `st` is the final state and the
last index the value returned. -/
inductive TransferRun (env : Env) (fuel : Nat) (log : List (List Nat)) (src : List Nat)
    (st : State) : Option Int → Prop
  | fuel
      (hack : ∀ i, 1 ≤ i → i ≤ fuel →
        Acked env log src 0 i ∧ PAYLOAD_SIZE * i ≤ src.length)
      (hsent : st.sent = log ++ frames_from src 0 fuel)
      (hchunks : chunk_log st.out = chunks_from src 0 fuel) :
      TransferRun env fuel log src st none
  | rejected (k : Nat) (h1 : 1 ≤ k) (hk : k ≤ fuel)
      (hack : ∀ i, 1 ≤ i → i < k →
        Acked env log src 0 i ∧ PAYLOAD_SIZE * i ≤ src.length)
      (hrej : ¬ Acked env log src 0 k)
      (hsent : st.sent = log ++ frames_from src 0 k ++ [[CANCEL]])
      (hchunks : chunk_log st.out = chunks_from src 0 k) :
      TransferRun env fuel log src st (some EXIT_FAILURE)
  | finished (k : Nat) (h1 : 1 ≤ k) (hk : k ≤ fuel)
      (hack : ∀ i, 1 ≤ i → i < k →
        Acked env log src 0 i ∧ PAYLOAD_SIZE * i ≤ src.length)
      (hlast : Acked env log src 0 k) (hshort : src.length < PAYLOAD_SIZE * k)
      (hsent : st.sent = log ++ frames_from src 0 k ++ [[END_OF_TRANSMISSION]])
      (hchunks : chunk_log st.out = chunks_from src 0 k) :
      TransferRun env fuel log src st
        (some (if answer env st.sent 500 = some ACK then EXIT_SUCCESS else EXIT_FAILURE))

/-- Round `i` (counted from 0) of the handshake got no answer: the marker was
written and no byte arrived within the 50 polls of `read_byte`. -/
def Silent (env : Env) (i : Nat) : Prop :=
  env.write_data (markers i) [FLASH_UPLOAD] = 1 ∧ answer env (markers (i + 1)) 50 = none

/-- The receiver echoed the marker after the `n`-th marker write and stayed
silent before. -/
def Echoed (env : Env) (n : Nat) : Prop :=
  1 ≤ n ∧ (∀ i, i + 1 < n → Silent env i)
    ∧ env.write_data (markers (n - 1)) [FLASH_UPLOAD] = 1
    ∧ answer env (markers n) 50 = some FLASH_UPLOAD

/-- The handshake completed with `n` marker writes: echo, zero byte, NACK. -/
def Started (env : Env) (n : Nat) : Prop :=
  Echoed env n ∧ env.write_data (markers n) [0] = 1
    ∧ answer env (markers n ++ [[0]]) 500 = some NACK

/-- What a run of `main` did once the setup calls had succeeded: `st` is the
final state and the last index the value returned. -/
inductive Run (env : Env) (fuel : Nat) (src : List Nat) (st : State) : Option Int → Prop
  | no_echo
      (hsil : ∀ i, i < fuel → Silent env i)
      (hsent : st.sent = markers fuel) :
      Run env fuel src st none
  | marker_write_failed (n : Nat) (h1 : 1 ≤ n) (hn : n ≤ fuel)
      (hsil : ∀ i, i + 1 < n → Silent env i)
      (hw : env.write_data (markers (n - 1)) [FLASH_UPLOAD] ≠ 1)
      (hsent : st.sent = markers n) :
      Run env fuel src st (some EXIT_FAILURE)
  | wrong_echo (n b : Nat) (h1 : 1 ≤ n) (hn : n ≤ fuel)
      (hsil : ∀ i, i + 1 < n → Silent env i)
      (hw : env.write_data (markers (n - 1)) [FLASH_UPLOAD] = 1)
      (hans : answer env (markers n) 50 = some b) (hb : b ≠ FLASH_UPLOAD)
      (hsent : st.sent = markers n) :
      Run env fuel src st (some EXIT_FAILURE)
  | zero_write_failed (n : Nat) (hn : n ≤ fuel) (he : Echoed env n)
      (hw : env.write_data (markers n) [0] ≠ 1)
      (hsent : st.sent = markers n ++ [[0]])
      (hout : ∀ b, Msg.expected_123 b ∉ st.out) :
      Run env fuel src st (some EXIT_FAILURE)
  | no_nack (n : Nat) (hn : n ≤ fuel) (he : Echoed env n)
      (hw : env.write_data (markers n) [0] = 1)
      (hans : answer env (markers n ++ [[0]]) 500 ≠ some NACK)
      (hsent : st.sent = markers n ++ [[0]])
      (hout : ∀ b, Msg.expected_123 b ∉ st.out)
      (hwait : Msg.waiting_for_nack ∈ st.out) :
      Run env fuel src st (some EXIT_FAILURE)
  | started (n : Nat) (res : Option Int) (hn : n ≤ fuel) (hs : Started env n)
      (hout : ∀ b, Msg.expected_123 b ∉ st.out)
      (hwait : Msg.waiting_for_nack ∈ st.out)
      (ht : TransferRun env fuel (markers n ++ [[0]]) src st res) :
      Run env fuel src st res

/-- Every call `main` makes before the handshake succeeds. -/
def SetupOk (env : Env) : Prop :=
  2 ≤ env.argc ∧ env.signal_ok = true ∧ env.fopen ≠ none ∧ env.ftdi_new_ok = true
    ∧ env.ftdi_usb_find_all = 1 ∧ 0 ≤ env.ftdi_usb_get_strings
    ∧ 0 ≤ env.ftdi_usb_open_dev ∧ 0 ≤ env.ftdi_set_baudrate
    ∧ 0 ≤ env.ftdi_set_line_property ∧ 0 ≤ env.ftdi_write_data_set_chunksize
    ∧ 0 ≤ env.ftdi_read_data_set_chunksize

instance (env : Env) : Decidable (SetupOk env) := by
  unfold SetupOk
  infer_instance

/-- A run that ended before anything was written to the link. -/
def SetupFailed (r : State × Option Int) : Prop := r.1.sent = [] ∧ r.2 = some 1

/-- The state in which `main` enters the handshake loop. -/
def setup_state (src : List Nat) : State :=
  { State.init with
    fileToSend := some src, ftdiContext := true, devlist := true, deviceOpened := true,
    out := [Msg.found_device, Msg.manufacturer] }

/-- The Regular frames among the buffers written: the writes of
`sizeof(xmodemframe)` bytes (every other write of the program is one byte). -/
def regular_frames (log : List (List Nat)) : List (List Nat) :=
  log.filter (fun buf => decide (buf.length = sizeof_xmodemframe))

/-- The payload field of a frame on the wire: bytes 3 to 130. -/
def payload (f : List Nat) : List Nat := (f.drop 3).take PAYLOAD_SIZE

/-- Round `n` (counted from 1) is the first handshake round that was not
silent. -/
def Answered (env : Env) (n : Nat) : Prop :=
  1 ≤ n ∧ (∀ i, i + 1 < n → Silent env i) ∧ ¬ Silent env (n - 1)

/-- The run was a complete, acknowledged session: after `n` marker writes the
receiver echoed the marker, the zero byte was written and answered with NACK,
then only Regular frames were written, each answered with ACK, and finally the
single byte EOT, answered with ACK. -/
def Success (env : Env) (sent : List (List Nat)) : Prop :=
  ∃ n frames, 1 ≤ n
    ∧ sent = markers n ++ [[0]] ++ frames ++ [[END_OF_TRANSMISSION]]
    ∧ (∀ f ∈ frames, f.length = sizeof_xmodemframe)
    ∧ answer env (markers n) 50 = some FLASH_UPLOAD
    ∧ answer env (markers n ++ [[0]]) 500 = some NACK
    ∧ (∀ i, i < frames.length →
        answer env (markers n ++ [[0]] ++ frames.take (i + 1)) 500 = some ACK)
    ∧ answer env sent 500 = some ACK

/-! ## Concrete environments -/

/-- A receiver that echoes the marker at once, answers the zero byte with
NACK and every other write with ACK. -/
def prompt_receiver (log : List (List Nat)) (_ : Nat) : Int × Nat :=
  if log.getLast? = some [FLASH_UPLOAD] then (1, FLASH_UPLOAD)
  else if log.getLast? = some [0] then (1, NACK)
  else (1, ACK)

/-- A transport that accepts every write in full. -/
def full_write (_ : List (List Nat)) (buf : List Nat) : Int := buf.length

/-- An environment in which every setup call succeeds, `fopen` delivers the
file `src`, and the link behaves as `wr` and `rd` say. -/
def env_of (src : List Nat) (wr : List (List Nat) → List Nat → Int)
    (rd : List (List Nat) → Nat → Int × Nat) : Env :=
  { argc := 2, signal_ok := true, fopen := some src, ftdi_new_ok := true,
    ftdi_usb_find_all := 1, ftdi_usb_get_strings := 0, ftdi_usb_open_dev := 0,
    ftdi_set_baudrate := 0, ftdi_set_line_property := 0,
    ftdi_write_data_set_chunksize := 0, ftdi_read_data_set_chunksize := 0,
    write_data := wr, read_data := rd }

/-- A frame with block number 7, complement 248 and an all-0xFF payload. -/
def sample_frame : xmodemframe :=
  { frametype := 1, blocknum := 7, invblocknum := 248, data := List.replicate 128 255,
    checksum := 0 }

/-- A transport that reports a short write (100 of 132 bytes) for the first
frame and accepts every other write in full. -/
def short_first_frame (log : List (List Nat)) (buf : List Nat) : Int :=
  if buf.length = sizeof_xmodemframe ∧ regular_frames log = [] then 100 else buf.length

/-- A receiver like `prompt_receiver` that answers the second frame with NACK. -/
def nack_second_frame (log : List (List Nat)) (_ : Nat) : Int × Nat :=
  if log.getLast? = some [FLASH_UPLOAD] then (1, FLASH_UPLOAD)
  else if log.getLast? = some [0] then (1, NACK)
  else if (regular_frames log).length = 2 ∧ (log.getLast?.map List.length) = some 132 then
    (1, NACK)
  else (1, ACK)

/-- A source of 255 full blocks (32640 bytes). -/
def long_source : List Nat := List.replicate (255 * PAYLOAD_SIZE) 7

/-- A receiver like `prompt_receiver` that never answers the EOT byte. -/
def no_final_ack (log : List (List Nat)) (_ : Nat) : Int × Nat :=
  if log.getLast? = some [FLASH_UPLOAD] then (1, FLASH_UPLOAD)
  else if log.getLast? = some [0] then (1, NACK)
  else if log.getLast? = some [END_OF_TRANSMISSION] then (0, 0)
  else (1, ACK)

/-- A receiver that stays silent after the first two markers, echoes the third,
answers the zero byte with NACK and every other write with ACK. -/
def echo_third (log : List (List Nat)) (_ : Nat) : Int × Nat :=
  if log = [[FLASH_UPLOAD], [FLASH_UPLOAD], [FLASH_UPLOAD]] then (1, FLASH_UPLOAD)
  else if log.getLast? = some [FLASH_UPLOAD] then (0, 0)
  else if log.getLast? = some [0] then (1, NACK)
  else (1, ACK)

/-- A receiver that answers the first marker with the byte 99. -/
def wrong_echo_receiver (_ : List (List Nat)) (_ : Nat) : Int × Nat := (1, 99)

/-- The number of `ftdi_read_data` calls a wait of at most `budget` polls makes
when it starts at poll `start` after the writes `log`: it stops with the first
poll that delivers a byte. -/
def polls_used (env : Env) (log : List (List Nat)) : Nat → Nat → Nat
  | _, 0 => 0
  | start, budget + 1 =>
    if (env.read_data log start).1 = 1 then 1
    else 1 + polls_used env log (start + 1) budget

/-- The number of `read_byte` calls recorded in a list of messages: every call
prints exactly one of `Received` and `read() timeout elapsed`. -/
def read_calls : List Msg → Nat
  | [] => 0
  | Msg.received _ :: ms => 1 + read_calls ms
  | Msg.read_timeout :: ms => 1 + read_calls ms
  | _ :: ms => read_calls ms

/-- A receiver whose only byte, `b`, arrives at the fourth poll after any
write. -/
def fourth_poll (b : Nat) (_ : List (List Nat)) (j : Nat) : Int × Nat :=
  if j = 3 then (1, b) else (0, 0)

/-- A receiver that never sends anything; every poll reports an error. -/
def dead_line (_ : List (List Nat)) (_ : Nat) : Int × Nat := (-1, 0)

/-- A session in the middle of a transfer: everything is open, one frame was
written and `transmissionRunning` is set. -/
def active_state : State :=
  { setup_state [1, 2, 3] with
    transmissionRunning := true, sent := [[FLASH_UPLOAD], [0], List.replicate 132 0] }

/-- The bytes `fread` delivers from a file with the content `content` when
reading stops at offset `e`, by a read error or (for `e` at or past the end) by
the end of the file: `fread` returns a short count in both cases. -/
def delivered (content : List Nat) (e : Nat) : List Nat := content.take e

/-- The run did not print `I/O error while reading data from file`. -/
def NoIoError (r : State × Option Int) : Prop := Msg.io_error_reading ∉ r.1.out

/-- A receiver like `prompt_receiver` that verifies what it gets: a buffer
that is neither the marker, the zero byte nor the EOT byte is answered with ACK
only when it is a Regular frame (132 bytes, frame type 1) whose last byte is
the sum of its payload bytes modulo 256, and with NACK otherwise. -/
def checking_receiver (log : List (List Nat)) (_ : Nat) : Int × Nat :=
  if log.getLast? = some [FLASH_UPLOAD] then (1, FLASH_UPLOAD)
  else if log.getLast? = some [0] then (1, NACK)
  else if log.getLast? = some [END_OF_TRANSMISSION] then (1, ACK)
  else if (log.getLast?.map List.length) = some sizeof_xmodemframe
      ∧ (log.getLast?.map (fun f => f[0]?)) = some (some REGULAR_FRAME)
      ∧ (log.getLast?.map (fun f => f[131]?))
          = log.getLast?.map (fun f => some ((payload f).sum % 256)) then (1, ACK)
  else (1, NACK)

/-! # Lemmas -/

/-! ## Checksum lemmas -/

theorem foldl_checksum (l : List Nat) (n c : Nat) :
    ((List.range n).foldl (fun c i => (c + l.getD i 0) % 256) c) % 256
      = (c + (l.take n).sum) % 256 := by
  induction n with
  | zero => simp
  | succ n ih =>
    rw [List.range_succ, List.foldl_append]
    simp only [List.foldl_cons, List.foldl_nil, Nat.mod_mod]
    have hs : (l.take (n + 1)).sum = (l.take n).sum + l.getD n 0 := by
      rcases Nat.lt_or_ge n l.length with h | h
      · rw [List.take_succ, List.sum_append]
        simp [List.getD, List.getElem?_eq_getElem h]
      · rw [List.take_of_length_le (by omega), List.take_of_length_le h]
        simp [List.getD, List.getElem?_eq_none h]
    rw [hs, Nat.add_mod, ih]
    omega

theorem foldl_checksum_lt (l : List Nat) (n c : Nat) (hc : c < 256) :
    (List.range n).foldl (fun c i => (c + l.getD i 0) % 256) c < 256 := by
  induction n with
  | zero => simpa using hc
  | succ n _ =>
    rw [List.range_succ, List.foldl_append]
    simp only [List.foldl_cons, List.foldl_nil]
    exact Nat.mod_lt _ (by decide)

theorem calc_checksum_spec (frame : xmodemframe) (h : frame.data.length = PAYLOAD_SIZE) :
    (calc_checksum frame).checksum
        = (1 + frame.blocknum + frame.invblocknum + frame.data.sum) % 256
      ∧ (calc_checksum frame).frametype = frame.frametype
      ∧ (calc_checksum frame).blocknum = frame.blocknum
      ∧ (calc_checksum frame).invblocknum = frame.invblocknum
      ∧ (calc_checksum frame).data = frame.data := by
  refine ⟨?_, rfl, rfl, rfl, rfl⟩
  have h1 := foldl_checksum_lt frame.data PAYLOAD_SIZE
    (((1 + frame.blocknum) % 256 + frame.invblocknum) % 256) (Nat.mod_lt _ (by decide))
  have h2 := foldl_checksum frame.data PAYLOAD_SIZE
    (((1 + frame.blocknum) % 256 + frame.invblocknum) % 256)
  rw [← h, List.take_length, h] at h2
  rw [Nat.mod_eq_of_lt h1] at h2
  show (List.range PAYLOAD_SIZE).foldl (fun c i => (c + frame.data.getD i 0) % 256)
    (((1 + frame.blocknum) % 256 + frame.invblocknum) % 256) = _
  rw [h2]
  omega


/-! ## Reading from the link -/

theorem first_byte_add (env : Env) (log : List (List Nat)) (a b start : Nat) :
    first_byte env log start (a + b)
      = match first_byte env log start a with
        | some x => some x
        | none => first_byte env log (start + a) b := by
  induction a generalizing start with
  | zero => simp [first_byte]
  | succ a ih =>
    rw [show a + 1 + b = (a + b) + 1 by omega]
    simp only [first_byte]
    split
    · rfl
    · rw [ih]; rw [show start + 1 + a = start + (a + 1) by omega]

theorem read_byte_loop_spec (env : Env) (n : Nat) (s : State) (r : Int) :
    ∃ p o, read_byte_loop env n s r
        = ({ s with polls := p, out := s.out ++ o }, first_byte env s.sent s.polls n)
      ∧ p ≤ s.polls + n
      ∧ (first_byte env s.sent s.polls n = none → p = s.polls + n)
      ∧ (∀ m ∈ o, Msg.diag m = true) := by
  induction n generalizing s r with
  | zero =>
    by_cases hr : r < 0
    · exact ⟨s.polls, [Msg.read_timeout, Msg.failed Op.read r], by
        simp [read_byte_loop, first_byte, print, fail, hr], by simp, by simp, by simp [Msg.diag]⟩
    · exact ⟨s.polls, [Msg.read_timeout], by
        simp [read_byte_loop, first_byte, print, fail, hr], by simp, by simp, by simp [Msg.diag]⟩
  | succ n ih =>
    by_cases h1 : (env.read_data s.sent s.polls).1 = 1
    · exact ⟨s.polls + 1, [Msg.received ((env.read_data s.sent s.polls).2 % 256)], by
        simp [read_byte_loop, first_byte, print, ftdi_read_data, h1], by omega, by
        simp [first_byte, h1], by simp [Msg.diag]⟩
    · obtain ⟨p, o, he, hp, hn, ho⟩ := ih { s with polls := s.polls + 1 } (env.read_data s.sent s.polls).1
      refine ⟨p, o, ?_, ?_, ?_, ho⟩
      · simp only [read_byte_loop, ftdi_read_data, h1, if_false, first_byte]
        rw [he]
      · simp only at hp; omega
      · intro h
        simp only [first_byte, h1, if_false] at h
        have := hn h
        simp only at this; omega

theorem expect_loop_spec (env : Env) (value n : Nat) (s : State) :
    ∃ p o, expect_loop env value n s
        = ({ s with polls := p, out := s.out ++ o },
            decide (first_byte env s.sent s.polls (50 * n) = some value))
      ∧ p ≤ s.polls + 50 * n
      ∧ (∀ m ∈ o, Msg.diag m = true) := by
  induction n generalizing s with
  | zero =>
    exact ⟨s.polls, [Msg.expect_failed], by simp [expect_loop, first_byte, print], by simp,
      by simp [Msg.diag]⟩
  | succ n ih =>
    obtain ⟨p, o, he, hp, hn, ho⟩ := read_byte_loop_spec env 50 s 0
    rw [show 50 * (n + 1) = 50 + 50 * n by ring, first_byte_add]
    simp only [expect_loop, read_byte]
    rw [he]
    cases hfb : first_byte env s.sent s.polls 50 with
    | some b =>
      by_cases hb : b = value
      · exact ⟨p, o, by simp [hb], by omega, ho⟩
      · refine ⟨p, o ++ [Msg.expected_but_received value b], by simp [hb, print], by omega, ?_⟩
        intro m hm
        rcases List.mem_append.1 hm with h | h
        · exact ho m h
        · simp at h; subst h; rfl
    | none =>
      obtain ⟨p2, o2, he2, hp2, ho2⟩ := ih { s with polls := p, out := s.out ++ o }
      have hpe := hn hfb
      subst hpe
      refine ⟨p2, o ++ o2, ?_, ?_, ?_⟩
      · simp only [he2]
        simp [List.append_assoc]
      · simp only at hp2; omega
      · intro m hm
        rcases List.mem_append.1 hm with h | h
        · exact ho m h
        · exact ho2 m h

theorem expect_spec (env : Env) (value : Nat) (s : State) :
    ∃ p o, expect env s value
        = ({ s with polls := p, out := s.out ++ o },
            decide (first_byte env s.sent s.polls 500 = some value))
      ∧ p ≤ s.polls + 500
      ∧ (∀ m ∈ o, Msg.diag m = true) :=
  expect_loop_spec env value 10 s

theorem write_byte_spec (env : Env) (s : State) (d : Nat) :
    ∃ o, write_byte env s d
        = ({ s with sent := s.sent ++ [[d % 256]], polls := 0, out := s.out ++ o },
            decide (env.write_data s.sent [d % 256] = 1))
      ∧ (∀ m ∈ o, Msg.diag m = true) := by
  by_cases h : env.write_data s.sent [d % 256] = 1
  · exact ⟨[], by simp [write_byte, ftdi_write_data, h], by simp⟩
  · exact ⟨[Msg.failed Op.write (env.write_data s.sent [d % 256])], by
      simp [write_byte, ftdi_write_data, h, fail, print], by simp [Msg.diag]⟩

theorem send_frame_spec (env : Env) (s : State) (f : xmodemframe) :
    ∃ o, send_frame env s f
        = ({ s with sent := s.sent ++ [frame_bytes f], polls := 0, out := s.out ++ o },
            decide (env.write_data s.sent (frame_bytes f) = (sizeof_xmodemframe : Int)))
      ∧ (∀ m ∈ o, Msg.diag m = true) := by
  by_cases h : env.write_data s.sent (frame_bytes f) = (sizeof_xmodemframe : Int)
  · exact ⟨[], by simp [send_frame, ftdi_write_data, h], by simp⟩
  · exact ⟨[Msg.failed Op.send_frame (env.write_data s.sent (frame_bytes f))], by
      simp [send_frame, ftdi_write_data, h, fail, print], by simp [Msg.diag]⟩

/-! ## Reading from the file -/

theorem clear_loop (frame : xmodemframe) (n : Nat) (h : n ≤ frame.data.length) :
    (List.range n).foldl (fun (f : xmodemframe) i => { f with data := f.data.set i 0 }) frame
      = { frame with data := List.replicate n 0 ++ frame.data.drop n } := by
  induction n with
  | zero => simp
  | succ n ih =>
    rw [List.range_succ, List.foldl_append, ih (by omega)]
    simp only [List.foldl_cons, List.foldl_nil]
    congr 1
    rw [List.set_append_right _ _ (by simp)]
    simp only [List.length_replicate, Nat.sub_self]
    have hd := List.drop_eq_getElem_cons (show n < frame.data.length by omega)
    rw [hd, List.set_cons_zero, List.replicate_succ', List.append_assoc]
    rfl

theorem file_to_frame_spec (file : List Nat) (frame : xmodemframe)
    (h : frame.data.length = PAYLOAD_SIZE) :
    file_to_frame file frame
      = (file.drop PAYLOAD_SIZE,
          { frame with data := file.take PAYLOAD_SIZE
              ++ List.replicate (PAYLOAD_SIZE - (file.take PAYLOAD_SIZE).length) 0 },
          (file.take PAYLOAD_SIZE).length) := by
  simp only [file_to_frame, fread, Nat.not_lt_zero, if_false]
  rw [clear_loop frame PAYLOAD_SIZE (by omega)]
  simp [← h]


/-! ## The link functions, read from their results -/

theorem read_byte_inv (env : Env) (s s1 : State) (r : Option Nat)
    (h : read_byte env s = (s1, r)) :
    r = first_byte env s.sent s.polls 50
      ∧ ∃ p o, s1 = { s with polls := p, out := s.out ++ o }
        ∧ (r = none → p = s.polls + 50) ∧ (∀ m ∈ o, Msg.diag m = true) := by
  obtain ⟨p, o, he, -, hn, ho⟩ := read_byte_loop_spec env 50 s 0
  rw [read_byte, he] at h
  injection h with h1 h2
  exact ⟨h2.symm, p, o, h1.symm, fun hr => hn (by rw [h2, hr]), ho⟩

theorem expect_inv (env : Env) (s s1 : State) (value : Nat) (r : Bool)
    (h : expect env s value = (s1, r)) :
    r = decide (first_byte env s.sent s.polls 500 = some value)
      ∧ ∃ p o, s1 = { s with polls := p, out := s.out ++ o }
        ∧ p ≤ s.polls + 500 ∧ (∀ m ∈ o, Msg.diag m = true) := by
  obtain ⟨p, o, he, hp, ho⟩ := expect_spec env value s
  rw [he] at h
  injection h with h1 h2
  exact ⟨h2.symm, p, o, h1.symm, hp, ho⟩

theorem write_byte_inv (env : Env) (s s1 : State) (d : Nat) (r : Bool)
    (h : write_byte env s d = (s1, r)) :
    r = decide (env.write_data s.sent [d % 256] = 1)
      ∧ ∃ o, s1 = { s with sent := s.sent ++ [[d % 256]], polls := 0, out := s.out ++ o }
        ∧ (∀ m ∈ o, Msg.diag m = true) := by
  obtain ⟨o, he, ho⟩ := write_byte_spec env s d
  rw [he] at h
  injection h with h1 h2
  exact ⟨h2.symm, o, h1.symm, ho⟩

theorem send_frame_inv (env : Env) (s s1 : State) (f : xmodemframe) (r : Bool)
    (h : send_frame env s f = (s1, r)) :
    r = decide (env.write_data s.sent (frame_bytes f) = (sizeof_xmodemframe : Int))
      ∧ ∃ o, s1 = { s with sent := s.sent ++ [frame_bytes f], polls := 0, out := s.out ++ o }
        ∧ (∀ m ∈ o, Msg.diag m = true) := by
  obtain ⟨o, he, ho⟩ := send_frame_spec env s f
  rw [he] at h
  injection h with h1 h2
  exact ⟨h2.symm, o, h1.symm, ho⟩

/-! ## The handshake loop -/

theorem markers_succ (n : Nat) : markers (n + 1) = [FLASH_UPLOAD] :: markers n := rfl

theorem markers_succ_append (l : List (List Nat)) (n : Nat) :
    l ++ [[FLASH_UPLOAD]] ++ markers n = l ++ markers (n + 1) := by
  simp [markers_succ]

theorem diag_handshake {o : List Msg} (h : ∀ m ∈ o, Msg.diag m = true) :
    ∀ m ∈ o, Msg.handshake m = true := by
  intro m hm
  have := h m hm
  cases m <;> simp_all [Msg.handshake, Msg.diag]

theorem diag_not_expected {o : List Msg} (h : ∀ m ∈ o, Msg.diag m = true) (b : Nat) :
    Msg.expected_123 b ∉ o := by
  intro hm
  have := h _ hm
  simp [Msg.diag] at this

/-- One iteration of the handshake loop, in terms of the receiver's answer. -/
theorem handshake_loop_succ (env : Env) (fuel : Nat) (s : State) :
    ∃ p o, (∀ m ∈ o, Msg.diag m = true) ∧
      handshake_loop env (fuel + 1) s =
        if env.write_data s.sent [FLASH_UPLOAD] = 1 then
          match answer env (s.sent ++ [[FLASH_UPLOAD]]) 50 with
          | some b =>
            if b = FLASH_UPLOAD then
              ({ s with sent := s.sent ++ [[FLASH_UPLOAD]], polls := p,
                        out := s.out ++ Msg.sending_init :: o }, Exit.next)
            else
              ({ s with sent := s.sent ++ [[FLASH_UPLOAD]], polls := p,
                        out := s.out ++ Msg.sending_init :: (o ++ [Msg.expected_123 b]) },
                Exit.done)
          | none =>
            handshake_loop env fuel
              { s with sent := s.sent ++ [[FLASH_UPLOAD]], polls := p,
                       out := s.out ++ Msg.sending_init :: o }
        else
          ({ s with sent := s.sent ++ [[FLASH_UPLOAD]], polls := p,
                    out := s.out ++ Msg.sending_init :: o }, Exit.done) := by
  simp only [handshake_loop]
  split
  · next s1 hw =>
    obtain ⟨hr, o, rfl, ho⟩ := write_byte_inv _ _ _ _ _ hw
    have hwr : ¬ env.write_data s.sent [FLASH_UPLOAD] = 1 := by
      simpa [print, FLASH_UPLOAD] using hr
    refine ⟨0, o, ho, ?_⟩
    simp only [FLASH_UPLOAD] at hwr
    simp [hwr, print, FLASH_UPLOAD]
  · next s1 hw =>
    obtain ⟨hr, o, rfl, ho⟩ := write_byte_inv _ _ _ _ _ hw
    have hwr : env.write_data s.sent [FLASH_UPLOAD] = 1 := by
      simpa [print, FLASH_UPLOAD] using hr
    split
    · next s2 b hrb =>
      obtain ⟨hb, p, o2, rfl, -, ho2⟩ := read_byte_inv _ _ _ _ hrb
      refine ⟨p, o ++ o2, ?_, ?_⟩
      · intro m hm
        rcases List.mem_append.1 hm with h | h
        · exact ho m h
        · exact ho2 m h
      · simp only [print, FLASH_UPLOAD, Nat.reduceMod] at hb ⊢
        simp only [FLASH_UPLOAD] at hwr
        simp [hwr, answer, ← hb]
    · next s2 hrb =>
      obtain ⟨hb, p, o2, rfl, -, ho2⟩ := read_byte_inv _ _ _ _ hrb
      refine ⟨p, o ++ o2, ?_, ?_⟩
      · intro m hm
        rcases List.mem_append.1 hm with h | h
        · exact ho m h
        · exact ho2 m h
      · simp only [print, FLASH_UPLOAD, Nat.reduceMod] at hb ⊢
        simp only [FLASH_UPLOAD] at hwr
        simp [hwr, answer, ← hb]

theorem handshake_loop_spec (env : Env) (fuel : Nat) (s : State) :
    ∃ n p o, (handshake_loop env fuel s).1
        = { s with sent := s.sent ++ markers n, polls := p, out := s.out ++ o }
      ∧ n ≤ fuel
      ∧ (∀ i, i + 1 < n → env.write_data (s.sent ++ markers i) [FLASH_UPLOAD] = 1
          ∧ answer env (s.sent ++ markers (i + 1)) 50 = none)
      ∧ (∀ m ∈ o, Msg.handshake m = true)
      ∧ match (handshake_loop env fuel s).2 with
        | Exit.fuel => n = fuel
            ∧ (∀ i, i < n → env.write_data (s.sent ++ markers i) [FLASH_UPLOAD] = 1
                ∧ answer env (s.sent ++ markers (i + 1)) 50 = none)
        | Exit.done => 1 ≤ n
            ∧ (env.write_data (s.sent ++ markers (n - 1)) [FLASH_UPLOAD] ≠ 1
              ∨ (env.write_data (s.sent ++ markers (n - 1)) [FLASH_UPLOAD] = 1
                ∧ ∃ b, answer env (s.sent ++ markers n) 50 = some b ∧ b ≠ FLASH_UPLOAD))
        | Exit.next => 1 ≤ n
            ∧ env.write_data (s.sent ++ markers (n - 1)) [FLASH_UPLOAD] = 1
            ∧ answer env (s.sent ++ markers n) 50 = some FLASH_UPLOAD
            ∧ ∀ b, Msg.expected_123 b ∉ o := by
  induction fuel generalizing s with
  | zero =>
    exact ⟨0, s.polls, [], by simp [handshake_loop, markers], by simp, by simp, by simp,
      by simp [handshake_loop]⟩
  | succ fuel ih =>
    obtain ⟨p, o, ho, hstep⟩ := handshake_loop_succ env fuel s
    rw [hstep]
    have hinit : ∀ m ∈ Msg.sending_init :: o, Msg.handshake m = true := by
      intro m hm
      rcases List.mem_cons.1 hm with rfl | h
      · rfl
      · exact diag_handshake ho m h
    by_cases hwr : env.write_data s.sent [FLASH_UPLOAD] = 1
    · simp only [hwr, if_true]
      cases hans : answer env (s.sent ++ [[FLASH_UPLOAD]]) 50 with
      | some b =>
        by_cases hb : b = FLASH_UPLOAD
        · refine ⟨1, p, Msg.sending_init :: o, by simp [hb, markers], by omega,
            by intro i hi; omega, hinit, ?_⟩
          simp only [hb, if_true]
          refine ⟨by omega, by simpa [markers] using hwr, by simpa [markers, hb] using hans, ?_⟩
          intro b' hm
          rcases List.mem_cons.1 hm with h | h
          · cases h
          · exact diag_not_expected ho b' h
        · refine ⟨1, p, Msg.sending_init :: (o ++ [Msg.expected_123 b]), by simp [hb, markers],
            by omega, by intro i hi; omega, ?_, ?_⟩
          · intro m hm
            simp only [List.mem_cons, List.mem_append, List.mem_singleton, List.not_mem_nil,
              or_false] at hm
            rcases hm with rfl | h | rfl
            · rfl
            · exact diag_handshake ho m h
            · rfl
          · simp only [hb, if_false]
            exact ⟨by omega, Or.inr ⟨by simpa [markers] using hwr,
              b, by simpa [markers] using hans, hb⟩⟩
      | none =>
        obtain ⟨n, p', o3, hs', hn, hsil, ho3, hex⟩ := ih
          { s with sent := s.sent ++ [[FLASH_UPLOAD]], polls := p,
                   out := s.out ++ Msg.sending_init :: o }
        simp only [markers_succ_append] at hs' hsil hex
        have hround : ∀ k, (∀ j, j < k → env.write_data (s.sent ++ markers (j + 1)) [FLASH_UPLOAD] = 1
              ∧ answer env (s.sent ++ markers (j + 1 + 1)) 50 = none) →
            ∀ j, j < k + 1 → env.write_data (s.sent ++ markers j) [FLASH_UPLOAD] = 1
              ∧ answer env (s.sent ++ markers (j + 1)) 50 = none := by
          intro k h j hj
          cases j with
          | zero => exact ⟨by simpa [markers] using hwr, by simpa [markers] using hans⟩
          | succ j => exact h j (by omega)
        refine ⟨n + 1, p', Msg.sending_init :: o ++ o3, ?_, by omega, ?_, ?_, ?_⟩
        · simp only []
          rw [hs']; simp [List.append_assoc]
        · intro i hi
          cases i with
          | zero => exact ⟨by simpa [markers] using hwr, by simpa [markers] using hans⟩
          | succ j => exact hsil j (by omega)
        · intro m hm
          rcases List.mem_append.1 hm with h | h
          · exact hinit m h
          · exact ho3 m h
        · simp only []
          revert hex
          cases (handshake_loop env fuel
            { s with sent := s.sent ++ [[FLASH_UPLOAD]], polls := p,
                     out := s.out ++ Msg.sending_init :: o }).2 with
          | fuel =>
            rintro ⟨h1, h2⟩
            exact ⟨by omega, fun i hi => hround n h2 i hi⟩
          | done =>
            rintro ⟨h1, h2⟩
            refine ⟨by omega, ?_⟩
            rw [show n + 1 - 1 = (n - 1) + 1 by omega]
            exact h2
          | next =>
            rintro ⟨h1, h2, h3, h4⟩
            refine ⟨by omega, ?_, h3, ?_⟩
            · rw [show n + 1 - 1 = (n - 1) + 1 by omega]; exact h2
            · intro b hm
              rcases List.mem_append.1 hm with h | h
              · rcases List.mem_cons.1 h with h | h
                · cases h
                · exact diag_not_expected ho b h
              · exact h4 b h
    · simp only [hwr, if_false]
      exact ⟨1, p, Msg.sending_init :: o, by simp [markers], by omega, by intro i hi; omega,
        hinit, by omega, Or.inl (by simpa [markers] using hwr)⟩

/-! ## The transmission loop -/

theorem chunk_log_append (a b : List Msg) : chunk_log (a ++ b) = chunk_log a ++ chunk_log b := by
  induction a with
  | nil => rfl
  | cons m a ih => cases m <;> simp [chunk_log, ih]

theorem chunk_log_diag {o : List Msg} (h : ∀ m ∈ o, Msg.diag m = true) : chunk_log o = [] := by
  induction o with
  | nil => rfl
  | cons m o ih =>
    have hm := h m (List.mem_cons_self _ _)
    have := ih (fun x hx => h x (List.mem_cons_of_mem _ hx))
    cases m <;> simp_all [chunk_log, Msg.diag]

theorem diag_transfer {o : List Msg} (h : ∀ m ∈ o, Msg.diag m = true) :
    ∀ m ∈ o, Msg.transfer m = true := by
  intro m hm
  have := h m hm
  cases m <;> simp_all [Msg.transfer, Msg.diag]

/-- One iteration of the transmission loop, in terms of the receiver's answer. -/
theorem transfer_loop_succ (env : Env) (fuel : Nat) (s : State) (src : List Nat)
    (hfile : s.fileToSend = some src) (hdata : s.frame.data.length = PAYLOAD_SIZE)
    (hft : s.frame.frametype = REGULAR_FRAME) :
    ∃ p o, (∀ m ∈ o, Msg.diag m = true) ∧
      transfer_loop env (fuel + 1) s =
        if answer env (s.sent ++ [frame_bytes
            (frame_for ((s.frame.blocknum + 1) % 256) (src.take PAYLOAD_SIZE))]) 500 = some ACK then
          if src.length < PAYLOAD_SIZE then (s.sending src p o, Exit.next)
          else transfer_loop env fuel (s.sending src p o)
        else (s.sending src p (o ++ [Msg.failed_to_receive_ack]), Exit.done) := by
  have hff : calc_checksum
      { frametype := s.frame.frametype, blocknum := (s.frame.blocknum + 1) % 256,
        invblocknum := bitnot_u8 ((s.frame.blocknum + 1) % 256),
        data := src.take PAYLOAD_SIZE
          ++ List.replicate (PAYLOAD_SIZE - (src.take PAYLOAD_SIZE).length) 0,
        checksum := s.frame.checksum }
      = frame_for ((s.frame.blocknum + 1) % 256) (src.take PAYLOAD_SIZE) := by
    simp only [frame_for, calc_checksum, hft]
  simp only [transfer_loop, hfile, Option.getD_some, file_to_frame_spec _ _ hdata, Option.map_some']
  have hnn : ¬ (((src.take PAYLOAD_SIZE).length : Int) < 0) := by omega
  simp only [hnn, if_false, print, hff]
  have hblk : (frame_for ((s.frame.blocknum + 1) % 256) (src.take PAYLOAD_SIZE)).blocknum
      = (s.frame.blocknum + 1) % 256 := rfl
  have hlen : (src.take PAYLOAD_SIZE).length < PAYLOAD_SIZE ↔ src.length < PAYLOAD_SIZE := by
    simp only [List.length_take, PAYLOAD_SIZE]; omega
  split
  · next s1 hack =>
    rcases hsf : send_frame env _ _ with ⟨s2, r2⟩
    rw [hsf] at hack
    obtain ⟨-, o1, rfl, ho1⟩ := send_frame_inv _ _ _ _ _ hsf
    obtain ⟨hr, p, o2, rfl, -, ho2⟩ := expect_inv _ _ _ _ _ hack
    refine ⟨p, o1 ++ o2, ?_, ?_⟩
    · intro m hm
      rcases List.mem_append.1 hm with h | h
      · exact ho1 m h
      · exact ho2 m h
    · have hna : ¬ answer env (s.sent ++ [frame_bytes
          (frame_for ((s.frame.blocknum + 1) % 256) (src.take PAYLOAD_SIZE))]) 500 = some ACK := by
        simpa [answer] using hr
      simp [hna, State.sending, hblk]
  · next s1 hack =>
    rcases hsf : send_frame env _ _ with ⟨s2, r2⟩
    rw [hsf] at hack
    obtain ⟨-, o1, rfl, ho1⟩ := send_frame_inv _ _ _ _ _ hsf
    obtain ⟨hr, p, o2, rfl, -, ho2⟩ := expect_inv _ _ _ _ _ hack
    refine ⟨p, o1 ++ o2, ?_, ?_⟩
    · intro m hm
      rcases List.mem_append.1 hm with h | h
      · exact ho1 m h
      · exact ho2 m h
    · have hna : answer env (s.sent ++ [frame_bytes
          (frame_for ((s.frame.blocknum + 1) % 256) (src.take PAYLOAD_SIZE))]) 500 = some ACK := by
        simpa [answer] using hr
      have hlen2 : ((src.take PAYLOAD_SIZE).length : Int) < (PAYLOAD_SIZE : Int)
          ↔ src.length < PAYLOAD_SIZE := by
        rw [← hlen]; exact Int.ofNat_lt
      simp only [hna, if_true, hlen2]
      by_cases hl : src.length < PAYLOAD_SIZE
      · simp [hl, State.sending, hblk]
      · simp [hl, State.sending, hblk]

theorem frame_for_length (b : Nat) (src : List Nat) :
    (frame_for b (src.take PAYLOAD_SIZE)).data.length = PAYLOAD_SIZE := by
  simp only [frame_for, calc_checksum, List.length_append, List.length_replicate,
    List.length_take, PAYLOAD_SIZE]
  omega

theorem frames_from_succ_append (log : List (List Nat)) (src : List Nat) (b k : Nat) :
    log ++ [frame_bytes (frame_for ((b + 1) % 256) (src.take PAYLOAD_SIZE))]
        ++ frames_from (src.drop PAYLOAD_SIZE) ((b + 1) % 256) k
      = log ++ frames_from src b (k + 1) := by
  simp [frames_from]

theorem transfer_loop_spec (env : Env) (fuel : Nat) (s : State) (src : List Nat)
    (hfile : s.fileToSend = some src) (hdata : s.frame.data.length = PAYLOAD_SIZE)
    (hft : s.frame.frametype = REGULAR_FRAME) :
    ∃ k fr p o, (transfer_loop env fuel s).1
        = { s with fileToSend := some (src.drop (PAYLOAD_SIZE * k)), frame := fr,
                   transmissionRunning := s.transmissionRunning || decide (0 < k),
                   sent := s.sent ++ frames_from src s.frame.blocknum k,
                   polls := p, out := s.out ++ o }
      ∧ k ≤ fuel
      ∧ (∀ i, 1 ≤ i → i < k →
          Acked env s.sent src s.frame.blocknum i ∧ PAYLOAD_SIZE * i ≤ src.length)
      ∧ (∀ m ∈ o, Msg.transfer m = true)
      ∧ chunk_log o = chunks_from src s.frame.blocknum k
      ∧ match (transfer_loop env fuel s).2 with
        | Exit.fuel => k = fuel
            ∧ (∀ i, 1 ≤ i → i ≤ k →
                Acked env s.sent src s.frame.blocknum i ∧ PAYLOAD_SIZE * i ≤ src.length)
        | Exit.done => 1 ≤ k ∧ ¬ Acked env s.sent src s.frame.blocknum k
        | Exit.next => 1 ≤ k ∧ Acked env s.sent src s.frame.blocknum k
            ∧ src.length < PAYLOAD_SIZE * k := by
  induction fuel generalizing s src with
  | zero =>
    refine ⟨0, s.frame, s.polls, [], ?_, by omega, by intro i h1 h2; omega, by simp, rfl, ?_⟩
    · simp [transfer_loop, frames_from, ← hfile]
    · simp only [transfer_loop]
      exact ⟨trivial, by intro i h1 h2; omega⟩
  | succ fuel ih =>
    obtain ⟨p, o, ho, hstep⟩ := transfer_loop_succ env fuel s src hfile hdata hft
    rw [hstep]
    have hA1 : Acked env s.sent src s.frame.blocknum 1 ↔ answer env (s.sent ++ [frame_bytes
        (frame_for ((s.frame.blocknum + 1) % 256) (src.take PAYLOAD_SIZE))]) 500 = some ACK := by
      simp [Acked, frames_from]
    have hmsg : ∀ o', (∀ m ∈ o', Msg.transfer m = true) →
        ∀ m ∈ Msg.now_sending ((s.frame.blocknum + 1) % 256)
          ((src.take PAYLOAD_SIZE).length : Int) :: o', Msg.transfer m = true := by
      intro o' h m hm
      rcases List.mem_cons.1 hm with rfl | h'
      · rfl
      · exact h m h'
    by_cases hack : answer env (s.sent ++ [frame_bytes
        (frame_for ((s.frame.blocknum + 1) % 256) (src.take PAYLOAD_SIZE))]) 500 = some ACK
    · simp only [hack, if_true]
      by_cases hl : src.length < PAYLOAD_SIZE
      · simp only [hl, if_true]
        refine ⟨1, (frame_for ((s.frame.blocknum + 1) % 256) (src.take PAYLOAD_SIZE)), p,
          (Msg.now_sending ((s.frame.blocknum + 1) % 256) ((src.take PAYLOAD_SIZE).length : Int) :: o), ?_, by omega, by intro i h1 h2; omega,
          hmsg o (diag_transfer ho), ?_, ?_⟩
        · simp [State.sending, frames_from]
        · simp [chunk_log, chunks_from, chunk_log_diag ho]
        · exact ⟨by omega, hA1.2 hack, by omega⟩
      · simp only [hl, if_false]
        obtain ⟨k, fr, p', o', hs', hk, hacks, ho', hcl, hex⟩ := ih (s.sending src p o)
          (src.drop PAYLOAD_SIZE) rfl (frame_for_length _ _) rfl
        have hshift : ∀ i, Acked env (s.sending src p o).sent (src.drop PAYLOAD_SIZE)
            (s.sending src p o).frame.blocknum i ↔ Acked env s.sent src s.frame.blocknum (i + 1) := by
          intro i
          have hblk : (frame_for ((s.frame.blocknum + 1) % 256)
              (src.take PAYLOAD_SIZE)).blocknum = (s.frame.blocknum + 1) % 256 := rfl
          simp only [Acked, State.sending, hblk, frames_from_succ_append]
        have hlen : ∀ i, PAYLOAD_SIZE * i ≤ (src.drop PAYLOAD_SIZE).length →
            PAYLOAD_SIZE * (i + 1) ≤ src.length := by
          intro i h
          simp only [List.length_drop] at h
          simp only [PAYLOAD_SIZE] at h hl ⊢
          omega
        have hall : ∀ n, (∀ i, 1 ≤ i → i < n → Acked env (s.sending src p o).sent
              (src.drop PAYLOAD_SIZE) (s.sending src p o).frame.blocknum i
              ∧ PAYLOAD_SIZE * i ≤ (src.drop PAYLOAD_SIZE).length) →
            ∀ i, 1 ≤ i → i < n + 1 →
              Acked env s.sent src s.frame.blocknum i ∧ PAYLOAD_SIZE * i ≤ src.length := by
          intro n h i h1 h2
          rcases Nat.lt_or_ge 1 i with h3 | h3
          · obtain ⟨j, rfl⟩ : ∃ j, i = j + 1 := ⟨i - 1, by omega⟩
            have := h j (by omega) (by omega)
            exact ⟨(hshift j).1 this.1, hlen j this.2⟩
          · have : i = 1 := by omega
            subst this
            exact ⟨hA1.2 hack, by simp only [PAYLOAD_SIZE] at hl ⊢; omega⟩
        refine ⟨k + 1, fr, p',
          (Msg.now_sending ((s.frame.blocknum + 1) % 256) ((src.take PAYLOAD_SIZE).length : Int) :: (o ++ o')), ?_, by omega, hall k hacks, ?_, ?_, ?_⟩
        · rw [hs']
          simp only [State.sending, frames_from_succ_append]
          simp [List.drop_drop, Nat.mul_succ, Nat.add_comm, List.append_assoc]
          rfl
        · exact hmsg (o ++ o') (by
            intro m hm
            rcases List.mem_append.1 hm with h | h
            · exact diag_transfer ho m h
            · exact ho' m h)
        · simp only [chunk_log, chunk_log_append, chunk_log_diag ho, chunks_from, hcl,
            List.nil_append]
          rfl
        · revert hex
          cases (transfer_loop env fuel (s.sending src p o)).2 with
          | fuel =>
            rintro ⟨h1, h2⟩
            refine ⟨by omega, ?_⟩
            intro i hi1 hi2
            exact hall (k + 1) (fun i a b => h2 i a (by omega)) i hi1 (by omega)
          | done =>
            rintro ⟨h1, h2⟩
            exact ⟨by omega, fun h => h2 ((hshift k).2 h)⟩
          | next =>
            rintro ⟨h1, h2, h3⟩
            refine ⟨by omega, (hshift k).1 h2, ?_⟩
            simp only [List.length_drop] at h3
            simp only [PAYLOAD_SIZE] at h3 hl ⊢
            omega
    · simp only [hack, if_false]
      refine ⟨1, (frame_for ((s.frame.blocknum + 1) % 256) (src.take PAYLOAD_SIZE)), p,
        (Msg.now_sending ((s.frame.blocknum + 1) % 256) ((src.take PAYLOAD_SIZE).length : Int) :: (o ++ [Msg.failed_to_receive_ack])), ?_, by omega, by intro i h1 h2; omega,
        hmsg (o ++ [Msg.failed_to_receive_ack]) ?_, ?_, ?_⟩
      · simp [State.sending, frames_from]
      · intro m hm
        rcases List.mem_append.1 hm with h | h
        · exact diag_transfer ho m h
        · simp at h; subst h; rfl
      · simp [chunk_log, chunks_from, chunk_log_append, chunk_log_diag ho]
      · exact ⟨by omega, fun h => hack (hA1.1 h)⟩

/-! ## Teardown -/

theorem diag_teardown {o : List Msg} (h : ∀ m ∈ o, Msg.diag m = true) :
    ∀ m ∈ o, Msg.teardown m = true := by
  intro m hm
  have := h m hm
  cases m <;> simp_all [Msg.teardown, Msg.diag]

/-- The first block of `cleanup`: the best-effort cancellation. -/
theorem cancel_part_spec (env : Env) (s : State) :
    ∃ p o, (if s.transmissionRunning then
          (if !(recv_ack env (write_byte env
              { print s Msg.cancelling with transmissionRunning := false } CANCEL).1).2 then
            print (recv_ack env (write_byte env
              { print s Msg.cancelling with transmissionRunning := false } CANCEL).1).1
              Msg.failed_to_cancel
          else (recv_ack env (write_byte env
              { print s Msg.cancelling with transmissionRunning := false } CANCEL).1).1)
        else s)
        = { s with
            transmissionRunning := false,
            sent := s.sent ++ (if s.transmissionRunning then [[CANCEL]] else []),
            polls := p, out := s.out ++ o }
      ∧ (∀ m ∈ o, Msg.teardown m = true)
      ∧ (s.transmissionRunning = false → p = s.polls ∧ o = []) := by
  by_cases ht : s.transmissionRunning = true
  · rcases hw : write_byte env { print s Msg.cancelling with transmissionRunning := false } CANCEL
      with ⟨s1, r1⟩
    obtain ⟨-, o1, rfl, ho1⟩ := write_byte_inv _ _ _ _ _ hw
    rcases ha : recv_ack env { { print s Msg.cancelling with transmissionRunning := false } with
        sent := s.sent ++ [[CANCEL % 256]], polls := 0,
        out := (print s Msg.cancelling).out ++ o1 } with ⟨s2, r2⟩
    obtain ⟨-, p, o2, rfl, -, ho2⟩ := expect_inv _ _ _ _ _ ha
    refine ⟨p, Msg.cancelling :: (o1 ++ o2 ++ if r2 then [] else [Msg.failed_to_cancel]), ?_, ?_, ?_⟩
    · simp only [ht, if_true]
      simp only [print] at ha ⊢
      rw [ha]
      have hc : CANCEL % 256 = CANCEL := rfl
      cases r2
      · simp only [hc, Bool.not_false, if_true, print, Bool.false_eq_true, if_false,
          List.append_assoc, List.cons_append, List.nil_append, List.append_nil]
      · simp only [hc, Bool.not_true, Bool.false_eq_true, if_false, if_true,
          List.append_assoc, List.cons_append, List.nil_append, List.append_nil]
    · intro m hm
      simp only [List.mem_cons, List.mem_append] at hm
      rcases hm with rfl | (h | h) | h
      · rfl
      · exact diag_teardown ho1 m h
      · exact diag_teardown ho2 m h
      · cases r2
        · simp at h; subst h; rfl
        · simp at h
    · intro h; rw [h] at ht; cases ht
  · have ht' : s.transmissionRunning = false := by simpa using ht
    refine ⟨s.polls, [], ?_, by simp, fun _ => ⟨rfl, rfl⟩⟩
    simp only [ht', Bool.false_eq_true, if_false, List.append_nil]
    rw [← ht']

theorem release_all_spec (s : State) (h : s.transmissionRunning = false) :
    release_all s = State.closed s := by
  obtain ⟨rv, dop, tr, dl, fc, fts, fr, se, po, ou, re⟩ := s
  simp only at h
  subst h
  cases dop <;> cases dl <;> cases fc <;> cases fts <;>
    simp only [release_all, State.closed, releases] <;> simp

theorem cleanup_eq (env : Env) (s : State) :
    cleanup env s = release_all
      (if s.transmissionRunning then
          (if !(recv_ack env (write_byte env
              { print s Msg.cancelling with transmissionRunning := false } CANCEL).1).2 then
            print (recv_ack env (write_byte env
              { print s Msg.cancelling with transmissionRunning := false } CANCEL).1).1
              Msg.failed_to_cancel
          else (recv_ack env (write_byte env
              { print s Msg.cancelling with transmissionRunning := false } CANCEL).1).1)
        else s) := rfl

theorem cleanup_spec (env : Env) (s : State) :
    ∃ p o, cleanup env s
        = State.closed { s with
            sent := s.sent ++ (if s.transmissionRunning then [[CANCEL]] else []),
            polls := p, out := s.out ++ o }
      ∧ (∀ m ∈ o, Msg.teardown m = true)
      ∧ (s.transmissionRunning = false → p = s.polls ∧ o = []) := by
  obtain ⟨p, o, h, ho, hn⟩ := cancel_part_spec env s
  refine ⟨p, o, ?_, ho, hn⟩
  rw [cleanup_eq, h, release_all_spec _ rfl]
  simp [State.closed, releases]

/-! ## The end of `main` -/

theorem diag_final {o : List Msg} (h : ∀ m ∈ o, Msg.diag m = true) :
    ∀ m ∈ o, Msg.final m = true := by
  intro m hm
  have := h m hm
  cases m <;> simp_all [Msg.final, Msg.diag]

theorem main_done_spec (env : Env) (s : State) :
    ∃ p o, main_done env s
        = (State.closed { s with
            sent := s.sent ++ (if s.transmissionRunning then [[CANCEL]] else []),
            polls := p, out := s.out ++ o }, some s.retval)
      ∧ (∀ m ∈ o, Msg.teardown m = true)
      ∧ (s.transmissionRunning = false → p = s.polls ∧ o = []) := by
  obtain ⟨p, o, h, ho, hn⟩ := cleanup_spec env s
  refine ⟨p, o, ?_, ho, hn⟩
  simp only [main_done, h]
  rfl

theorem main_eot_spec (env : Env) (s : State) :
    ∃ p o, main_eot env s
        = (State.closed { s with
            retval := if answer env (s.sent ++ [[END_OF_TRANSMISSION]]) 500 = some ACK
              then EXIT_SUCCESS else s.retval,
            transmissionRunning := false,
            sent := s.sent ++ [[END_OF_TRANSMISSION]],
            polls := p, out := s.out ++ o },
          some (if answer env (s.sent ++ [[END_OF_TRANSMISSION]]) 500 = some ACK
              then EXIT_SUCCESS else s.retval))
      ∧ (∀ m ∈ o, Msg.final m = true) := by
  rcases hw : write_byte env (print s Msg.sending_eot) END_OF_TRANSMISSION with ⟨s1, r1⟩
  obtain ⟨-, o1, rfl, ho1⟩ := write_byte_inv _ _ _ _ _ hw
  have he : END_OF_TRANSMISSION % 256 = END_OF_TRANSMISSION := rfl
  simp only [main_eot, hw, he]
  split
  · next s2 ha =>
    obtain ⟨hr, p, o2, rfl, -, ho2⟩ := expect_inv _ _ _ _ _ ha
    have hna : ¬ answer env (s.sent ++ [[END_OF_TRANSMISSION]]) 500 = some ACK := by
      simpa [answer, print] using hr
    obtain ⟨p', o3, hd, -, ho3⟩ := main_done_spec env (print
      { s with transmissionRunning := false, sent := s.sent ++ [[END_OF_TRANSMISSION]],
               polls := p, out := s.out ++ [Msg.sending_eot] ++ o1 ++ o2 }
      Msg.failed_to_receive_ack)
    obtain ⟨rfl, rfl⟩ := ho3 rfl
    refine ⟨p', Msg.sending_eot :: (o1 ++ o2 ++ [Msg.failed_to_receive_ack]), ?_, ?_⟩
    · simp only [print] at hd ⊢
      rw [hd]
      simp [hna, State.closed, releases]
    · intro m hm
      simp only [List.mem_cons, List.mem_append, List.not_mem_nil, or_false] at hm
      rcases hm with rfl | (h | h) | rfl
      · rfl
      · exact diag_final ho1 m h
      · exact diag_final ho2 m h
      · rfl
  · next s2 ha =>
    obtain ⟨hr, p, o2, rfl, -, ho2⟩ := expect_inv _ _ _ _ _ ha
    have hna : answer env (s.sent ++ [[END_OF_TRANSMISSION]]) 500 = some ACK := by
      simpa [answer, print] using hr
    obtain ⟨p', o3, hd, -, ho3⟩ := main_done_spec env
      { s with retval := EXIT_SUCCESS, transmissionRunning := false,
               sent := s.sent ++ [[END_OF_TRANSMISSION]],
               polls := p, out := s.out ++ [Msg.sending_eot] ++ o1 ++ o2 ++ [Msg.success] }
    obtain ⟨rfl, rfl⟩ := ho3 rfl
    refine ⟨p', Msg.sending_eot :: (o1 ++ o2 ++ [Msg.success]), ?_, ?_⟩
    · simp only [print] at hd ⊢
      rw [hd]
      simp [hna, State.closed, releases]
    · intro m hm
      simp only [List.mem_cons, List.mem_append, List.not_mem_nil, or_false] at hm
      rcases hm with rfl | (h | h) | rfl
      · rfl
      · exact diag_final ho1 m h
      · exact diag_final ho2 m h
      · rfl

theorem chunk_log_after {o : List Msg} (h : ∀ m ∈ o, Msg.final m = true ∨ Msg.teardown m = true) :
    chunk_log o = [] := by
  induction o with
  | nil => rfl
  | cons m o ih =>
    have hm := h m (List.mem_cons_self _ _)
    have := ih (fun x hx => h x (List.mem_cons_of_mem _ hx))
    cases m <;> simp_all [chunk_log, Msg.final, Msg.teardown, Msg.diag]

theorem main_transfer_spec (env : Env) (fuel : Nat) (s : State) (src : List Nat)
    (hfile : s.fileToSend = some src) (hdata : s.frame.data.length = PAYLOAD_SIZE)
    (hret : s.retval = EXIT_FAILURE) (hcl : chunk_log s.out = []) :
    TransferRun env fuel s.sent src (main_transfer env fuel s).1 (main_transfer env fuel s).2
      ∧ (∃ o, (main_transfer env fuel s).1.out = s.out ++ o
          ∧ ∀ m ∈ o, Msg.after_nack m = true)
      ∧ ((main_transfer env fuel s).2 ≠ none →
          (main_transfer env fuel s).2 = some (main_transfer env fuel s).1.retval
          ∧ TornDown (main_transfer env fuel s).1
          ∧ (main_transfer env fuel s).1.released = s.released ++ releases s) := by
  obtain ⟨k, fr, p, o, hs, hk, hacks, ho, hchunks, hex⟩ := transfer_loop_spec env fuel
    { s with frame := { s.frame with blocknum := 0, frametype := REGULAR_FRAME } } src
    hfile hdata rfl
  simp only [main_transfer]
  rcases hloop : transfer_loop env fuel
    { s with frame := { s.frame with blocknum := 0, frametype := REGULAR_FRAME } } with ⟨s1, e⟩
  rw [hloop] at hs hex
  simp only at hs hex
  subst hs
  cases e with
  | fuel =>
    obtain ⟨rfl, hall⟩ := hex
    refine ⟨TransferRun.fuel hall rfl (by simp [chunk_log_append, hcl, hchunks]),
      ⟨o, rfl, fun m hm => by simp [Msg.after_nack, ho m hm]⟩, fun h => absurd rfl h⟩
  | done =>
    obtain ⟨h1, hrej⟩ := hex
    obtain ⟨p', o', hd, ho', -⟩ := main_done_spec env
      { s with fileToSend := some (src.drop (PAYLOAD_SIZE * k)), frame := fr,
               transmissionRunning := s.transmissionRunning || decide (0 < k),
               sent := s.sent ++ frames_from src 0 k, polls := p, out := s.out ++ o }
    simp only
    rw [hd]
    have hk0 : 0 < k := by omega
    refine ⟨?_, ⟨o ++ o', by simp [State.closed], ?_⟩, fun _ => ⟨?_, ?_, ?_⟩⟩
    · rw [hret]
      refine TransferRun.rejected k h1 hk hacks hrej (by simp [State.closed, hk0]) ?_
      simp [State.closed, chunk_log_append, hcl, hchunks,
        chunk_log_after (fun m hm => Or.inr (ho' m hm))]
    · intro m hm
      rcases List.mem_append.1 hm with h | h
      · simp [Msg.after_nack, ho m h]
      · simp [Msg.after_nack, ho' m h]
    · simp [State.closed]
    · simp [TornDown, State.closed]
    · simp [State.closed, releases, hfile]
  | next =>
    obtain ⟨h1, hlast, hshort⟩ := hex
    obtain ⟨p', o', hd, ho'⟩ := main_eot_spec env
      { s with fileToSend := some (src.drop (PAYLOAD_SIZE * k)), frame := fr,
               transmissionRunning := s.transmissionRunning || decide (0 < k),
               sent := s.sent ++ frames_from src 0 k, polls := p, out := s.out ++ o }
    simp only
    rw [hd]
    refine ⟨?_, ⟨o ++ o', by simp [State.closed], ?_⟩, fun _ => ⟨?_, ?_, ?_⟩⟩
    · rw [hret]
      refine TransferRun.finished k h1 hk hacks hlast hshort (by simp [State.closed]) ?_
      simp [State.closed, chunk_log_append, hcl, hchunks,
        chunk_log_after (fun m hm => Or.inl (ho' m hm))]
    · intro m hm
      rcases List.mem_append.1 hm with h | h
      · simp [Msg.after_nack, ho m h]
      · simp [Msg.after_nack, ho' m h]
    · simp [State.closed, hret]
    · simp [TornDown, State.closed]
    · simp [State.closed, releases, hfile]

/-! ## The handshake and the setup -/

theorem teardown_not_expected {o : List Msg} (h : ∀ m ∈ o, Msg.teardown m = true) (b : Nat) :
    Msg.expected_123 b ∉ o := by
  intro hm
  have := h _ hm
  simp [Msg.teardown, Msg.diag] at this

theorem after_nack_not_expected {o : List Msg} (h : ∀ m ∈ o, Msg.after_nack m = true)
    (b : Nat) : Msg.expected_123 b ∉ o := by
  intro hm
  have := h _ hm
  simp [Msg.after_nack, Msg.transfer, Msg.final, Msg.teardown, Msg.diag] at this

theorem chunk_log_handshake {o : List Msg} (h : ∀ m ∈ o, Msg.handshake m = true) :
    chunk_log o = [] := by
  induction o with
  | nil => rfl
  | cons m o ih =>
    have hm := h m (List.mem_cons_self _ _)
    have := ih (fun x hx => h x (List.mem_cons_of_mem _ hx))
    cases m <;> simp_all [chunk_log, Msg.handshake, Msg.diag]

theorem main_handshake_spec (env : Env) (fuel : Nat) (s : State) (src : List Nat)
    (hsent : s.sent = []) (hfile : s.fileToSend = some src)
    (hdata : s.frame.data.length = PAYLOAD_SIZE) (hret : s.retval = EXIT_FAILURE)
    (htr : s.transmissionRunning = false) (hcl : chunk_log s.out = [])
    (hne : ∀ b, Msg.expected_123 b ∉ s.out) :
    Run env fuel src (main_handshake env fuel s).1 (main_handshake env fuel s).2
      ∧ ((main_handshake env fuel s).2 ≠ none →
          (main_handshake env fuel s).2 = some (main_handshake env fuel s).1.retval
          ∧ TornDown (main_handshake env fuel s).1
          ∧ (main_handshake env fuel s).1.released = s.released ++ releases s) := by
  obtain ⟨n, p, o, hs, hn, hsil, ho, hex⟩ := handshake_loop_spec env fuel s
  simp only [main_handshake]
  rcases hloop : handshake_loop env fuel s with ⟨s1, e⟩
  rw [hloop] at hs hex
  simp only [hsent, List.nil_append] at hs hex hsil
  subst hs
  cases e with
  | fuel =>
    obtain ⟨rfl, hall⟩ := hex
    exact ⟨Run.no_echo hall rfl, fun h => absurd rfl h⟩
  | done =>
    obtain ⟨h1, hcase⟩ := hex
    obtain ⟨p', o', hd, ho', hnone⟩ := main_done_spec env
      { s with sent := markers n, polls := p, out := s.out ++ o }
    obtain ⟨rfl, rfl⟩ := hnone htr
    simp only
    rw [hd]
    simp only [htr, Bool.false_eq_true, if_false, List.append_nil]
    refine ⟨?_, fun _ => ⟨by simp [State.closed], by simp [TornDown, State.closed],
      by simp [State.closed, releases]⟩⟩
    rw [hret]
    rcases hcase with hw | ⟨hw, b, hans, hb⟩
    · exact Run.marker_write_failed n h1 hn hsil hw (by simp [State.closed])
    · exact Run.wrong_echo n b h1 hn hsil hw hans hb (by simp [State.closed])
  | next =>
    obtain ⟨h1, hw, hans, hexp⟩ := hex
    have hech : Echoed env n := ⟨h1, hsil, hw, hans⟩
    simp only
    rcases hwz : write_byte env { s with sent := markers n, polls := p, out := s.out ++ o } 0
      with ⟨s2, r2⟩
    obtain ⟨hr2, o2, rfl, ho2⟩ := write_byte_inv _ _ _ _ _ hwz
    simp only [Nat.zero_mod] at hr2 ⊢
    have hne2 : ∀ b, Msg.expected_123 b ∉ s.out ++ o ++ o2 := by
      intro b hm
      simp only [List.mem_append] at hm
      rcases hm with (h | h) | h
      · exact hne b h
      · exact hexp b h
      · exact diag_not_expected ho2 b h
    cases r2 with
    | false =>
      have hwf : env.write_data (markers n) [0] ≠ 1 := by simpa using hr2
      obtain ⟨p', o', hd, ho', hnone⟩ := main_done_spec env
        { s with sent := markers n ++ [[0]], polls := 0, out := s.out ++ o ++ o2 }
      obtain ⟨rfl, rfl⟩ := hnone htr
      simp only
      rw [hd]
      simp only [htr, Bool.false_eq_true, if_false, List.append_nil]
      refine ⟨?_, fun _ => ⟨by simp [State.closed], by simp [TornDown, State.closed],
        by simp [State.closed, releases]⟩⟩
      rw [hret]
      exact Run.zero_write_failed n hn hech hwf (by simp [State.closed])
        (by simpa [State.closed] using hne2)
    | true =>
      have hwt : env.write_data (markers n) [0] = 1 := by simpa using hr2
      simp only
      rcases hnk : recv_nack env (print
        { s with sent := markers n ++ [[0]], polls := 0, out := s.out ++ o ++ o2 }
        Msg.waiting_for_nack) with ⟨s3, r3⟩
      obtain ⟨hr3, p3, o3, rfl, -, ho3⟩ := expect_inv _ _ _ _ _ hnk
      simp only [print] at hr3 ⊢
      have hne3 : ∀ b, Msg.expected_123 b ∉
          s.out ++ o ++ o2 ++ [Msg.waiting_for_nack] ++ o3 := by
        intro b hm
        rcases List.mem_append.1 hm with h | h
        · rcases List.mem_append.1 h with h | h
          · exact hne2 b h
          · simp at h
        · exact diag_not_expected ho3 b h
      cases r3 with
      | false =>
        have hna : answer env (markers n ++ [[0]]) 500 ≠ some NACK := by
          simpa [answer] using hr3
        obtain ⟨p', o', hd, ho', hnone⟩ := main_done_spec env (print
          { s with sent := markers n ++ [[0]], polls := p3,
                   out := s.out ++ o ++ o2 ++ [Msg.waiting_for_nack] ++ o3 }
          Msg.failed_to_receive_nak)
        obtain ⟨rfl, rfl⟩ := hnone htr
        simp only [print] at hd ⊢
        rw [hd]
        simp only [htr, Bool.false_eq_true, if_false, List.append_nil]
        refine ⟨?_, fun _ => ⟨by simp [State.closed], by simp [TornDown, State.closed],
          by simp [State.closed, releases]⟩⟩
        rw [hret]
        refine Run.no_nack n hn hech hwt hna (by simp [State.closed]) ?_ (by simp [State.closed])
        intro b hm
        simp only [State.closed] at hm
        rcases List.mem_append.1 hm with h | h
        · exact hne3 b h
        · simp at h
      | true =>
        have hna : answer env (markers n ++ [[0]]) 500 = some NACK := by
          simpa [answer] using hr3
        simp only
        obtain ⟨hrun, ⟨o4, hout4, ho4⟩, hend⟩ := main_transfer_spec env fuel
          { s with sent := markers n ++ [[0]], polls := p3,
                   out := s.out ++ o ++ o2 ++ [Msg.waiting_for_nack] ++ o3 }
          src hfile hdata hret (by
            simp [chunk_log_append, hcl, chunk_log_handshake ho, chunk_log_diag ho2,
              chunk_log_diag ho3, chunk_log])
        refine ⟨Run.started n _ hn ⟨hech, hwt, hna⟩ ?_ ?_ hrun, fun h => ?_⟩
        · intro b hm
          rw [hout4] at hm
          rcases List.mem_append.1 hm with h | h
          · exact hne3 b h
          · exact after_nack_not_expected ho4 b h
        · rw [hout4]; simp
        · have := hend h
          simpa [releases] using this

theorem main_of_setup_ok (env : Env) (fuel : Nat) (src : List Nat) (hok : SetupOk env)
    (hsrc : env.fopen = some src) :
    main env fuel = main_handshake env fuel (setup_state src) := by
  obtain ⟨h1, h2, -, h4, h5, h6, h7, h8, h9, h10, h11⟩ := hok
  have a1 : ¬ env.argc < 2 := by omega
  have a6 : ¬ env.ftdi_usb_get_strings < 0 := by omega
  have a7 : ¬ env.ftdi_usb_open_dev < 0 := by omega
  have a8 : ¬ env.ftdi_set_baudrate < 0 := by omega
  have a9 : ¬ env.ftdi_set_line_property < 0 := by omega
  have a10 : ¬ env.ftdi_write_data_set_chunksize < 0 := by omega
  have a11 : ¬ env.ftdi_read_data_set_chunksize < 0 := by omega
  simp only [main]
  split
  · omega
  split
  · simp_all
  split
  · simp_all
  split
  · simp_all
  split
  · omega
  split
  · omega
  · simp only [hsrc, h4, h5, setup_state, print, State.init]
    rfl

theorem main_done_idle (env : Env) (s : State) (h : s.transmissionRunning = false) :
    (main_done env s).1.sent = s.sent ∧ (main_done env s).2 = some s.retval := by
  obtain ⟨p, o, hd, -, -⟩ := main_done_spec env s
  rw [hd]
  simp [State.closed, h]

theorem main_failed_idle (env : Env) (s : State) (h : s.transmissionRunning = false)
    (hs : s.sent = []) (hr : s.retval = 1) : SetupFailed (main_done env s) := by
  have := main_done_idle env s h
  rw [hs, hr] at this
  exact this

theorem main_of_setup_failed (env : Env) (fuel : Nat) (h : ¬ SetupOk env) :
    SetupFailed (main env fuel) := by
  simp only [main]
  by_cases c1 : env.argc < 2
  · rw [if_pos c1]; exact ⟨rfl, rfl⟩
  rw [if_neg c1]
  by_cases c2 : (!env.signal_ok) = true
  · rw [if_pos c2]; exact ⟨rfl, rfl⟩
  rw [if_neg c2]
  by_cases c3 : env.fopen = none
  · rw [if_pos c3]; exact ⟨rfl, rfl⟩
  rw [if_neg c3]
  by_cases c4 : (!env.ftdi_new_ok) = true
  · rw [if_pos c4]; exact ⟨rfl, rfl⟩
  rw [if_neg c4]
  by_cases c5 : env.ftdi_usb_find_all < 0
  · rw [if_pos c5]; exact main_failed_idle env _ rfl rfl rfl
  rw [if_neg c5]
  by_cases c6 : env.ftdi_usb_find_all ≠ 1
  · rw [if_pos c6]; exact main_failed_idle env _ rfl rfl rfl
  rw [if_neg c6]
  by_cases c7 : env.ftdi_usb_get_strings < 0
  · rw [if_pos c7]; exact main_failed_idle env _ rfl rfl rfl
  rw [if_neg c7]
  by_cases c8 : env.ftdi_usb_open_dev < 0
  · rw [if_pos c8]; exact main_failed_idle env _ rfl rfl rfl
  rw [if_neg c8]
  by_cases c9 : env.ftdi_set_baudrate < 0
  · rw [if_pos c9]; exact main_failed_idle env _ rfl rfl rfl
  rw [if_neg c9]
  by_cases c10 : env.ftdi_set_line_property < 0
  · rw [if_pos c10]; exact main_failed_idle env _ rfl rfl rfl
  rw [if_neg c10]
  by_cases c11 : env.ftdi_write_data_set_chunksize < 0
  · rw [if_pos c11]; exact main_failed_idle env _ rfl rfl rfl
  rw [if_neg c11]
  by_cases c12 : env.ftdi_read_data_set_chunksize < 0
  · rw [if_pos c12]; exact main_failed_idle env _ rfl rfl rfl
  rw [if_neg c12]
  exfalso
  apply h
  simp only [Bool.not_eq_true', Bool.not_eq_false, Bool.not_eq_true] at c2 c4
  simp only [ne_eq, Decidable.not_not] at c6
  exact ⟨by omega, by simpa using c2, c3, by simpa using c4, c6, by omega, by omega,
    by omega, by omega, by omega, by omega⟩

theorem main_spec (env : Env) (fuel : Nat) (src : List Nat) (hok : SetupOk env)
    (hsrc : env.fopen = some src) :
    Run env fuel src (main env fuel).1 (main env fuel).2
      ∧ ((main env fuel).2 ≠ none →
          (main env fuel).2 = some (main env fuel).1.retval
          ∧ TornDown (main env fuel).1
          ∧ (main env fuel).1.released
              = [Res.usb_close, Res.list_free, Res.ftdi_free, Res.fclose]) := by
  rw [main_of_setup_ok env fuel src hok hsrc]
  have h := main_handshake_spec env fuel (setup_state src) src rfl rfl (by
    simp [setup_state, State.init, frame_init]) rfl rfl rfl (by simp [setup_state])
  exact h

/-! ## Frames on the wire -/

theorem frame_bytes_length (b : Nat) (src : List Nat) :
    (frame_bytes (frame_for b (src.take PAYLOAD_SIZE))).length = sizeof_xmodemframe := by
  have := frame_for_length b src
  simp only [frame_bytes, List.length_append, List.length_cons, List.length_nil, this,
    sizeof_xmodemframe]

theorem frames_from_length (src : List Nat) (b k : Nat) : (frames_from src b k).length = k := by
  induction k generalizing src b with
  | zero => rfl
  | succ k ih => simp [frames_from, ih]

theorem frames_from_get (src : List Nat) (b k i : Nat) (h : i < k) :
    (frames_from src b k)[i]? = some (frame_bytes (frame_for ((b + i + 1) % 256)
      ((src.drop (PAYLOAD_SIZE * i)).take PAYLOAD_SIZE))) := by
  induction k generalizing src b i with
  | zero => omega
  | succ k ih =>
    cases i with
    | zero => simp [frames_from]
    | succ i =>
      simp only [frames_from, List.getElem?_cons_succ]
      rw [ih _ _ i (by omega), List.drop_drop]
      have h1 : ((b + 1) % 256 + i + 1) % 256 = (b + (i + 1) + 1) % 256 := by omega
      have h2 : PAYLOAD_SIZE + PAYLOAD_SIZE * i = PAYLOAD_SIZE * (i + 1) := by ring
      rw [h1, h2]

theorem frames_from_succ_last (src : List Nat) (b k : Nat) :
    frames_from src b (k + 1) = frames_from src b k
      ++ [frame_bytes (frame_for ((b + k + 1) % 256)
        ((src.drop (PAYLOAD_SIZE * k)).take PAYLOAD_SIZE))] := by
  induction k generalizing src b with
  | zero => simp [frames_from]
  | succ k ih =>
    rw [frames_from, ih]
    simp only [frames_from, List.cons_append, List.drop_drop]
    have h1 : ((b + 1) % 256 + k + 1) % 256 = (b + (k + 1) + 1) % 256 := by omega
    have h2 : PAYLOAD_SIZE + PAYLOAD_SIZE * k = PAYLOAD_SIZE * (k + 1) := by ring
    rw [h1, h2]

theorem frames_from_take (src : List Nat) (b k i : Nat) (h : i ≤ k) :
    (frames_from src b k).take i = frames_from src b i := by
  induction k generalizing src b i with
  | zero =>
    have : i = 0 := by omega
    subst this; rfl
  | succ k ih =>
    cases i with
    | zero => rfl
    | succ i => simp [frames_from, ih _ _ i (by omega)]

theorem frames_from_all_frames (src : List Nat) (b k : Nat) :
    ∀ f ∈ frames_from src b k, f.length = sizeof_xmodemframe := by
  induction k generalizing src b with
  | zero => simp [frames_from]
  | succ k ih =>
    intro f hf
    simp only [frames_from, List.mem_cons] at hf
    rcases hf with rfl | hf
    · exact frame_bytes_length _ _
    · exact ih _ _ f hf

theorem regular_frames_append (a b : List (List Nat)) :
    regular_frames (a ++ b) = regular_frames a ++ regular_frames b := by
  simp [regular_frames]

theorem regular_frames_markers (n : Nat) : regular_frames (markers n) = [] := by
  simp only [regular_frames, markers, List.filter_eq_nil_iff, List.mem_replicate]
  rintro f ⟨-, rfl⟩
  decide

theorem regular_frames_byte (x : Nat) : regular_frames [[x]] = [] := by
  simp [regular_frames, sizeof_xmodemframe, PAYLOAD_SIZE]

theorem regular_frames_frames (src : List Nat) (b k : Nat) :
    regular_frames (frames_from src b k) = frames_from src b k := by
  simp only [regular_frames, List.filter_eq_self]
  intro f hf
  simpa using frames_from_all_frames src b k f hf

theorem chunks_from_length (src : List Nat) (b k : Nat) : (chunks_from src b k).length = k := by
  induction k generalizing src b with
  | zero => rfl
  | succ k ih => simp [chunks_from, ih]

theorem chunks_from_succ_last (src : List Nat) (b k : Nat) :
    chunks_from src b (k + 1) = chunks_from src b k
      ++ [((b + k + 1) % 256,
          (((src.drop (PAYLOAD_SIZE * k)).take PAYLOAD_SIZE).length : Int))] := by
  induction k generalizing src b with
  | zero => simp [chunks_from]
  | succ k ih =>
    rw [chunks_from, ih]
    simp only [chunks_from, List.cons_append, List.drop_drop]
    have h1 : ((b + 1) % 256 + k + 1) % 256 = (b + (k + 1) + 1) % 256 := by omega
    have h2 : PAYLOAD_SIZE + PAYLOAD_SIZE * k = PAYLOAD_SIZE * (k + 1) := by ring
    rw [h1, h2]

/-! ## Reading a run -/

theorem answered_unique (env : Env) (m n : Nat) (hm : Answered env m) (hn : Answered env n) :
    m = n := by
  obtain ⟨m1, msil, mans⟩ := hm
  obtain ⟨n1, nsil, nans⟩ := hn
  rcases Nat.lt_trichotomy m n with h | h | h
  · exact absurd (nsil (m - 1) (by omega)) mans
  · exact h
  · exact absurd (msil (n - 1) (by omega)) nans

theorem echoed_answered (env : Env) (n : Nat) (h : Echoed env n) : Answered env n := by
  obtain ⟨h1, hsil, -, hans⟩ := h
  refine ⟨h1, hsil, fun hs => ?_⟩
  have := hs.2
  rw [show n - 1 + 1 = n by omega, hans] at this
  cases this

theorem write_failed_answered (env : Env) (n : Nat) (h1 : 1 ≤ n)
    (hsil : ∀ i, i + 1 < n → Silent env i)
    (hw : env.write_data (markers (n - 1)) [FLASH_UPLOAD] ≠ 1) : Answered env n :=
  ⟨h1, hsil, fun hs => hw hs.1⟩

theorem wrong_echo_answered (env : Env) (n b : Nat) (h1 : 1 ≤ n)
    (hsil : ∀ i, i + 1 < n → Silent env i)
    (hans : answer env (markers n) 50 = some b) : Answered env n := by
  refine ⟨h1, hsil, fun hs => ?_⟩
  have := hs.2
  rw [show n - 1 + 1 = n by omega, hans] at this
  cases this

theorem not_answered_of_silent (env : Env) (n fuel : Nat) (hn : n ≤ fuel)
    (hsil : ∀ i, i < fuel → Silent env i) : ¬ Answered env n := by
  rintro ⟨h1, -, hans⟩
  exact hans (hsil (n - 1) (by omega))

/-- A run in which the handshake completed at round `n` went on to the
transmission. -/
theorem run_of_started (env : Env) (fuel : Nat) (src : List Nat) (st : State)
    (res : Option Int) (n : Nat) (hrun : Run env fuel src st res) (hs : Started env n)
    (hn : n ≤ fuel) :
    TransferRun env fuel (markers n ++ [[0]]) src st res
      ∧ (∀ b, Msg.expected_123 b ∉ st.out) ∧ Msg.waiting_for_nack ∈ st.out := by
  have ha := echoed_answered env n hs.1
  cases hrun with
  | no_echo hsil hsent => exact absurd ha (not_answered_of_silent env n fuel hn hsil)
  | marker_write_failed m h1 hm hsil hw hsent =>
    have := answered_unique env m n (write_failed_answered env m h1 hsil hw) ha
    subst this
    exact absurd hs.1.2.2.1 hw
  | wrong_echo m b h1 hm hsil hw hans hb hsent =>
    have := answered_unique env m n (wrong_echo_answered env m b h1 hsil hans) ha
    subst this
    rw [hs.1.2.2.2] at hans
    exact absurd (Option.some.inj hans).symm hb
  | zero_write_failed m hm he hw hsent hout =>
    have := answered_unique env m n (echoed_answered env m he) ha
    subst this
    exact absurd hs.2.1 hw
  | no_nack m hm he hw hans hsent hout hwait =>
    have := answered_unique env m n (echoed_answered env m he) ha
    subst this
    exact absurd hs.2.2 hans
  | started m _ hm hs' hout hwait ht =>
    have := answered_unique env m n (echoed_answered env m hs'.1) ha
    subst this
    exact ⟨ht, hout, hwait⟩

/-- The Regular frames of a run are the first frames of the file. -/
theorem run_frames (env : Env) (fuel : Nat) (src : List Nat) (st : State)
    (res : Option Int) (hrun : Run env fuel src st res) :
    ∃ k, regular_frames st.sent = frames_from src 0 k := by
  cases hrun with
  | no_echo hsil hsent => exact ⟨0, by rw [hsent, regular_frames_markers]; rfl⟩
  | marker_write_failed m h1 hm hsil hw hsent =>
    exact ⟨0, by rw [hsent, regular_frames_markers]; rfl⟩
  | wrong_echo m b h1 hm hsil hw hans hb hsent =>
    exact ⟨0, by rw [hsent, regular_frames_markers]; rfl⟩
  | zero_write_failed m hm he hw hsent hout =>
    exact ⟨0, by
      rw [hsent, regular_frames_append, regular_frames_markers, regular_frames_byte]; rfl⟩
  | no_nack m hm he hw hans hsent hout hwait =>
    exact ⟨0, by
      rw [hsent, regular_frames_append, regular_frames_markers, regular_frames_byte]; rfl⟩
  | started m _ hm hs' hout hwait ht =>
    cases ht with
    | fuel hack hsent hchunks =>
      exact ⟨fuel, by
        rw [hsent, regular_frames_append, regular_frames_append, regular_frames_markers,
          regular_frames_byte, regular_frames_frames]; rfl⟩
    | rejected k h1 hk hack hrej hsent hchunks =>
      exact ⟨k, by
        rw [hsent, regular_frames_append, regular_frames_append, regular_frames_append,
          regular_frames_markers, regular_frames_byte, regular_frames_byte,
          regular_frames_frames]; simp⟩
    | finished k h1 hk hack hlast hshort hsent hchunks =>
      exact ⟨k, by
        rw [hsent, regular_frames_append, regular_frames_append, regular_frames_append,
          regular_frames_markers, regular_frames_byte, regular_frames_byte,
          regular_frames_frames]; simp⟩

/-- The Regular frames of any run of `main` are the first frames of the file
that `fopen` delivered. -/
theorem main_frames (env : Env) (fuel : Nat) :
    ∃ k, regular_frames (main env fuel).1.sent = frames_from (env.fopen.getD []) 0 k := by
  by_cases hok : SetupOk env
  · cases hsrc : env.fopen with
    | none => exact absurd hsrc hok.2.2.1
    | some src => exact run_frames env fuel src _ _ (main_spec env fuel src hok hsrc).1
  · exact ⟨0, by rw [(main_of_setup_failed env fuel hok).1]; rfl⟩

/-! ## Checksum (C1) -/

/-- C1. For every frame with a 128-byte payload, whatever its block number and
complement, `calc_checksum` stores `(1 + blocknum + invblocknum + sum of the
payload bytes) mod 256` in `checksum` and leaves the frame type, the block
number, the complement and the payload as they were. -/
theorem C1_calc_checksum (frame : xmodemframe) (h : frame.data.length = PAYLOAD_SIZE) :
    (calc_checksum frame).checksum
        = (1 + frame.blocknum + frame.invblocknum + frame.data.sum) % 256
      ∧ (calc_checksum frame).frametype = frame.frametype
      ∧ (calc_checksum frame).blocknum = frame.blocknum
      ∧ (calc_checksum frame).invblocknum = frame.invblocknum
      ∧ (calc_checksum frame).data = frame.data :=
  calc_checksum_spec frame h

set_option maxRecDepth 100000 in
/-- C1 at a frame with block number 7, complement 248 and an all-0xFF payload:
the checksum is `(1 + 7 + 248 + 128 * 255) mod 256 = 128`. -/
theorem C1_calc_checksum_witness :
    (calc_checksum sample_frame).checksum
        = (1 + 7 + 248 + (List.replicate 128 255).sum) % 256
      ∧ (calc_checksum sample_frame).checksum = 128 :=
  ⟨(C1_calc_checksum sample_frame (by decide)).1, by decide⟩

/-! ## Chunking (C2) -/

theorem acked_of_ack_all (env : Env)
    (hack : ∀ log f, f.length = sizeof_xmodemframe → answer env (log ++ [f]) 500 = some ACK)
    (log : List (List Nat)) (src : List Nat) (b i : Nat) (hi : 1 ≤ i) :
    Acked env log src b i := by
  obtain ⟨j, rfl⟩ : ∃ j, i = j + 1 := ⟨i - 1, by omega⟩
  rw [Acked, frames_from_succ_last, ← List.append_assoc]
  exact hack _ _ (frame_bytes_length _ _)

/-- When every frame of the file is acknowledged, the transmission sends
`src.length / 128 + 1` frames and then the EOT byte. -/
theorem transfer_all_acked (env : Env) (fuel : Nat) (log : List (List Nat)) (src : List Nat)
    (st : State) (res : Option Int) (ht : TransferRun env fuel log src st res)
    (hack : ∀ i, 1 ≤ i → i ≤ src.length / PAYLOAD_SIZE + 1 → Acked env log src 0 i)
    (hk : src.length / PAYLOAD_SIZE + 1 ≤ fuel) :
    st.sent = log ++ frames_from src 0 (src.length / PAYLOAD_SIZE + 1)
        ++ [[END_OF_TRANSMISSION]]
      ∧ chunk_log st.out = chunks_from src 0 (src.length / PAYLOAD_SIZE + 1)
      ∧ res = some (if answer env st.sent 500 = some ACK then EXIT_SUCCESS
          else EXIT_FAILURE) := by
  cases ht with
  | fuel hall hsent hchunks =>
    have := (hall (src.length / PAYLOAD_SIZE + 1) (Nat.le_add_left _ _) hk).2
    simp only [PAYLOAD_SIZE] at this
    omega
  | rejected k h1 hk' hall hrej hsent hchunks =>
    have hle : k ≤ src.length / PAYLOAD_SIZE + 1 := by
      rcases Nat.lt_or_ge 1 k with h | h
      · have := (hall (k - 1) (by omega) (by omega)).2
        simp only [PAYLOAD_SIZE] at this ⊢
        omega
      · exact le_trans h (Nat.le_add_left _ _)
    exact absurd (hack k h1 hle) hrej
  | finished k h1 hk' hall hlast hshort hsent hchunks =>
    have hke : k = src.length / PAYLOAD_SIZE + 1 := by
      simp only [PAYLOAD_SIZE] at hshort ⊢
      rcases Nat.lt_or_ge 1 k with h | h
      · have := (hall (k - 1) (by omega) (by omega)).2
        simp only [PAYLOAD_SIZE] at this
        omega
      · omega
    subst hke
    exact ⟨hsent, hchunks, rfl⟩

theorem prompt_receiver_acks (src : List Nat) (log : List (List Nat)) (f : List Nat)
    (hf : f.length = sizeof_xmodemframe) :
    answer (env_of src full_write prompt_receiver) (log ++ [f]) 500 = some ACK := by
  have h1 : f ≠ [FLASH_UPLOAD] := by
    rintro rfl; simp [sizeof_xmodemframe, PAYLOAD_SIZE] at hf
  have h2 : f ≠ [0] := by
    rintro rfl; simp [sizeof_xmodemframe, PAYLOAD_SIZE] at hf
  simp [answer, first_byte, env_of, prompt_receiver, h1, h2, ACK]

theorem prompt_receiver_started (src : List Nat) :
    Started (env_of src full_write prompt_receiver) 1 := by
  refine ⟨⟨le_refl _, fun i hi => by omega, rfl, ?_⟩, rfl, ?_⟩
  · simp [answer, first_byte, env_of, prompt_receiver, markers, FLASH_UPLOAD]
  · simp [answer, first_byte, env_of, prompt_receiver, markers, FLASH_UPLOAD, NACK]

/-- When the handshake completed, the frames before the `k`-th were
acknowledged and the file reaches into the `k`-th block, the run wrote at
least `k` frames. -/
theorem transfer_reaches (env : Env) (fuel n k : Nat) (src : List Nat) (st : State)
    (res : Option Int) (ht : TransferRun env fuel (markers n ++ [[0]]) src st res)
    (h1 : 1 ≤ k) (hk : k ≤ fuel) (hex : PAYLOAD_SIZE * (k - 1) ≤ src.length)
    (hprev : ∀ i, 1 ≤ i → i < k → Acked env (markers n ++ [[0]]) src 0 i) :
    ∃ j, k ≤ j ∧ regular_frames st.sent = frames_from src 0 j := by
  cases ht with
  | fuel hall hsent hchunks =>
    refine ⟨fuel, hk, ?_⟩
    rw [hsent, regular_frames_append, regular_frames_append, regular_frames_markers,
      regular_frames_byte, regular_frames_frames]
    rfl
  | rejected j h1' hj hall hrej hsent hchunks =>
    refine ⟨j, ?_, ?_⟩
    · rcases Nat.lt_or_ge j k with h | h
      · exact absurd (hprev j h1' h) hrej
      · exact h
    · rw [hsent, regular_frames_append, regular_frames_append, regular_frames_append,
        regular_frames_markers, regular_frames_byte, regular_frames_byte,
        regular_frames_frames]
      simp
  | finished j h1' hj hall hlast hshort hsent hchunks =>
    refine ⟨j, ?_, ?_⟩
    · rcases Nat.lt_or_ge j k with h | h
      · exfalso
        simp only [PAYLOAD_SIZE] at hshort hex
        have : 128 * j ≤ 128 * (k - 1) := Nat.mul_le_mul_left _ (by omega)
        omega
      · exact h
    · rw [hsent, regular_frames_append, regular_frames_append, regular_frames_append,
        regular_frames_markers, regular_frames_byte, regular_frames_byte,
        regular_frames_frames]
      simp

/-- The `k`-th frame of the file is written as soon as the frames before it
were acknowledged. -/
theorem main_reaches (env : Env) (fuel n k : Nat) (src : List Nat) (hok : SetupOk env)
    (hsrc : env.fopen = some src) (hs : Started env n) (hn : n ≤ fuel)
    (h1 : 1 ≤ k) (hk : k ≤ fuel) (hex : PAYLOAD_SIZE * (k - 1) ≤ src.length)
    (hprev : ∀ i, 1 ≤ i → i < k → Acked env (markers n ++ [[0]]) src 0 i) :
    (regular_frames (main env fuel).1.sent)[k - 1]?
      = some (frame_bytes (frame_for (k % 256)
          ((src.drop (PAYLOAD_SIZE * (k - 1))).take PAYLOAD_SIZE))) := by
  obtain ⟨hrun, -⟩ := main_spec env fuel src hok hsrc
  obtain ⟨ht, -, -⟩ := run_of_started env fuel src _ _ n hrun hs hn
  obtain ⟨j, hj, hfr⟩ := transfer_reaches env fuel n k src _ _ ht h1 hk hex hprev
  rw [hfr, frames_from_get src 0 j (k - 1) (by omega)]
  have : 0 + (k - 1) + 1 = k := by omega
  rw [this]

theorem checking_receiver_started (src : List Nat) :
    Started (env_of src full_write checking_receiver) 1 := by
  refine ⟨⟨le_refl _, fun i hi => by omega, rfl, ?_⟩, rfl, ?_⟩
  · simp [answer, first_byte, env_of, checking_receiver, markers, FLASH_UPLOAD]
  · simp [answer, first_byte, env_of, checking_receiver, markers, FLASH_UPLOAD, NACK]

set_option maxRecDepth 100000 in
/-- The checking receiver acknowledges the three frames of a 300-byte file of
sevens, and answers an all-zero buffer of 132 bytes with NACK. -/
theorem checking_receiver_acks :
    (∀ i, 1 ≤ i → i ≤ 3 →
        Acked (env_of (List.replicate 300 7) full_write checking_receiver)
          (markers 1 ++ [[0]]) (List.replicate 300 7) 0 i)
      ∧ answer (env_of (List.replicate 300 7) full_write checking_receiver)
          (markers 1 ++ [[0]] ++ [List.replicate 132 0]) 500 = some NACK := by
  refine ⟨?_, by decide⟩
  intro i h1 h3
  have : i = 1 ∨ i = 2 ∨ i = 3 := by omega
  rcases this with rfl | rfl | rfl <;> unfold Acked <;> decide

/-- C2, as the code has it. For a source of `N` bytes, a transport on which the
setup succeeds, and a receiver that completes the handshake at the `n`-th marker
and answers ACK to every frame of the run (to the `i`-th frame of the file once
the frames before it were written, for `i` from 1 to `N / 128 + 1`), the
transmission loop (given `fuel` for `n` handshake rounds and `N / 128 + 1`
frames) sends exactly `N / 128 + 1` Regular frames and announces one byte count
per frame, the last one being `N mod 128`.  The count is `ceil(N / 128)` when
`N` is not a multiple of 128, and 1 when `N = 0`. -/
theorem C2_chunking (env : Env) (fuel n : Nat) (src : List Nat) (hok : SetupOk env)
    (hsrc : env.fopen = some src) (hs : Started env n)
    (hack : ∀ i, 1 ≤ i → i ≤ src.length / PAYLOAD_SIZE + 1 →
      Acked env (markers n ++ [[0]]) src 0 i)
    (hn : n ≤ fuel) (hk : src.length / PAYLOAD_SIZE + 1 ≤ fuel) :
    (regular_frames (main env fuel).1.sent).length = src.length / PAYLOAD_SIZE + 1
      ∧ (chunk_log (main env fuel).1.out).length = src.length / PAYLOAD_SIZE + 1
      ∧ (chunk_log (main env fuel).1.out).getLast?.map Prod.snd
          = some ((src.length % PAYLOAD_SIZE : Nat) : Int)
      ∧ (src.length % PAYLOAD_SIZE ≠ 0 → (regular_frames (main env fuel).1.sent).length
          = (src.length + (PAYLOAD_SIZE - 1)) / PAYLOAD_SIZE)
      ∧ (src.length = 0 → (regular_frames (main env fuel).1.sent).length = 1) := by
  obtain ⟨hrun, -⟩ := main_spec env fuel src hok hsrc
  obtain ⟨ht, -, -⟩ := run_of_started env fuel src _ _ n hrun hs hn
  obtain ⟨hsent, hchunks, -⟩ := transfer_all_acked env fuel _ src _ _ ht hack hk
  have hcount : (regular_frames (main env fuel).1.sent).length = src.length / PAYLOAD_SIZE + 1 := by
    rw [hsent, regular_frames_append, regular_frames_append, regular_frames_append,
      regular_frames_markers, regular_frames_byte, regular_frames_byte, regular_frames_frames]
    simp [frames_from_length]
  refine ⟨hcount, by rw [hchunks, chunks_from_length], ?_, ?_, ?_⟩
  · rw [hchunks, chunks_from_succ_last, List.getLast?_concat]
    simp only [Option.map_some', List.length_take, List.length_drop, PAYLOAD_SIZE]
    congr 1
    have : (min 128 (src.length - 128 * (src.length / 128)) : Nat) = src.length % 128 := by
      omega
    exact_mod_cast this
  · intro h
    rw [hcount]
    simp only [PAYLOAD_SIZE] at h ⊢
    omega
  · intro h
    rw [hcount, h]
    rfl

set_option maxRecDepth 100000 in
/-- C2 as stated fails. A 128-byte source and a receiver that completes the
handshake and ACKs everything: the run succeeds, but two Regular frames are
sent (not `ceil(128 / 128) = 1`) and the last frame's announced chunk length is
0 (not 128). -/
theorem C2_chunking_counterexample :
    (main (env_of (List.replicate 128 7) full_write prompt_receiver) 3).2 = some 0
      ∧ (regular_frames
          (main (env_of (List.replicate 128 7) full_write prompt_receiver) 3).1.sent).length = 2
      ∧ (128 + 127) / 128 = 1
      ∧ chunk_log (main (env_of (List.replicate 128 7) full_write prompt_receiver) 3).1.out
          = [(1, 128), (2, 0)] := by
  decide

set_option maxRecDepth 100000 in
/-- C2 (amended) at a 300-byte source and a receiver that verifies each frame
and acknowledges the frames of this run: three frames, the last one announcing
`300 mod 128 = 44` bytes. -/
theorem C2_chunking_witness :
    (regular_frames
        (main (env_of (List.replicate 300 7) full_write checking_receiver) 5).1.sent).length = 3
      ∧ (chunk_log
          (main (env_of (List.replicate 300 7) full_write checking_receiver) 5).1.out
        ).getLast?.map Prod.snd = some 44 := by
  have h := C2_chunking (env_of (List.replicate 300 7) full_write checking_receiver) 5 1
    (List.replicate 300 7) (by decide) rfl (checking_receiver_started _)
    (fun i h1 h3 => checking_receiver_acks.1 i h1 (by simpa [PAYLOAD_SIZE] using h3))
    (by decide) (by simp [PAYLOAD_SIZE])
  exact ⟨by simpa [PAYLOAD_SIZE] using h.1, by simpa [PAYLOAD_SIZE] using h.2.2.1⟩

/-! ## Write failures and rejected frames (C3, C4) -/

/-- When the receiver acknowledges the first `k - 1` frames and not the `k`-th,
the transmission stops after `k` frames and cancels. -/
theorem transfer_rejected (env : Env) (fuel : Nat) (log : List (List Nat)) (src : List Nat)
    (st : State) (res : Option Int) (k : Nat) (ht : TransferRun env fuel log src st res)
    (h1 : 1 ≤ k) (hk : k ≤ fuel) (hex : PAYLOAD_SIZE * (k - 1) ≤ src.length)
    (hprev : ∀ i, 1 ≤ i → i < k → Acked env log src 0 i)
    (hrej : ¬ Acked env log src 0 k) :
    st.sent = log ++ frames_from src 0 k ++ [[CANCEL]]
      ∧ chunk_log st.out = chunks_from src 0 k
      ∧ res = some EXIT_FAILURE := by
  cases ht with
  | fuel hall hsent hchunks => exact absurd (hall k h1 hk).1 hrej
  | rejected k' h1' hk' hall hrej' hsent hchunks =>
    have : k' = k := by
      rcases Nat.lt_trichotomy k' k with h | h | h
      · exact absurd (hprev k' h1' h) hrej'
      · exact h
      · exact absurd (hall k h1 h).1 hrej
    subst this
    exact ⟨hsent, hchunks, rfl⟩
  | finished k' h1' hk' hall hlast hshort hsent hchunks =>
    exfalso
    rcases Nat.lt_trichotomy k' k with h | h | h
    · simp only [PAYLOAD_SIZE] at hshort hex
      have : 128 * k' ≤ 128 * (k - 1) := Nat.mul_le_mul_left _ (by omega)
      omega
    · subst h; exact hrej hlast
    · exact hrej (hall k h1 h).1

set_option maxRecDepth 100000 in
/-- C3 fails on the code. The first frame of a 200-byte source is written
short (100 of 132 bytes, which `send_frame` reports); `main` discards the
result of `send_frame`, waits for the acknowledgment, sends the second frame
and the EOT byte, and returns 0. -/
theorem C3_short_write_ignored :
    short_first_frame [[FLASH_UPLOAD], [0]]
        (frame_bytes (frame_for 1 (List.replicate 128 7))) = 100
      ∧ Msg.failed Op.send_frame 100
          ∈ (main (env_of (List.replicate 200 7) short_first_frame prompt_receiver) 5).1.out
      ∧ (regular_frames
          (main (env_of (List.replicate 200 7) short_first_frame prompt_receiver) 5).1.sent
        ).length = 2
      ∧ (main (env_of (List.replicate 200 7) short_first_frame prompt_receiver) 5).1.sent.getLast?
          = some [END_OF_TRANSMISSION]
      ∧ (main (env_of (List.replicate 200 7) short_first_frame prompt_receiver) 5).2
          = some 0 := by
  decide

/-- C4. Whatever the source: if the handshake completed, the receiver
acknowledged the frames before the `k`-th and answered the `k`-th frame with a
byte other than ACK, then the run wrote exactly the first `k` frames followed
by one CANCEL byte (no further frame, no EOT byte), returned a non-zero value,
and teardown ran to the end: the device is closed, the device list and the
FTDI context are released and the file is closed. -/
theorem C4_abort_on_non_ack (env : Env) (fuel n k b : Nat) (src : List Nat)
    (hok : SetupOk env) (hsrc : env.fopen = some src) (hs : Started env n) (hn : n ≤ fuel)
    (h1 : 1 ≤ k) (hk : k ≤ fuel) (hex : PAYLOAD_SIZE * (k - 1) ≤ src.length)
    (hprev : ∀ i, 1 ≤ i → i < k → Acked env (markers n ++ [[0]]) src 0 i)
    (hans : answer env (markers n ++ [[0]] ++ frames_from src 0 k) 500 = some b)
    (hb : b ≠ ACK) :
    (main env fuel).1.sent = markers n ++ [[0]] ++ frames_from src 0 k ++ [[CANCEL]]
      ∧ (regular_frames (main env fuel).1.sent).length = k
      ∧ [END_OF_TRANSMISSION] ∉ (main env fuel).1.sent
      ∧ (∃ c, (main env fuel).2 = some c ∧ c ≠ 0)
      ∧ (main env fuel).1.deviceOpened = false
      ∧ (main env fuel).1.devlist = false
      ∧ (main env fuel).1.ftdiContext = false
      ∧ (main env fuel).1.fileToSend = none
      ∧ (main env fuel).1.released
          = [Res.usb_close, Res.list_free, Res.ftdi_free, Res.fclose] := by
  obtain ⟨hrun, hend⟩ := main_spec env fuel src hok hsrc
  obtain ⟨ht, -, -⟩ := run_of_started env fuel src _ _ n hrun hs hn
  have hrej : ¬ Acked env (markers n ++ [[0]]) src 0 k := by
    intro h
    rw [Acked, hans] at h
    exact hb (Option.some.inj h)
  obtain ⟨hsent, -, hres⟩ := transfer_rejected env fuel _ src _ _ k ht h1 hk hex hprev hrej
  obtain ⟨-, htd, hrel⟩ := hend (by rw [hres]; simp)
  refine ⟨hsent, ?_, ?_, ⟨EXIT_FAILURE, hres, by decide⟩, htd.2.1, htd.2.2.1, htd.2.2.2.1,
    htd.2.2.2.2, hrel⟩
  · rw [hsent, regular_frames_append, regular_frames_append, regular_frames_append,
      regular_frames_markers, regular_frames_byte, regular_frames_byte, regular_frames_frames]
    simp [frames_from_length]
  · rw [hsent]
    intro hm
    simp only [List.mem_append, List.mem_singleton] at hm
    rcases hm with ((h | h) | h) | h
    · simp [markers, END_OF_TRANSMISSION, FLASH_UPLOAD] at h
    · simp [END_OF_TRANSMISSION] at h
    · have := frames_from_all_frames src 0 k _ h
      simp [sizeof_xmodemframe, PAYLOAD_SIZE] at this
    · simp [END_OF_TRANSMISSION, CANCEL] at h

theorem nack_second_started (src : List Nat) :
    Started (env_of src full_write nack_second_frame) 1 := by
  refine ⟨⟨le_refl _, fun i hi => by omega, rfl, ?_⟩, rfl, ?_⟩
  · simp [answer, first_byte, env_of, nack_second_frame, markers, FLASH_UPLOAD]
  · simp [answer, first_byte, env_of, nack_second_frame, markers, FLASH_UPLOAD, NACK]

set_option maxRecDepth 100000 in
/-- C4 at a 300-byte source with NACK after the second block: two frames and a
CANCEL byte are written, the run returns 1 and everything is released. -/
theorem C4_abort_on_non_ack_witness :
    (main (env_of (List.replicate 300 7) full_write nack_second_frame) 5).1.sent
        = markers 1 ++ [[0]] ++ frames_from (List.replicate 300 7) 0 2 ++ [[CANCEL]]
      ∧ (main (env_of (List.replicate 300 7) full_write nack_second_frame) 5).2 = some 1
      ∧ (main (env_of (List.replicate 300 7) full_write nack_second_frame) 5).1.fileToSend
          = none
      ∧ (main (env_of (List.replicate 300 7) full_write nack_second_frame) 5).1.deviceOpened
          = false := by
  have h := C4_abort_on_non_ack (env_of (List.replicate 300 7) full_write nack_second_frame)
    5 1 2 NACK (List.replicate 300 7) (by decide) rfl (nack_second_started _) (by decide)
    (by decide) (by decide) (by simp [PAYLOAD_SIZE])
    (by
      intro i h1 h2
      have : i = 1 := by omega
      subst this
      show answer _ _ 500 = some ACK
      decide)
    (by decide) (by decide)
  exact ⟨h.1, by decide, h.2.2.2.2.2.2.2.1, h.2.2.2.2.1⟩

/-! ## Payload, block numbers and complement (C5, C6, C7) -/

/-- The frames a run sends when the handshake completes and every frame is
acknowledged. -/
theorem frames_of_all_acked (env : Env) (fuel n : Nat) (src : List Nat) (hok : SetupOk env)
    (hsrc : env.fopen = some src) (hs : Started env n)
    (hack : ∀ log f, f.length = sizeof_xmodemframe → answer env (log ++ [f]) 500 = some ACK)
    (hn : n ≤ fuel) (hk : src.length / PAYLOAD_SIZE + 1 ≤ fuel) :
    regular_frames (main env fuel).1.sent
      = frames_from src 0 (src.length / PAYLOAD_SIZE + 1) := by
  obtain ⟨hrun, -⟩ := main_spec env fuel src hok hsrc
  obtain ⟨ht, -, -⟩ := run_of_started env fuel src _ _ n hrun hs hn
  obtain ⟨hsent, -, -⟩ := transfer_all_acked env fuel _ src _ _ ht
    (fun i hi _ => acked_of_ack_all env hack _ src 0 i hi) hk
  rw [hsent, regular_frames_append, regular_frames_append, regular_frames_append,
    regular_frames_markers, regular_frames_byte, regular_frames_byte, regular_frames_frames]
  simp

theorem payload_frame_bytes (b : Nat) (src : List Nat) :
    payload (frame_bytes (frame_for b (src.take PAYLOAD_SIZE)))
      = src.take PAYLOAD_SIZE
        ++ List.replicate (PAYLOAD_SIZE - (src.take PAYLOAD_SIZE).length) 0 := by
  have hl := frame_for_length b src
  have hd : (frame_for b (src.take PAYLOAD_SIZE)).data = src.take PAYLOAD_SIZE
      ++ List.replicate (PAYLOAD_SIZE - (src.take PAYLOAD_SIZE).length) 0 := rfl
  simp only [payload, frame_bytes, List.cons_append, List.nil_append, List.drop_succ_cons,
    List.drop_zero]
  rw [List.take_append_of_le_length (by omega)]
  have := List.take_length (l := (frame_for b (src.take PAYLOAD_SIZE)).data)
  rw [hl] at this
  rw [this, hd]

theorem frame_bytes_blocknum (b : Nat) (chunk : List Nat) :
    (frame_bytes (frame_for b chunk))[1]? = some b
      ∧ (frame_bytes (frame_for b chunk))[2]? = some (bitnot_u8 b)
      ∧ (frame_bytes (frame_for b chunk))[0]? = some REGULAR_FRAME := by
  simp [frame_bytes, frame_for, calc_checksum]

theorem bitnot_u8_eq (b : Nat) (hb : b < 256) : bitnot_u8 b = 255 - b := by
  simp only [bitnot_u8]
  omega

/-- C5. For a source of `N` bytes and a receiver that completes the handshake:
for every `k` from 1 to `N / 128 + 1`, once the receiver has acknowledged the
frames before the `k`-th, the `k`-th Regular frame is sent and carries as
payload the source bytes at offsets `128 (k - 1)` up to `min (128 k) N - 1`,
followed by zero bytes up to 128 bytes: nothing of the previous block is left
in a short frame. -/
theorem C5_payload (env : Env) (fuel n k : Nat) (src : List Nat) (hok : SetupOk env)
    (hsrc : env.fopen = some src) (hs : Started env n)
    (hprev : ∀ i, 1 ≤ i → i < k → Acked env (markers n ++ [[0]]) src 0 i)
    (hn : n ≤ fuel) (hk : k ≤ fuel)
    (h1 : 1 ≤ k) (hkn : k ≤ src.length / PAYLOAD_SIZE + 1) :
    ∃ f, (regular_frames (main env fuel).1.sent)[k - 1]? = some f
      ∧ f.length = sizeof_xmodemframe
      ∧ payload f = (src.drop (PAYLOAD_SIZE * (k - 1))).take PAYLOAD_SIZE
          ++ List.replicate
            (PAYLOAD_SIZE - ((src.drop (PAYLOAD_SIZE * (k - 1))).take PAYLOAD_SIZE).length) 0
      ∧ ((src.drop (PAYLOAD_SIZE * (k - 1))).take PAYLOAD_SIZE).length
          = min (PAYLOAD_SIZE * k) src.length - PAYLOAD_SIZE * (k - 1) := by
  have hex : PAYLOAD_SIZE * (k - 1) ≤ src.length := by
    simp only [PAYLOAD_SIZE] at hkn ⊢
    omega
  rw [main_reaches env fuel n k src hok hsrc hs hn h1 hk hex hprev]
  refine ⟨_, rfl, frame_bytes_length _ _, payload_frame_bytes _ _, ?_⟩
  simp only [List.length_take, List.length_drop, PAYLOAD_SIZE]
  omega

set_option maxRecDepth 100000 in
/-- C5 at a 300-byte source and a receiver that verifies each frame: the third
frame carries the last 44 source bytes followed by 84 zero bytes. -/
theorem C5_payload_witness :
    ∃ f, (regular_frames
          (main (env_of (List.replicate 300 7) full_write checking_receiver) 5).1.sent)[2]?
        = some f
      ∧ payload f = List.replicate 44 7 ++ List.replicate 84 0 := by
  obtain ⟨f, hf, -, hp, -⟩ := C5_payload
    (env_of (List.replicate 300 7) full_write checking_receiver) 5 1 3 (List.replicate 300 7)
    (by decide) rfl (checking_receiver_started _)
    (fun i h1 h3 => checking_receiver_acks.1 i h1 (by omega)) (by decide)
    (by decide) (by decide) (by simp [PAYLOAD_SIZE])
  refine ⟨f, hf, ?_⟩
  rw [hp]
  decide

theorem long_source_length : long_source.length = 32640 := by
  rw [long_source, List.length_replicate]
  rfl

theorem env_of_setup_ok (src : List Nat) (wr : List (List Nat) → List Nat → Int)
    (rd : List (List Nat) → Nat → Int × Nat) : SetupOk (env_of src wr rd) := by
  simp [SetupOk, env_of]

/-- C6. In every run of `main`, whatever the transport and the receiver do,
the `k`-th Regular frame written (`k = i + 1`) carries block number
`k mod 256`: 1 for the first frame, one more for each later frame, and 0 for
the 256th. -/
theorem C6_block_number (env : Env) (fuel i : Nat) (f : List Nat)
    (hf : (regular_frames (main env fuel).1.sent)[i]? = some f) :
    f[1]? = some ((i + 1) % 256) := by
  obtain ⟨k, hk⟩ := main_frames env fuel
  rw [hk] at hf
  have hi : i < k := by
    have := (List.getElem?_eq_some_iff.1 hf).1
    rwa [frames_from_length] at this
  rw [frames_from_get _ _ _ _ hi] at hf
  have := Option.some.inj hf
  subst this
  rw [(frame_bytes_blocknum _ _).1]
  simp

/-- C6 at a source of 255 full blocks with a receiver that ACKs every frame:
the 256th frame exists and is numbered 0. -/
theorem C6_block_number_witness :
    ∃ f, (regular_frames
          (main (env_of long_source full_write prompt_receiver) 256).1.sent)[255]? = some f
      ∧ f[1]? = some 0 := by
  have hfr := frames_of_all_acked (env_of long_source full_write prompt_receiver)
    256 1 long_source (env_of_setup_ok _ _ _) rfl (prompt_receiver_started _)
    (prompt_receiver_acks _) (by decide) (by rw [long_source_length]; decide)
  have hget := frames_from_get long_source 0 (long_source.length / PAYLOAD_SIZE + 1) 255
    (by rw [long_source_length]; decide)
  rw [← hfr] at hget
  exact ⟨_, hget, C6_block_number _ 256 255 _ hget⟩

/-- C7. For every block number `b` in 0..255 the value the loop stores in
`invblocknum`, `(unsigned char) ~b`, is `255 - b`; and in every Regular frame
written in any run of `main` the third byte is that complement of the second
byte, so that block number and complement add up to 255. -/
theorem C7_complement (env : Env) (fuel b : Nat) (f : List Nat) (hb : b < 256)
    (hf : f ∈ regular_frames (main env fuel).1.sent) :
    bitnot_u8 b = 255 - b
      ∧ ∃ x c, f[1]? = some x ∧ f[2]? = some c ∧ x < 256 ∧ c = bitnot_u8 x
        ∧ c = 255 - x ∧ x + c = 255 := by
  refine ⟨bitnot_u8_eq b hb, ?_⟩
  obtain ⟨k, hk⟩ := main_frames env fuel
  rw [hk] at hf
  obtain ⟨i, hi, hget⟩ := List.getElem_of_mem hf
  rw [frames_from_length] at hi
  have h2 := frames_from_get (env.fopen.getD []) 0 k i hi
  rw [List.getElem?_eq_getElem (by rw [frames_from_length]; exact hi), hget] at h2
  have := Option.some.inj h2
  subst this
  have hx : (0 + i + 1) % 256 < 256 := Nat.mod_lt _ (by decide)
  refine ⟨(0 + i + 1) % 256, bitnot_u8 ((0 + i + 1) % 256), (frame_bytes_blocknum _ _).1,
    (frame_bytes_blocknum _ _).2.1, hx, rfl, bitnot_u8_eq _ hx, ?_⟩
  rw [bitnot_u8_eq _ hx]
  omega

set_option maxRecDepth 100000 in
/-- C7 at block number 200 and at the second frame of a 300-byte transfer. -/
theorem C7_complement_witness :
    bitnot_u8 200 = 55
      ∧ ∃ f, (regular_frames
            (main (env_of (List.replicate 300 7) full_write prompt_receiver) 5).1.sent)[1]?
          = some f
        ∧ f[1]? = some 2 ∧ f[2]? = some 253 := by
  have hmem : frame_bytes (frame_for 2 (List.replicate 128 7))
      ∈ regular_frames
        (main (env_of (List.replicate 300 7) full_write prompt_receiver) 5).1.sent := by
    decide
  have h := C7_complement (env_of (List.replicate 300 7) full_write prompt_receiver) 5 200
    (frame_bytes (frame_for 2 (List.replicate 128 7))) (by decide) hmem
  exact ⟨h.1, frame_bytes (frame_for 2 (List.replicate 128 7)), by decide, by decide,
    by decide⟩

/-! ## Success (C8) -/

theorem eot_not_mem_markers (n : Nat) : [END_OF_TRANSMISSION] ∉ markers n := by
  intro h
  simp [markers, END_OF_TRANSMISSION, FLASH_UPLOAD] at h

theorem eot_not_mem_frames (src : List Nat) (b k : Nat) :
    [END_OF_TRANSMISSION] ∉ frames_from src b k := by
  intro h
  have := frames_from_all_frames src b k _ h
  simp [sizeof_xmodemframe, PAYLOAD_SIZE] at this

/-- A run that wrote the EOT byte completed the handshake, had every frame
acknowledged, and returns 0 exactly when the EOT byte is acknowledged. -/
theorem run_eot (env : Env) (fuel : Nat) (src : List Nat) (st : State) (res : Option Int)
    (hrun : Run env fuel src st res) (hmem : [END_OF_TRANSMISSION] ∈ st.sent) :
    ∃ n k, Started env n
      ∧ st.sent = markers n ++ [[0]] ++ frames_from src 0 k ++ [[END_OF_TRANSMISSION]]
      ∧ (∀ i, 1 ≤ i → i ≤ k → Acked env (markers n ++ [[0]]) src 0 i)
      ∧ res = some (if answer env st.sent 500 = some ACK then EXIT_SUCCESS
          else EXIT_FAILURE) := by
  have hz : [END_OF_TRANSMISSION] ≠ [0] := by decide
  have hc : [END_OF_TRANSMISSION] ≠ [CANCEL] := by decide
  cases hrun with
  | no_echo hsil hsent => rw [hsent] at hmem; exact absurd hmem (eot_not_mem_markers _)
  | marker_write_failed m h1 hm hsil hw hsent =>
    rw [hsent] at hmem; exact absurd hmem (eot_not_mem_markers _)
  | wrong_echo m b h1 hm hsil hw hans hb hsent =>
    rw [hsent] at hmem; exact absurd hmem (eot_not_mem_markers _)
  | zero_write_failed m hm he hw hsent hout =>
    rw [hsent] at hmem
    simp only [List.mem_append, List.mem_singleton] at hmem
    rcases hmem with h | h
    · exact absurd h (eot_not_mem_markers _)
    · exact absurd h hz
  | no_nack m hm he hw hans hsent hout hwait =>
    rw [hsent] at hmem
    simp only [List.mem_append, List.mem_singleton] at hmem
    rcases hmem with h | h
    · exact absurd h (eot_not_mem_markers _)
    · exact absurd h hz
  | started m _ hm hs' hout hwait ht =>
    cases ht with
    | fuel hack hsent hchunks =>
      rw [hsent] at hmem
      simp only [List.mem_append, List.mem_singleton] at hmem
      rcases hmem with (h | h) | h
      · exact absurd h (eot_not_mem_markers _)
      · exact absurd h hz
      · exact absurd h (eot_not_mem_frames _ _ _)
    | rejected k h1 hk hack hrej hsent hchunks =>
      rw [hsent] at hmem
      simp only [List.mem_append, List.mem_singleton] at hmem
      rcases hmem with ((h | h) | h) | h
      · exact absurd h (eot_not_mem_markers _)
      · exact absurd h hz
      · exact absurd h (eot_not_mem_frames _ _ _)
      · exact absurd h hc
    | finished k h1 hk hack hlast hshort hsent hchunks =>
      refine ⟨m, k, hs', hsent, ?_, rfl⟩
      intro i hi1 hi2
      rcases Nat.lt_or_ge i k with h | h
      · exact (hack i hi1 h).1
      · have : i = k := by omega
        subst this; exact hlast

/-- A run that returned 0 wrote the EOT byte. -/
theorem run_zero_eot (env : Env) (fuel : Nat) (src : List Nat) (st : State)
    (hrun : Run env fuel src st (some 0)) : [END_OF_TRANSMISSION] ∈ st.sent := by
  generalize hres : (some 0 : Option Int) = res at hrun
  cases hrun with
  | no_echo hsil hsent => cases hres
  | marker_write_failed m h1 hm hsil hw hsent => cases hres
  | wrong_echo m b h1 hm hsil hw hans hb hsent => cases hres
  | zero_write_failed m hm he hw hsent hout => cases hres
  | no_nack m hm he hw hans hsent hout hwait => cases hres
  | started m _ hm hs' hout hwait ht =>
    cases ht with
    | fuel hack hsent hchunks => cases hres
    | rejected k h1 hk hack hrej hsent hchunks => cases hres
    | finished k h1 hk hack hlast hshort hsent hchunks => rw [hsent]; simp

/-- C8. A run of `main` returns 0 if and only if it was a complete,
acknowledged session: the receiver echoed the marker, answered the zero byte
with NACK and every Regular frame with ACK, the EOT byte 0x04 was then written
as a single byte, and the receiver answered it with ACK.  And when the log
ends with the EOT byte but the final ACK does not arrive, the run ends with a
non-zero value. -/
theorem C8_success_iff (env : Env) (fuel : Nat) :
    ((main env fuel).2 = some 0 ↔ Success env (main env fuel).1.sent)
      ∧ (∀ pre, (main env fuel).1.sent = pre ++ [[END_OF_TRANSMISSION]] →
          answer env (main env fuel).1.sent 500 ≠ some ACK →
          ∃ c, (main env fuel).2 = some c ∧ c ≠ 0) := by
  by_cases hok : SetupOk env
  · cases hsrc : env.fopen with
    | none => exact absurd hsrc hok.2.2.1
    | some src =>
      obtain ⟨hrun, -⟩ := main_spec env fuel src hok hsrc
      refine ⟨⟨fun h0 => ?_, fun hS => ?_⟩, fun pre hpre hna => ?_⟩
      · have hmem : [END_OF_TRANSMISSION] ∈ (main env fuel).1.sent := by
          rw [h0] at hrun
          exact run_zero_eot env fuel src _ hrun
        obtain ⟨n, k, hs, hsent, hacks, hres⟩ := run_eot env fuel src _ _ hrun hmem
        refine ⟨n, frames_from src 0 k, hs.1.1, hsent, frames_from_all_frames _ _ _,
          hs.1.2.2.2, hs.2.2, ?_, ?_⟩
        · intro i hi
          rw [frames_from_length] at hi
          rw [frames_from_take _ _ _ _ (by omega)]
          exact hacks (i + 1) (by omega) (by omega)
        · by_contra hna
          rw [hres, if_neg hna] at h0
          cases h0
      · obtain ⟨n, frames, -, hsent, -, -, -, -, hfin⟩ := hS
        obtain ⟨n', k, -, -, -, hres⟩ := run_eot env fuel src _ _ hrun (by rw [hsent]; simp)
        rw [hres, if_pos hfin]
        rfl
      · obtain ⟨n', k, -, -, -, hres⟩ := run_eot env fuel src _ _ hrun (by rw [hpre]; simp)
        exact ⟨EXIT_FAILURE, by rw [hres, if_neg hna], by decide⟩
  · obtain ⟨hsent, hres⟩ := main_of_setup_failed env fuel hok
    refine ⟨⟨fun h0 => ?_, fun hS => ?_⟩, fun pre hpre _ => ?_⟩
    · rw [hres] at h0; cases h0
    · obtain ⟨n, frames, -, hs, -⟩ := hS
      rw [hsent] at hs
      simp at hs
    · rw [hsent] at hpre
      simp at hpre

set_option maxRecDepth 100000 in
/-- C8 at a 300-byte source: with a receiver that ACKs everything the run
returns 0 and was a complete session; with one that never answers the EOT byte
the log ends with EOT and the run returns 1. -/
theorem C8_success_iff_witness :
    (main (env_of (List.replicate 300 7) full_write prompt_receiver) 5).2 = some 0
      ∧ Success (env_of (List.replicate 300 7) full_write prompt_receiver)
          (main (env_of (List.replicate 300 7) full_write prompt_receiver) 5).1.sent
      ∧ (main (env_of (List.replicate 300 7) full_write no_final_ack) 5).1.sent.getLast?
          = some [END_OF_TRANSMISSION]
      ∧ (main (env_of (List.replicate 300 7) full_write no_final_ack) 5).2 = some 1 := by
  refine ⟨by decide, (C8_success_iff _ 5).1.1 (by decide), by decide, by decide⟩

/-! ## The handshake (C9, C10) -/

theorem transfer_run_rest (env : Env) (fuel : Nat) (log : List (List Nat)) (src : List Nat)
    (st : State) (res : Option Int) (ht : TransferRun env fuel log src st res) :
    ∃ k tail, st.sent = log ++ frames_from src 0 k ++ tail
      ∧ (tail = [] ∨ tail = [[CANCEL]] ∨ tail = [[END_OF_TRANSMISSION]])
      ∧ (1 ≤ fuel → 1 ≤ k) := by
  cases ht with
  | fuel hack hsent hchunks => exact ⟨fuel, [], by simpa using hsent, Or.inl rfl, fun h => h⟩
  | rejected k h1 hk hack hrej hsent hchunks =>
    exact ⟨k, [[CANCEL]], hsent, Or.inr (Or.inl rfl), fun _ => h1⟩
  | finished k h1 hk hack hlast hshort hsent hchunks =>
    exact ⟨k, [[END_OF_TRANSMISSION]], hsent, Or.inr (Or.inr rfl), fun _ => h1⟩

/-- What a run did after the echo at round `n` when the zero byte was written. -/
theorem run_of_echoed (env : Env) (fuel : Nat) (src : List Nat) (st : State)
    (res : Option Int) (n : Nat) (hrun : Run env fuel src st res) (he : Echoed env n)
    (hn : n ≤ fuel) (hw0 : env.write_data (markers n) [0] = 1) :
    (∀ b, Msg.expected_123 b ∉ st.out) ∧ Msg.waiting_for_nack ∈ st.out
      ∧ ((answer env (markers n ++ [[0]]) 500 ≠ some NACK
            ∧ st.sent = markers n ++ [[0]] ∧ res = some EXIT_FAILURE)
          ∨ (answer env (markers n ++ [[0]]) 500 = some NACK
            ∧ TransferRun env fuel (markers n ++ [[0]]) src st res)) := by
  have ha := echoed_answered env n he
  cases hrun with
  | no_echo hsil hsent => exact absurd ha (not_answered_of_silent env n fuel hn hsil)
  | marker_write_failed m h1 hm hsil hw hsent =>
    have := answered_unique env m n (write_failed_answered env m h1 hsil hw) ha
    subst this
    exact absurd he.2.2.1 hw
  | wrong_echo m b h1 hm hsil hw hans hb hsent =>
    have := answered_unique env m n (wrong_echo_answered env m b h1 hsil hans) ha
    subst this
    rw [he.2.2.2] at hans
    exact absurd (Option.some.inj hans).symm hb
  | zero_write_failed m hm he' hw hsent hout =>
    have := answered_unique env m n (echoed_answered env m he') ha
    subst this
    exact absurd hw0 hw
  | no_nack m hm he' hw hans hsent hout hwait =>
    have := answered_unique env m n (echoed_answered env m he') ha
    subst this
    exact ⟨hout, hwait, Or.inl ⟨hans, hsent, rfl⟩⟩
  | started m _ hm hs' hout hwait ht =>
    have := answered_unique env m n (echoed_answered env m hs'.1) ha
    subst this
    exact ⟨hout, hwait, Or.inr ⟨hs'.2.2, ht⟩⟩

/-- What a run did when the first answer in the handshake was a byte other
than the marker. -/
theorem run_of_wrong_echo (env : Env) (fuel : Nat) (src : List Nat) (st : State)
    (res : Option Int) (n b : Nat) (hrun : Run env fuel src st res) (h1 : 1 ≤ n)
    (hn : n ≤ fuel) (hsil : ∀ i, i + 1 < n → Silent env i)
    (hans : answer env (markers n) 50 = some b) (hb : b ≠ FLASH_UPLOAD) :
    (env.write_data (markers (n - 1)) [FLASH_UPLOAD] = 1 ∨
        env.write_data (markers (n - 1)) [FLASH_UPLOAD] ≠ 1)
      ∧ st.sent = markers n ∧ res = some EXIT_FAILURE := by
  have ha := wrong_echo_answered env n b h1 hsil hans
  have hne : ∀ m, Echoed env m → False := by
    intro m he'
    have := answered_unique env m n (echoed_answered env m he') ha
    subst this
    rw [he'.2.2.2] at hans
    exact hb (Option.some.inj hans).symm
  cases hrun with
  | no_echo hsil' hsent => exact absurd ha (not_answered_of_silent env n fuel hn hsil')
  | marker_write_failed m h1' hm hsil' hw hsent =>
    have := answered_unique env m n (write_failed_answered env m h1' hsil' hw) ha
    subst this
    exact ⟨Or.inr hw, hsent, rfl⟩
  | wrong_echo m b' h1' hm hsil' hw hans' hb' hsent =>
    have := answered_unique env m n (wrong_echo_answered env m b' h1' hsil' hans') ha
    subst this
    exact ⟨Or.inl hw, hsent, rfl⟩
  | zero_write_failed m hm he' hw hsent hout => exact (hne m he').elim
  | no_nack m hm he' hw hans' hsent hout hwait => exact (hne m he').elim
  | started m _ hm hs' hout hwait ht => exact (hne m hs'.1).elim

theorem count_markers_rest (n k : Nat) (src : List Nat) (tail : List (List Nat))
    (ht : tail = [] ∨ tail = [[CANCEL]] ∨ tail = [[END_OF_TRANSMISSION]]) :
    (markers n ++ [[0]] ++ frames_from src 0 k ++ tail).count [FLASH_UPLOAD] = n
      ∧ (markers n ++ [[0]] ++ frames_from src 0 k ++ tail).count [0] = 1 := by
  have hf : ∀ x : Nat, (frames_from src 0 k).count [x] = 0 := by
    intro x
    rw [List.count_eq_zero]
    intro h
    have := frames_from_all_frames src 0 k _ h
    simp [sizeof_xmodemframe, PAYLOAD_SIZE] at this
  have hm1 : (markers n).count [FLASH_UPLOAD] = n := by
    simp [markers]
  have hm0 : (markers n).count [0] = 0 := by
    rw [List.count_eq_zero]
    intro h
    simp [markers, FLASH_UPLOAD] at h
  have hm1' : (markers n).count [123] = n := hm1
  rcases ht with rfl | rfl | rfl <;>
    simp [List.count_append, hf, hm1', hm0, FLASH_UPLOAD, CANCEL, END_OF_TRANSMISSION]

/-- C9. Handshake retry. Let the setup succeed and the transport accept the
marker and zero-byte writes. If the receiver stays silent for the first
`n - 1` marker writes (each `read_byte` times out after its 50 polls) and
echoes the marker after the `n`-th, then the run writes exactly `n` marker
bytes (value 123) followed by exactly one zero byte, prints no
`Expected 123 but got` protocol error, announces that it waits for NACK, and
the NACK wait decides how it goes on: without NACK nothing more is written and
the run returns 1, with NACK the first Regular frame follows. -/
theorem C9_handshake_retry (env : Env) (fuel n : Nat) (src : List Nat) (hok : SetupOk env)
    (hsrc : env.fopen = some src) (h1 : 1 ≤ n) (hn : n ≤ fuel)
    (hwr : ∀ i, i < n → env.write_data (markers i) [FLASH_UPLOAD] = 1)
    (hsil : ∀ m, 1 ≤ m → m < n → answer env (markers m) 50 = none)
    (hecho : answer env (markers n) 50 = some FLASH_UPLOAD)
    (hw0 : env.write_data (markers n) [0] = 1) :
    (main env fuel).1.sent.take (n + 1) = List.replicate n [123] ++ [[0]]
      ∧ (main env fuel).1.sent.count [123] = n
      ∧ (main env fuel).1.sent.count [0] = 1
      ∧ (∀ b, Msg.expected_123 b ∉ (main env fuel).1.out)
      ∧ Msg.waiting_for_nack ∈ (main env fuel).1.out
      ∧ (answer env (markers n ++ [[0]]) 500 ≠ some NACK →
          (main env fuel).1.sent = List.replicate n [123] ++ [[0]]
            ∧ (main env fuel).2 = some 1)
      ∧ (answer env (markers n ++ [[0]]) 500 = some NACK →
          ∃ f, (main env fuel).1.sent[n + 1]? = some f ∧ f.length = sizeof_xmodemframe) := by
  have he : Echoed env n :=
    ⟨h1, fun i hi => ⟨hwr i (by omega), hsil (i + 1) (by omega) hi⟩, hwr (n - 1) (by omega),
      hecho⟩
  obtain ⟨hrun, -⟩ := main_spec env fuel src hok hsrc
  obtain ⟨hexp, hwait, hcase⟩ := run_of_echoed env fuel src _ _ n hrun he hn hw0
  have hlen : (markers n ++ [[0]]).length = n + 1 := by simp [markers]
  rcases hcase with ⟨hna, hsent, hres⟩ | ⟨hnack, ht⟩
  · have hc := count_markers_rest n 0 src [] (Or.inl rfl)
    simp only [frames_from, List.append_nil] at hc
    refine ⟨?_, ?_, ?_, hexp, hwait, fun _ => ⟨hsent, hres⟩, fun h => absurd h hna⟩
    · rw [hsent, ← hlen, List.take_length]; rfl
    · rw [hsent]; exact hc.1
    · rw [hsent]; exact hc.2
  · obtain ⟨k, tail, hsent, htail, hk⟩ := transfer_run_rest env fuel _ src _ _ ht
    have hc := count_markers_rest n k src tail htail
    refine ⟨?_, ?_, ?_, hexp, hwait, fun h => absurd hnack h, fun _ => ?_⟩
    · rw [hsent, List.append_assoc, List.take_append_of_le_length (by omega), ← hlen,
        List.take_length]
      rfl
    · rw [hsent]; exact hc.1
    · rw [hsent]; exact hc.2
    · have hk1 : 1 ≤ k := hk (by omega)
      have hget := frames_from_get src 0 k 0 hk1
      refine ⟨_, ?_, frame_bytes_length ((0 + 0 + 1) % 256) (src.drop (PAYLOAD_SIZE * 0))⟩
      rw [hsent, List.append_assoc, List.getElem?_append_right (by omega), hlen, Nat.sub_self,
        List.getElem?_append_left (by rw [frames_from_length]; omega)]
      exact hget

set_option maxRecDepth 100000 in
/-- C9 at `n = 3` (the receiver echoes the marker on the third attempt) and a
300-byte source: three marker bytes and one zero byte are written, no protocol
error is printed and the wait for NACK is announced. -/
theorem C9_handshake_retry_witness :
    (main (env_of (List.replicate 300 7) full_write echo_third) 5).1.sent.take 4
        = [[123], [123], [123], [0]]
      ∧ (main (env_of (List.replicate 300 7) full_write echo_third) 5).1.sent.count [123] = 3
      ∧ (main (env_of (List.replicate 300 7) full_write echo_third) 5).1.sent.count [0] = 1
      ∧ Msg.waiting_for_nack
          ∈ (main (env_of (List.replicate 300 7) full_write echo_third) 5).1.out := by
  have h := C9_handshake_retry (env_of (List.replicate 300 7) full_write echo_third) 5 3
    (List.replicate 300 7) (env_of_setup_ok _ _ _) rfl (by decide) (by decide)
    (fun i _ => rfl)
    (by
      intro m hm1 hm3
      have : m = 1 ∨ m = 2 := by omega
      rcases this with rfl | rfl <;> decide)
    (by decide) rfl
  exact ⟨h.1, h.2.1, h.2.2.1, h.2.2.2.2.1⟩

/-- A run that wrote a Regular frame or the EOT byte completed the handshake
first. -/
theorem run_started_of_frames (env : Env) (fuel : Nat) (src : List Nat) (st : State)
    (res : Option Int) (hrun : Run env fuel src st res)
    (h : regular_frames st.sent ≠ [] ∨ [END_OF_TRANSMISSION] ∈ st.sent) :
    ∃ n rest, Started env n ∧ st.sent = markers n ++ [[0]] ++ rest := by
  have hz : [END_OF_TRANSMISSION] ≠ [0] := by decide
  have hnone : ∀ n, ¬ (regular_frames (markers n) ≠ [] ∨ [END_OF_TRANSMISSION] ∈ markers n) := by
    intro n hh
    rcases hh with hh | hh
    · exact hh (regular_frames_markers n)
    · exact eot_not_mem_markers n hh
  have hnone0 : ∀ n, ¬ (regular_frames (markers n ++ [[0]]) ≠ []
      ∨ [END_OF_TRANSMISSION] ∈ markers n ++ [[0]]) := by
    intro n hh
    rcases hh with hh | hh
    · exact hh (by rw [regular_frames_append, regular_frames_markers, regular_frames_byte]; rfl)
    · simp only [List.mem_append, List.mem_singleton] at hh
      rcases hh with hh | hh
      · exact eot_not_mem_markers n hh
      · exact hz hh
  cases hrun with
  | no_echo hsil hsent => rw [hsent] at h; exact (hnone _ h).elim
  | marker_write_failed m h1 hm hsil hw hsent => rw [hsent] at h; exact (hnone _ h).elim
  | wrong_echo m b h1 hm hsil hw hans hb hsent => rw [hsent] at h; exact (hnone _ h).elim
  | zero_write_failed m hm he hw hsent hout => rw [hsent] at h; exact (hnone0 _ h).elim
  | no_nack m hm he hw hans hsent hout hwait => rw [hsent] at h; exact (hnone0 _ h).elim
  | started m _ hm hs' hout hwait ht =>
    obtain ⟨k, tail, hsent, -, -⟩ := transfer_run_rest env fuel _ src _ _ ht
    exact ⟨m, frames_from src 0 k ++ tail, hs', by rw [hsent, List.append_assoc]⟩

/-- C10. In every run of `main`: a Regular frame or the EOT byte is written
only if the receiver echoed the marker (after some `n`-th marker write) and
then answered the zero byte with NACK.  And when the setup succeeds: if the
first byte received in the marker phase is not the marker, the run writes
nothing but the markers and returns 1; if after the echo the answer to the zero
byte is not NACK (another byte, or no byte within the 500 polls), the run
writes nothing after the zero byte and returns 1.  In both cases no Regular
frame and no EOT byte is written. -/
theorem C10_handshake_gate (env : Env) (fuel : Nat) :
    ((regular_frames (main env fuel).1.sent ≠ []
          ∨ [END_OF_TRANSMISSION] ∈ (main env fuel).1.sent) →
        ∃ n rest, 1 ≤ n ∧ answer env (markers n) 50 = some FLASH_UPLOAD
          ∧ answer env (markers n ++ [[0]]) 500 = some NACK
          ∧ (main env fuel).1.sent = markers n ++ [[0]] ++ rest)
      ∧ (∀ n b, SetupOk env → 1 ≤ n → n ≤ fuel → (∀ i, i + 1 < n → Silent env i) →
          answer env (markers n) 50 = some b → b ≠ FLASH_UPLOAD →
          (main env fuel).1.sent = markers n
            ∧ regular_frames (main env fuel).1.sent = []
            ∧ [END_OF_TRANSMISSION] ∉ (main env fuel).1.sent
            ∧ (main env fuel).2 = some 1)
      ∧ (∀ n, SetupOk env → n ≤ fuel → Echoed env n →
          env.write_data (markers n) [0] = 1 →
          answer env (markers n ++ [[0]]) 500 ≠ some NACK →
          (main env fuel).1.sent = markers n ++ [[0]]
            ∧ regular_frames (main env fuel).1.sent = []
            ∧ [END_OF_TRANSMISSION] ∉ (main env fuel).1.sent
            ∧ (main env fuel).2 = some 1) := by
  have hz : [END_OF_TRANSMISSION] ≠ [0] := by decide
  refine ⟨fun h => ?_, fun n b hok h1 hn hsil hans hb => ?_, fun n hok hn he hw0 hna => ?_⟩
  · by_cases hok : SetupOk env
    · cases hsrc : env.fopen with
      | none => exact absurd hsrc hok.2.2.1
      | some src =>
        obtain ⟨hrun, -⟩ := main_spec env fuel src hok hsrc
        obtain ⟨n, rest, hs, hsent⟩ := run_started_of_frames env fuel src _ _ hrun h
        exact ⟨n, rest, hs.1.1, hs.1.2.2.2, hs.2.2, hsent⟩
    · rw [(main_of_setup_failed env fuel hok).1] at h
      rcases h with h | h
      · exact absurd rfl h
      · simp at h
  · cases hsrc : env.fopen with
    | none => exact absurd hsrc hok.2.2.1
    | some src =>
      obtain ⟨hrun, -⟩ := main_spec env fuel src hok hsrc
      obtain ⟨-, hsent, hres⟩ := run_of_wrong_echo env fuel src _ _ n b hrun h1 hn hsil hans hb
      refine ⟨hsent, by rw [hsent, regular_frames_markers], ?_, hres⟩
      rw [hsent]; exact eot_not_mem_markers n
  · cases hsrc : env.fopen with
    | none => exact absurd hsrc hok.2.2.1
    | some src =>
      obtain ⟨hrun, -⟩ := main_spec env fuel src hok hsrc
      obtain ⟨-, -, hcase⟩ := run_of_echoed env fuel src _ _ n hrun he hn hw0
      rcases hcase with ⟨-, hsent, hres⟩ | ⟨hnack, -⟩
      · refine ⟨hsent, ?_, ?_, hres⟩
        · rw [hsent, regular_frames_append, regular_frames_markers, regular_frames_byte]; rfl
        · rw [hsent]
          intro hm
          simp only [List.mem_append, List.mem_singleton] at hm
          rcases hm with hm | hm
          · exact eot_not_mem_markers n hm
          · exact hz hm
      · exact absurd hnack hna

set_option maxRecDepth 100000 in
/-- C10 at a receiver that answers the first marker with the byte 99: only the
marker is written and the run returns 1; and at the prompt receiver, whose run
writes frames, the handshake answers are the echo and NACK. -/
theorem C10_handshake_gate_witness :
    (main (env_of (List.replicate 300 7) full_write wrong_echo_receiver) 5).1.sent = [[123]]
      ∧ (main (env_of (List.replicate 300 7) full_write wrong_echo_receiver) 5).2 = some 1
      ∧ ∃ n rest, 1 ≤ n
        ∧ answer (env_of (List.replicate 300 7) full_write prompt_receiver) (markers n) 50
            = some FLASH_UPLOAD
        ∧ answer (env_of (List.replicate 300 7) full_write prompt_receiver)
            (markers n ++ [[0]]) 500 = some NACK
        ∧ (main (env_of (List.replicate 300 7) full_write prompt_receiver) 5).1.sent
            = markers n ++ [[0]] ++ rest := by
  have h := C10_handshake_gate (env_of (List.replicate 300 7) full_write wrong_echo_receiver) 5
  have h2 := h.2.1 1 99 (env_of_setup_ok _ _ _) (by decide) (by decide)
    (fun i hi => by omega) (by decide) (by decide)
  have h3 := (C10_handshake_gate (env_of (List.replicate 300 7) full_write prompt_receiver) 5).1
    (Or.inr (by decide))
  exact ⟨h2.1, h2.2.2.2, h3⟩

theorem polls_used_le (env : Env) (log : List (List Nat)) (start budget : Nat) :
    polls_used env log start budget ≤ budget := by
  induction budget generalizing start with
  | zero => simp [polls_used]
  | succ n ih =>
    simp only [polls_used]
    split
    · omega
    · have := ih (start + 1); omega

theorem polls_used_pos (env : Env) (log : List (List Nat)) (start budget : Nat)
    (h : 1 ≤ budget) : 1 ≤ polls_used env log start budget := by
  obtain ⟨n, rfl⟩ : ∃ n, budget = n + 1 := ⟨budget - 1, by omega⟩
  simp only [polls_used]
  split <;> omega

theorem polls_used_of_none (env : Env) (log : List (List Nat)) (start budget : Nat)
    (h : first_byte env log start budget = none) :
    polls_used env log start budget = budget := by
  induction budget generalizing start with
  | zero => rfl
  | succ n ih =>
    simp only [first_byte] at h
    simp only [polls_used]
    split at h
    · cases h
    · next hne => rw [if_neg hne, ih _ h]; omega

/-- A wait whose first byte arrives at poll `j`: it makes `j + 1` polls and
yields that byte. -/
theorem first_byte_at (env : Env) (log : List (List Nat)) (start budget j : Nat)
    (hj : j < budget) (hbefore : ∀ i, i < j → (env.read_data log (start + i)).1 ≠ 1)
    (hat : (env.read_data log (start + j)).1 = 1) :
    first_byte env log start budget = some ((env.read_data log (start + j)).2 % 256)
      ∧ polls_used env log start budget = j + 1 := by
  induction budget generalizing start j with
  | zero => omega
  | succ n ih =>
    cases j with
    | zero =>
      simp only [Nat.add_zero] at hat
      simp [first_byte, polls_used, hat]
    | succ j =>
      have h0 : (env.read_data log start).1 ≠ 1 := by simpa using hbefore 0 (by omega)
      have := ih (start + 1) j (by omega)
        (fun i hi => by
          have := hbefore (i + 1) (by omega)
          rwa [show start + (i + 1) = start + 1 + i by omega] at this)
        (by rwa [show start + (j + 1) = start + 1 + j by omega] at hat)
      simp only [first_byte, polls_used, if_neg h0]
      rw [this.1, this.2, show start + 1 + j = start + (j + 1) by omega]
      exact ⟨rfl, by omega⟩

/-- A wait during which no poll delivers a byte: it uses its whole budget and
yields nothing. -/
theorem first_byte_never (env : Env) (log : List (List Nat)) (start budget : Nat)
    (h : ∀ i, i < budget → (env.read_data log (start + i)).1 ≠ 1) :
    first_byte env log start budget = none
      ∧ polls_used env log start budget = budget := by
  induction budget generalizing start with
  | zero => exact ⟨rfl, rfl⟩
  | succ n ih =>
    have h0 : (env.read_data log start).1 ≠ 1 := by simpa using h 0 (by omega)
    have := ih (start + 1) (fun i hi => by
      have := h (i + 1) (by omega)
      rwa [show start + (i + 1) = start + 1 + i by omega] at this)
    simp only [first_byte, polls_used, if_neg h0]
    exact ⟨this.1, by rw [this.2]; omega⟩

theorem polls_used_add (env : Env) (log : List (List Nat)) (a b start : Nat) :
    polls_used env log start (a + b)
      = match first_byte env log start a with
        | some _ => polls_used env log start a
        | none => a + polls_used env log (start + a) b := by
  induction a generalizing start with
  | zero => simp [first_byte]
  | succ a ih =>
    rw [show a + 1 + b = (a + b) + 1 by omega]
    simp only [first_byte, polls_used]
    split
    · rfl
    · rw [ih]
      cases first_byte env log (start + 1) a with
      | some x => rfl
      | none =>
        simp only
        rw [show start + 1 + a = start + (a + 1) by omega]
        ring

theorem read_calls_append (a b : List Msg) :
    read_calls (a ++ b) = read_calls a + read_calls b := by
  induction a with
  | nil => simp [read_calls]
  | cons m a ih => cases m <;> simp [read_calls, ih] <;> omega

/-- The loop of `read_byte`, with the exact number of polls made and the one
message that records the call. -/
theorem read_byte_loop_exact (env : Env) (n : Nat) (s : State) (r : Int) :
    ∃ o, read_byte_loop env n s r
        = ({ s with polls := s.polls + polls_used env s.sent s.polls n, out := s.out ++ o },
            first_byte env s.sent s.polls n)
      ∧ (∀ m ∈ o, Msg.diag m = true) ∧ read_calls o = 1 := by
  induction n generalizing s r with
  | zero =>
    by_cases hr : r < 0
    · exact ⟨[Msg.read_timeout, Msg.failed Op.read r], by
        simp [read_byte_loop, first_byte, polls_used, print, fail, hr], by simp [Msg.diag], rfl⟩
    · exact ⟨[Msg.read_timeout], by
        simp [read_byte_loop, first_byte, polls_used, print, fail, hr], by simp [Msg.diag], rfl⟩
  | succ n ih =>
    by_cases h1 : (env.read_data s.sent s.polls).1 = 1
    · exact ⟨[Msg.received ((env.read_data s.sent s.polls).2 % 256)], by
        simp [read_byte_loop, first_byte, polls_used, print, ftdi_read_data, h1],
        by simp [Msg.diag], rfl⟩
    · obtain ⟨o, he, ho, hc⟩ := ih { s with polls := s.polls + 1 } (env.read_data s.sent s.polls).1
      refine ⟨o, ?_, ho, hc⟩
      simp only [read_byte_loop, ftdi_read_data, h1, if_false, first_byte, polls_used]
      rw [he]
      simp only [Nat.add_assoc]

/-- The loop of `expect`, with the exact number of polls made and a bound on
the number of `read_byte` calls. -/
theorem expect_loop_exact (env : Env) (value n : Nat) (s : State) :
    ∃ o, expect_loop env value n s
        = ({ s with polls := s.polls + polls_used env s.sent s.polls (50 * n),
                    out := s.out ++ o },
            decide (first_byte env s.sent s.polls (50 * n) = some value))
      ∧ (∀ m ∈ o, Msg.diag m = true) ∧ read_calls o ≤ n := by
  induction n generalizing s with
  | zero =>
    exact ⟨[Msg.expect_failed], by simp [expect_loop, first_byte, polls_used, print],
      by simp [Msg.diag], by simp [read_calls]⟩
  | succ n ih =>
    obtain ⟨o, he, ho, hc⟩ := read_byte_loop_exact env 50 s 0
    rw [show 50 * (n + 1) = 50 + 50 * n by ring, first_byte_add, polls_used_add]
    simp only [expect_loop, read_byte]
    rw [he]
    cases hfb : first_byte env s.sent s.polls 50 with
    | some b =>
      by_cases hb : b = value
      · exact ⟨o, by simp [hb], ho, by omega⟩
      · refine ⟨o ++ [Msg.expected_but_received value b], by simp [hb, print], ?_, ?_⟩
        · intro m hm
          rcases List.mem_append.1 hm with h | h
          · exact ho m h
          · simp at h; subst h; rfl
        · rw [read_calls_append]; simp [read_calls]; omega
    | none =>
      have hpu := polls_used_of_none env s.sent s.polls 50 hfb
      rw [hpu]
      obtain ⟨o2, he2, ho2, hc2⟩ := ih
        { s with polls := s.polls + 50, out := s.out ++ o }
      refine ⟨o ++ o2, ?_, ?_, ?_⟩
      · simp only [he2]
        simp [List.append_assoc, Nat.add_assoc]
      · intro m hm
        rcases List.mem_append.1 hm with h | h
        · exact ho m h
        · exact ho2 m h
      · rw [read_calls_append]; omega

/-- C15. Every wait is bounded. `read_byte` makes at most 50 polls: when the
first byte arrives at poll `j < 50` it makes `j + 1` polls and returns that
byte, and when none arrives it makes 50 polls and returns nothing. `expect`
calls `read_byte` at most 10 times and makes at most 500 polls: it returns
success exactly when the first byte arriving within 500 polls is the expected
value; when the first byte arrives at poll `j < 500` it stops after `j + 1`
polls, with success or failure according to that byte; and when no byte
arrives it fails after 500 polls.  Both are total functions, so they return
for every behaviour of the receiver. -/
theorem C15_bounded_waits (env : Env) (s : State) (value : Nat) :
    (read_byte env s).1.polls ≤ s.polls + 50
      ∧ (∀ j, j < 50 → (∀ i, i < j → (env.read_data s.sent (s.polls + i)).1 ≠ 1) →
          (env.read_data s.sent (s.polls + j)).1 = 1 →
          (read_byte env s).2 = some ((env.read_data s.sent (s.polls + j)).2 % 256)
            ∧ (read_byte env s).1.polls = s.polls + (j + 1))
      ∧ ((∀ i, i < 50 → (env.read_data s.sent (s.polls + i)).1 ≠ 1) →
          (read_byte env s).2 = none ∧ (read_byte env s).1.polls = s.polls + 50)
      ∧ (expect env s value).1.polls ≤ s.polls + 500
      ∧ (∃ o, (expect env s value).1.out = s.out ++ o ∧ read_calls o ≤ 10)
      ∧ ((expect env s value).2 = true ↔ first_byte env s.sent s.polls 500 = some value)
      ∧ (∀ j, j < 500 → (∀ i, i < j → (env.read_data s.sent (s.polls + i)).1 ≠ 1) →
          (env.read_data s.sent (s.polls + j)).1 = 1 →
          (expect env s value).2
              = decide ((env.read_data s.sent (s.polls + j)).2 % 256 = value)
            ∧ (expect env s value).1.polls = s.polls + (j + 1))
      ∧ ((∀ i, i < 500 → (env.read_data s.sent (s.polls + i)).1 ≠ 1) →
          (expect env s value).2 = false
            ∧ (expect env s value).1.polls = s.polls + 500) := by
  obtain ⟨o, hr, -, -⟩ := read_byte_loop_exact env 50 s 0
  obtain ⟨o', he, -, hc⟩ := expect_loop_exact env value 10 s
  have hr' : read_byte env s = _ := hr
  have he' : expect env s value = _ := he
  rw [hr', he']
  simp only [show 50 * 10 = 500 from rfl]
  refine ⟨?_, ?_, ?_, ?_, ⟨o', rfl, hc⟩, by simp, ?_, ?_⟩
  · have := polls_used_le env s.sent s.polls 50
    show s.polls + polls_used env s.sent s.polls 50 ≤ s.polls + 50
    omega
  · intro j hj hb ha
    obtain ⟨h1, h2⟩ := first_byte_at env s.sent s.polls 50 j hj hb ha
    exact ⟨h1, by simp only [h2]⟩
  · intro h
    obtain ⟨h1, h2⟩ := first_byte_never env s.sent s.polls 50 h
    exact ⟨h1, by simp only [h2]⟩
  · have := polls_used_le env s.sent s.polls 500
    show s.polls + polls_used env s.sent s.polls 500 ≤ s.polls + 500
    omega
  · intro j hj hb ha
    obtain ⟨h1, h2⟩ := first_byte_at env s.sent s.polls 500 j hj hb ha
    simp only [h1, h2, Option.some.injEq, and_self]
  · intro h
    obtain ⟨h1, h2⟩ := first_byte_never env s.sent s.polls 500 h
    simp only [h1, h2]
    simp

/-- C15 on three lines: ACK arriving at the fourth poll is accepted after 4
polls; NACK arriving at the fourth poll is refused after 4 polls, without
further reading; on a dead line `expect` fails after 500 polls. -/
theorem C15_bounded_waits_witness :
    ((expect (env_of [] full_write (fourth_poll ACK)) State.init ACK).2 = true
        ∧ (expect (env_of [] full_write (fourth_poll ACK)) State.init ACK).1.polls = 4)
      ∧ ((expect (env_of [] full_write (fourth_poll NACK)) State.init ACK).2 = false
        ∧ (expect (env_of [] full_write (fourth_poll NACK)) State.init ACK).1.polls = 4)
      ∧ ((expect (env_of [] full_write dead_line) State.init ACK).2 = false
        ∧ (expect (env_of [] full_write dead_line) State.init ACK).1.polls = 500) := by
  have h1 := (C15_bounded_waits (env_of [] full_write (fourth_poll ACK)) State.init ACK).2.2.2.2.2.2.1
    3 (by decide) (fun i hi => by
      have : i ≠ 3 := by omega
      simp [env_of, fourth_poll, State.init, this]) (by decide)
  have h2 := (C15_bounded_waits (env_of [] full_write (fourth_poll NACK)) State.init ACK).2.2.2.2.2.2.1
    3 (by decide) (fun i hi => by
      have : i ≠ 3 := by omega
      simp [env_of, fourth_poll, State.init, this]) (by decide)
  have h3 := (C15_bounded_waits (env_of [] full_write dead_line) State.init ACK).2.2.2.2.2.2.2
    (fun i _ => by simp [env_of, dead_line])
  exact ⟨⟨by rw [h1.1]; decide, h1.2⟩, ⟨by rw [h2.1]; decide, h2.2⟩, h3⟩

/-- `expect`, with the exact number of polls it makes. -/
theorem expect_exact (env : Env) (s s1 : State) (value : Nat) (r : Bool)
    (h : expect env s value = (s1, r)) :
    r = decide (first_byte env s.sent s.polls 500 = some value)
      ∧ ∃ o, s1 = { s with polls := s.polls + polls_used env s.sent s.polls 500,
                           out := s.out ++ o }
        ∧ (∀ m ∈ o, Msg.diag m = true) := by
  obtain ⟨o, he, ho, -⟩ := expect_loop_exact env value 10 s
  have he' : expect env s value = _ := he
  rw [he'] at h
  injection h with h1 h2
  exact ⟨h2.symm, o, h1.symm, ho⟩

/-- `cleanup` with a transmission running: the CANCEL byte, the wait for ACK
and the releases. -/
theorem cleanup_active (env : Env) (s : State) (h : s.transmissionRunning = true) :
    ∃ o, cleanup env s
        = State.closed { s with
            sent := s.sent ++ [[CANCEL]],
            polls := polls_used env (s.sent ++ [[CANCEL]]) 0 500,
            out := s.out ++ Msg.cancelling :: o }
      ∧ (∀ m ∈ o, Msg.teardown m = true)
      ∧ (Msg.failed_to_cancel ∈ o ↔ answer env (s.sent ++ [[CANCEL]]) 500 ≠ some ACK) := by
  rcases hw : write_byte env { print s Msg.cancelling with transmissionRunning := false } CANCEL
    with ⟨s1, r1⟩
  obtain ⟨-, o1, rfl, ho1⟩ := write_byte_inv _ _ _ _ _ hw
  rcases ha : recv_ack env { { print s Msg.cancelling with transmissionRunning := false } with
      sent := s.sent ++ [[CANCEL % 256]], polls := 0,
      out := (print s Msg.cancelling).out ++ o1 } with ⟨s2, r2⟩
  obtain ⟨hr2, o2, rfl, ho2⟩ := expect_exact _ _ _ _ _ ha
  have hc : CANCEL % 256 = CANCEL := rfl
  have hfc1 : Msg.failed_to_cancel ∉ o1 := fun hm => by
    have := ho1 _ hm; simp [Msg.diag] at this
  have hfc2 : Msg.failed_to_cancel ∉ o2 := fun hm => by
    have := ho2 _ hm; simp [Msg.diag] at this
  refine ⟨o1 ++ o2 ++ if r2 then [] else [Msg.failed_to_cancel], ?_, ?_, ?_⟩
  · rw [cleanup_eq]
    simp only [h, if_true, hw]
    simp only [print] at ha ⊢
    rw [ha, release_all_spec _ (by cases r2 <;> rfl)]
    cases r2
    · simp only [hc, Bool.not_false, if_true, print, Bool.false_eq_true, if_false,
        List.append_assoc, List.cons_append, List.nil_append, List.append_nil, Nat.zero_add,
        State.closed, releases]
    · simp only [hc, Bool.not_true, Bool.false_eq_true, if_false, if_true,
        List.append_assoc, List.cons_append, List.nil_append, List.append_nil, Nat.zero_add,
        State.closed, releases]
  · intro m hm
    simp only [List.mem_append] at hm
    rcases hm with (hm | hm) | hm
    · exact diag_teardown ho1 m hm
    · exact diag_teardown ho2 m hm
    · cases r2
      · simp at hm; subst hm; rfl
      · simp at hm
  · simp only [print, hc] at hr2
    cases r2
    · have hna : answer env (s.sent ++ [[CANCEL]]) 500 ≠ some ACK := by
        simpa [answer] using hr2
      simp [hna]
    · have hna : answer env (s.sent ++ [[CANCEL]]) 500 = some ACK := by
        simpa [answer] using hr2
      simp [hna, hfc1, hfc2]

/-- C11. When `cleanup` runs with `transmissionRunning` set, then whatever the
transport and the receiver do: it writes exactly one byte, CANCEL (0x18), and
waits for ACK with between 1 and 500 polls; it prints `Failed to cancel
transmission` exactly when ACK is not the first byte to arrive in that wait
(another byte, or none); and in every case it completes: afterwards
`transmissionRunning` is clear, the device is closed, the device list and the
context are released, the file is closed, and `retval` is what it was. -/
theorem C11_cleanup_active (env : Env) (s : State) (h : s.transmissionRunning = true) :
    (cleanup env s).sent = s.sent ++ [[0x18]]
      ∧ 1 ≤ (cleanup env s).polls ∧ (cleanup env s).polls ≤ 500
      ∧ (∃ o, (cleanup env s).out = s.out ++ o
          ∧ (Msg.failed_to_cancel ∈ o ↔ answer env (s.sent ++ [[0x18]]) 500 ≠ some ACK))
      ∧ (cleanup env s).transmissionRunning = false
      ∧ (cleanup env s).deviceOpened = false
      ∧ (cleanup env s).devlist = false
      ∧ (cleanup env s).ftdiContext = false
      ∧ (cleanup env s).fileToSend = none
      ∧ (cleanup env s).released = s.released ++ releases s
      ∧ (cleanup env s).retval = s.retval := by
  obtain ⟨o, hc, -, hf⟩ := cleanup_active env s h
  rw [hc]
  have hcan : CANCEL = 0x18 := rfl
  rw [hcan] at hf
  refine ⟨rfl, polls_used_pos env _ 0 500 (by decide), polls_used_le env _ 0 500,
    ⟨Msg.cancelling :: o, rfl, ?_⟩, rfl, rfl, rfl, rfl, rfl, rfl, rfl⟩
  rw [← hf]
  simp

set_option maxRecDepth 100000 in
/-- C11 in the middle of a transfer on a dead line (the wait for ACK times
out): one CANCEL byte is written, 500 polls are made, the failure is printed,
and everything is released with `retval` unchanged. -/
theorem C11_cleanup_active_witness :
    (cleanup (env_of [] full_write dead_line) active_state).sent
        = [[123], [0], List.replicate 132 0, [0x18]]
      ∧ (cleanup (env_of [] full_write dead_line) active_state).polls = 500
      ∧ Msg.failed_to_cancel ∈ (cleanup (env_of [] full_write dead_line) active_state).out
      ∧ (cleanup (env_of [] full_write dead_line) active_state).fileToSend = none
      ∧ (cleanup (env_of [] full_write dead_line) active_state).deviceOpened = false
      ∧ (cleanup (env_of [] full_write dead_line) active_state).released
          = [Res.usb_close, Res.list_free, Res.ftdi_free, Res.fclose]
      ∧ (cleanup (env_of [] full_write dead_line) active_state).retval = 1 := by
  have h := C11_cleanup_active (env_of [] full_write dead_line) active_state rfl
  have hp : (cleanup (env_of [] full_write dead_line) active_state).polls = 500 := by decide
  have hm : Msg.failed_to_cancel
      ∈ (cleanup (env_of [] full_write dead_line) active_state).out := by decide
  refine ⟨h.1, hp, hm, h.2.2.2.2.2.2.2.2.1, h.2.2.2.2.2.1, ?_, ?_⟩
  · rw [h.2.2.2.2.2.2.2.2.2.1]; rfl
  · rw [h.2.2.2.2.2.2.2.2.2.2]; rfl

/-- C12. `cleanup` is idempotent: in every state, a second `cleanup` right
after the first changes nothing at all. In particular it writes no byte (no
second CANCEL), makes no poll, prints nothing and releases nothing again. -/
theorem C12_cleanup_idempotent (env : Env) (s : State) :
    cleanup env (cleanup env s) = cleanup env s
      ∧ (cleanup env (cleanup env s)).sent = (cleanup env s).sent
      ∧ (cleanup env (cleanup env s)).released = (cleanup env s).released := by
  have key : cleanup env (cleanup env s) = cleanup env s := by
    obtain ⟨p, o, h1, -, -⟩ := cleanup_spec env s
    obtain ⟨p2, o2, h2, -, hidle⟩ := cleanup_spec env (cleanup env s)
    have htr : (cleanup env s).transmissionRunning = false := by rw [h1]; rfl
    obtain ⟨rfl, rfl⟩ := hidle htr
    rw [h2]
    rw [h1]
    simp [State.closed, releases]
  exact ⟨key, by rw [key], by rw [key]⟩

/-! ## The frame on the wire -/

theorem frame_bytes_layout (f : xmodemframe) (h : f.data.length = PAYLOAD_SIZE) :
    (frame_bytes f).length = 132
      ∧ (frame_bytes f)[0]? = some f.frametype
      ∧ (frame_bytes f)[1]? = some f.blocknum
      ∧ (frame_bytes f)[2]? = some f.invblocknum
      ∧ (∀ i, i < 128 → (frame_bytes f)[3 + i]? = f.data[i]?)
      ∧ payload (frame_bytes f) = f.data
      ∧ (frame_bytes f)[131]? = some f.checksum := by
  simp only [PAYLOAD_SIZE] at h
  refine ⟨by simp [frame_bytes, h], by simp [frame_bytes], by simp [frame_bytes],
    by simp [frame_bytes], ?_, ?_, ?_⟩
  · intro i hi
    simp only [frame_bytes, List.cons_append, List.nil_append]
    rw [show 3 + i = i + 1 + 1 + 1 by omega]
    simp only [List.getElem?_cons_succ]
    rw [List.getElem?_append_left (by omega)]
  · simp only [payload, frame_bytes, List.cons_append, List.nil_append, List.drop_succ_cons,
      List.drop_zero, PAYLOAD_SIZE]
    rw [List.take_append_of_le_length (by omega), ← h, List.take_length]
  · simp only [frame_bytes, List.cons_append, List.nil_append]
    rw [show (131 : Nat) = 128 + 1 + 1 + 1 from rfl]
    simp only [List.getElem?_cons_succ]
    rw [List.getElem?_append_right (by omega)]
    simp [h]

/-- Every Regular frame of a run is the serialisation of a frame the loop
built. -/
theorem main_frame_mem (env : Env) (fuel : Nat) (f : List Nat)
    (hf : f ∈ regular_frames (main env fuel).1.sent) :
    ∃ b chunk, b < 256 ∧ chunk.length ≤ PAYLOAD_SIZE
      ∧ f = frame_bytes (frame_for b chunk) := by
  obtain ⟨k, hk⟩ := main_frames env fuel
  rw [hk] at hf
  obtain ⟨i, hi, hget⟩ := List.getElem_of_mem hf
  rw [frames_from_length] at hi
  have h2 := frames_from_get (env.fopen.getD []) 0 k i hi
  rw [List.getElem?_eq_getElem (by rw [frames_from_length]; exact hi), hget] at h2
  exact ⟨_, _, Nat.mod_lt _ (by decide), by simp [PAYLOAD_SIZE], Option.some.inj h2⟩

theorem frame_for_data_length (b : Nat) (chunk : List Nat) (h : chunk.length ≤ PAYLOAD_SIZE) :
    (frame_for b chunk).data.length = PAYLOAD_SIZE := by
  simp only [frame_for, calc_checksum, List.length_append, List.length_replicate]
  omega

/-- C13. For every frame with a 128-byte payload, the buffer `send_frame`
hands to `ftdi_write_data` is 132 bytes long: byte 0 is the frame type, byte 1
the block number, byte 2 the complement field, bytes 3 to 130 the 128 payload
bytes in order and byte 131 the checksum.  And in every Regular frame written
in a run of `main`, byte 0 is 0x01 and byte 2 is the one's complement of
byte 1. -/
theorem C13_wire_layout (env : Env) (s : State) (f : xmodemframe) (fuel : Nat)
    (h : f.data.length = PAYLOAD_SIZE) :
    (∃ buf, (send_frame env s f).1.sent = s.sent ++ [buf]
        ∧ buf.length = 132
        ∧ buf[0]? = some f.frametype
        ∧ buf[1]? = some f.blocknum
        ∧ buf[2]? = some f.invblocknum
        ∧ (∀ i, i < 128 → buf[3 + i]? = f.data[i]?)
        ∧ buf[131]? = some f.checksum)
      ∧ (∀ g, g ∈ regular_frames (main env fuel).1.sent →
          g.length = 132 ∧ g[0]? = some 0x01
            ∧ ∃ b, b < 256 ∧ g[1]? = some b ∧ g[2]? = some (255 - b)) := by
  constructor
  · obtain ⟨o, hs, -⟩ := send_frame_spec env s f
    obtain ⟨h0, h1, h2, h3, h4, -, h5⟩ := frame_bytes_layout f h
    exact ⟨frame_bytes f, by rw [hs], h0, h1, h2, h3, h4, h5⟩
  · intro g hg
    obtain ⟨b, chunk, hb, hc, rfl⟩ := main_frame_mem env fuel g hg
    obtain ⟨h0, h1, -⟩ := frame_bytes_layout _ (frame_for_data_length b chunk hc)
    refine ⟨h0, h1, b, hb, (frame_bytes_blocknum b chunk).1, ?_⟩
    rw [(frame_bytes_blocknum b chunk).2.1, bitnot_u8_eq b hb]

set_option maxRecDepth 100000 in
/-- C13 at the frame with block number 7, complement 248 and an all-0xFF
payload, checksum computed: one buffer of 132 bytes is written, starting
`1, 7, 248` and ending with the checksum 128. -/
theorem C13_wire_layout_witness :
    ∃ buf, (send_frame (env_of [] full_write dead_line) State.init
          (calc_checksum sample_frame)).1.sent = [buf]
      ∧ buf.length = 132
      ∧ buf[0]? = some 1 ∧ buf[1]? = some 7 ∧ buf[2]? = some 248
      ∧ buf[3]? = some 255 ∧ buf[130]? = some 255
      ∧ buf[131]? = some 128 := by
  obtain ⟨buf, hs, hl, h0, h1, h2, hd, h131⟩ := (C13_wire_layout
    (env_of [] full_write dead_line) State.init (calc_checksum sample_frame) 0 (by decide)).1
  have hc : (calc_checksum sample_frame).checksum = 128 := by decide
  refine ⟨buf, hs, hl, h0, h1, h2, ?_, ?_, ?_⟩
  · rw [hd 0 (by omega)]; rfl
  · rw [hd 127 (by omega)]; decide
  · rw [h131, hc]

theorem bitnot_u8_sum (b : Nat) : (1 + b + bitnot_u8 b) % 256 = 0 := by
  simp only [bitnot_u8]
  omega

/-- C16. In a frame the transmission loop builds (complement field = one's
complement of the block number) the checksum is the sum of the 128 payload
bytes modulo 256, because `1 + b + (255 - b) = 256`; it does not depend on the
block number, so two frames with the same payload have the same checksum
whatever their block numbers.  In every Regular frame written in a run of
`main`, byte 131 is the sum of bytes 3 to 130 modulo 256. -/
theorem C16_checksum_payload_only (env : Env) (fuel b b' : Nat) (chunk : List Nat)
    (hb : b < 256) (hc : chunk.length ≤ PAYLOAD_SIZE) :
    1 + b + (255 - b) = 256
      ∧ (frame_for b chunk).invblocknum = 255 - b
      ∧ (frame_for b chunk).checksum = (frame_for b chunk).data.sum % 256
      ∧ (frame_for b chunk).checksum = chunk.sum % 256
      ∧ (frame_for b chunk).checksum = (frame_for b' chunk).checksum
      ∧ (∀ g, g ∈ regular_frames (main env fuel).1.sent →
          g[131]? = some ((payload g).sum % 256)) := by
  have hck : ∀ x : Nat, (frame_for x chunk).checksum = (frame_for x chunk).data.sum % 256 := by
    intro x
    have h := (calc_checksum_spec
      { frametype := REGULAR_FRAME, blocknum := x, invblocknum := bitnot_u8 x,
        data := chunk ++ List.replicate (PAYLOAD_SIZE - chunk.length) 0, checksum := 0 }
      (by simp only [List.length_append, List.length_replicate]; omega)).1
    have hd : (frame_for x chunk).data
        = chunk ++ List.replicate (PAYLOAD_SIZE - chunk.length) 0 := rfl
    rw [hd]
    show (frame_for x chunk).checksum = _
    rw [show (frame_for x chunk).checksum = _ from h]
    have := bitnot_u8_sum x
    simp only at this ⊢
    omega
  have hsum : ∀ x : Nat, (frame_for x chunk).data.sum = chunk.sum := by
    intro x
    show (chunk ++ List.replicate (PAYLOAD_SIZE - chunk.length) 0).sum = _
    simp
  refine ⟨by omega, bitnot_u8_eq b hb, hck b, by rw [hck b, hsum b],
    by rw [hck b, hck b', hsum b, hsum b'], ?_⟩
  intro g hg
  obtain ⟨x, c, -, hcl, rfl⟩ := main_frame_mem env fuel g hg
  have hc2 : ∀ y : Nat, (frame_for x c).data.sum % 256 = y → (frame_for x c).checksum = y := by
    intro y hy
    have h := (calc_checksum_spec
      { frametype := REGULAR_FRAME, blocknum := x, invblocknum := bitnot_u8 x,
        data := c ++ List.replicate (PAYLOAD_SIZE - c.length) 0, checksum := 0 }
      (by simp only [List.length_append, List.length_replicate]; omega)).1
    rw [show (frame_for x c).checksum = _ from h, ← hy]
    have := bitnot_u8_sum x
    have hd : (frame_for x c).data = c ++ List.replicate (PAYLOAD_SIZE - c.length) 0 := rfl
    rw [hd]
    simp only at this ⊢
    omega
  obtain ⟨-, -, -, -, -, hp, h131⟩ := frame_bytes_layout _ (frame_for_data_length x c hcl)
  rw [h131, hp, hc2 _ rfl]

set_option maxRecDepth 100000 in
/-- C16 at block numbers 1 and 200 with the same 44-byte chunk: both frames
have checksum `44 * 7 mod 256 = 52`. -/
theorem C16_checksum_payload_only_witness :
    (frame_for 1 (List.replicate 44 7)).checksum = 52
      ∧ (frame_for 200 (List.replicate 44 7)).checksum = 52 := by
  have h := C16_checksum_payload_only (env_of [] full_write dead_line) 0 1 200
    (List.replicate 44 7) (by decide) (by decide)
  refine ⟨?_, ?_⟩
  · rw [h.2.2.2.1]; decide
  · rw [← h.2.2.2.2.1, h.2.2.2.1]; decide

/-! ## The CANCEL byte of the final teardown -/

theorem cancel_not_mem_markers (n : Nat) : [CANCEL] ∉ markers n := by
  intro h
  simp [markers, CANCEL, FLASH_UPLOAD] at h

theorem cancel_not_mem_frames (src : List Nat) (b k : Nat) :
    [CANCEL] ∉ frames_from src b k := by
  intro h
  have := frames_from_all_frames src b k _ h
  simp [sizeof_xmodemframe, PAYLOAD_SIZE] at this

theorem frames_from_ne_nil (src : List Nat) (b k : Nat) (h : 1 ≤ k) :
    frames_from src b k ≠ [] := by
  intro h0
  have := frames_from_length src b k
  rw [h0] at this
  simp at this
  omega

/-- A run that returned wrote the CANCEL byte exactly when it wrote a Regular
frame and no EOT byte, and wrote it at most once. -/
theorem run_cancel (env : Env) (fuel : Nat) (src : List Nat) (st : State) (res : Option Int)
    (hrun : Run env fuel src st res) (hend : res ≠ none) :
    ([CANCEL] ∈ st.sent
        ↔ regular_frames st.sent ≠ [] ∧ [END_OF_TRANSMISSION] ∉ st.sent)
      ∧ st.sent.count [CANCEL] ≤ 1
      ∧ ((¬ ∃ n, n ≤ fuel ∧ Started env n) → [CANCEL] ∉ st.sent) := by
  have hz : [CANCEL] ≠ [0] := by decide
  have hc : [CANCEL] ≠ [END_OF_TRANSMISSION] := by decide
  have hez : [END_OF_TRANSMISSION] ≠ [0] := by decide
  have idle : ∀ n, (st.sent = markers n ∨ st.sent = markers n ++ [[0]]) →
      ([CANCEL] ∈ st.sent
        ↔ regular_frames st.sent ≠ [] ∧ [END_OF_TRANSMISSION] ∉ st.sent)
      ∧ st.sent.count [CANCEL] ≤ 1
      ∧ ((¬ ∃ n, n ≤ fuel ∧ Started env n) → [CANCEL] ∉ st.sent) := by
    intro n h
    have hno : [CANCEL] ∉ st.sent := by
      rcases h with h | h
      · rw [h]; exact cancel_not_mem_markers n
      · rw [h]
        intro hm
        rcases List.mem_append.1 hm with hm | hm
        · exact cancel_not_mem_markers n hm
        · simp [CANCEL] at hm
    have hrf : regular_frames st.sent = [] := by
      rcases h with h | h
      · rw [h, regular_frames_markers]
      · rw [h, regular_frames_append, regular_frames_markers, regular_frames_byte]; rfl
    refine ⟨⟨fun hm => absurd hm hno, fun hm => absurd hrf hm.1⟩, ?_, fun _ => hno⟩
    rw [List.count_eq_zero_of_not_mem hno]
    omega
  cases hrun with
  | no_echo hsil hsent => exact absurd rfl hend
  | marker_write_failed m h1 hm hsil hw hsent => exact idle m (Or.inl hsent)
  | wrong_echo m b h1 hm hsil hw hans hb hsent => exact idle m (Or.inl hsent)
  | zero_write_failed m hm he hw hsent hout => exact idle m (Or.inr hsent)
  | no_nack m hm he hw hans hsent hout hwait => exact idle m (Or.inr hsent)
  | started m _ hm hs hout hwait ht =>
    cases ht with
    | fuel hack hsent hchunks => exact absurd rfl hend
    | rejected k h1 hk hack hrej hsent hchunks =>
      have hrf : regular_frames st.sent = frames_from src 0 k := by
        rw [hsent, regular_frames_append, regular_frames_append, regular_frames_append,
          regular_frames_markers, regular_frames_byte, regular_frames_byte,
          regular_frames_frames]
        simp
      have hmem : [CANCEL] ∈ st.sent := by rw [hsent]; simp
      have hne : [END_OF_TRANSMISSION] ∉ st.sent := by
        rw [hsent]
        intro hx
        simp only [List.mem_append, List.mem_singleton] at hx
        rcases hx with ((hx | hx) | hx) | hx
        · exact eot_not_mem_markers _ hx
        · exact hez hx
        · exact eot_not_mem_frames _ _ _ hx
        · exact hc hx.symm
      refine ⟨⟨fun _ => ⟨by rw [hrf]; exact frames_from_ne_nil src 0 k h1, hne⟩,
        fun _ => hmem⟩, ?_, fun hno => absurd ⟨m, hm, hs⟩ hno⟩
      rw [hsent, List.count_append, List.count_append, List.count_append,
        List.count_eq_zero_of_not_mem (cancel_not_mem_markers m),
        List.count_eq_zero_of_not_mem (cancel_not_mem_frames src 0 k)]
      simp [CANCEL]
    | finished k h1 hk hack hlast hshort hsent hchunks =>
      have hmem : [END_OF_TRANSMISSION] ∈ st.sent := by rw [hsent]; simp
      have hne : [CANCEL] ∉ st.sent := by
        rw [hsent]
        intro hx
        simp only [List.mem_append, List.mem_singleton] at hx
        rcases hx with ((hx | hx) | hx) | hx
        · exact cancel_not_mem_markers _ hx
        · exact hz hx
        · exact cancel_not_mem_frames _ _ _ hx
        · exact hc hx
      refine ⟨⟨fun hx => absurd hx hne, fun hx => absurd hmem hx.2⟩, ?_, fun _ => hne⟩
      rw [List.count_eq_zero_of_not_mem hne]
      omega

/-- C17. In every run of `main` that returns (signals apart), the single byte
CANCEL is written (by `cleanup`, the only place that writes it) if and only if
at least one Regular frame was handed to the transport and the EOT byte was
not: it is written at most once, a run whose handshake did not complete writes
no CANCEL, a run without a Regular frame writes none, and a run that wrote EOT
writes none whether or not the final ACK arrived.  `transmissionRunning` is
set whenever the transmission loop is left after at least one iteration, also
after an acknowledged frame. -/
theorem C17_cancel_iff (env : Env) (fuel : Nat) (s : State) (src : List Nat)
    (hend : (main env fuel).2 ≠ none)
    (hfile : s.fileToSend = some src) (hdata : s.frame.data.length = PAYLOAD_SIZE)
    (hft : s.frame.frametype = REGULAR_FRAME) (hfuel : 1 ≤ fuel) :
    ([CANCEL] ∈ (main env fuel).1.sent
        ↔ regular_frames (main env fuel).1.sent ≠ []
          ∧ [END_OF_TRANSMISSION] ∉ (main env fuel).1.sent)
      ∧ (main env fuel).1.sent.count [CANCEL] ≤ 1
      ∧ ((¬ ∃ n, n ≤ fuel ∧ Started env n) → [CANCEL] ∉ (main env fuel).1.sent)
      ∧ (regular_frames (main env fuel).1.sent = [] → [CANCEL] ∉ (main env fuel).1.sent)
      ∧ ([END_OF_TRANSMISSION] ∈ (main env fuel).1.sent → [CANCEL] ∉ (main env fuel).1.sent)
      ∧ (transfer_loop env fuel s).1.transmissionRunning = true := by
  have key : ([CANCEL] ∈ (main env fuel).1.sent
        ↔ regular_frames (main env fuel).1.sent ≠ []
          ∧ [END_OF_TRANSMISSION] ∉ (main env fuel).1.sent)
      ∧ (main env fuel).1.sent.count [CANCEL] ≤ 1
      ∧ ((¬ ∃ n, n ≤ fuel ∧ Started env n) → [CANCEL] ∉ (main env fuel).1.sent) := by
    by_cases hok : SetupOk env
    · cases hsrc : env.fopen with
      | none => exact absurd hsrc hok.2.2.1
      | some src0 => exact run_cancel env fuel src0 _ _ (main_spec env fuel src0 hok hsrc).1 hend
    · have h0 := (main_of_setup_failed env fuel hok).1
      rw [h0]
      simp [regular_frames]
  refine ⟨key.1, key.2.1, key.2.2, fun h hx => (key.1.1 hx).1 h,
    fun h hx => (key.1.1 hx).2 h, ?_⟩
  obtain ⟨k, fr, p, o, hst, -, -, -, -, hex⟩ := transfer_loop_spec env fuel s src hfile hdata hft
  have hk : 1 ≤ k := by
    rcases hx : (transfer_loop env fuel s).2 with _ | _ | _ <;> rw [hx] at hex
    · exact hex.1
    · exact hex.1
    · have := hex.1
      omega
  rw [hst]
  show (s.transmissionRunning || decide (0 < k)) = true
  simp
  right; omega

set_option maxRecDepth 100000 in
/-- C17 at a 300-byte source: a receiver that answers the second frame with
NACK gets the CANCEL byte, a receiver that never answers the EOT byte gets
none. -/
theorem C17_cancel_iff_witness :
    [CANCEL] ∈ (main (env_of (List.replicate 300 7) full_write nack_second_frame) 5).1.sent
      ∧ [CANCEL] ∉ (main (env_of (List.replicate 300 7) full_write no_final_ack) 5).1.sent := by
  refine ⟨?_, ?_⟩
  · exact (C17_cancel_iff (env_of (List.replicate 300 7) full_write nack_second_frame) 5
      { setup_state [1, 2, 3] with frame := sample_frame } [1, 2, 3] (by decide) rfl (by decide)
      rfl (by decide)).1.2 ⟨by decide, by decide⟩
  · exact (C17_cancel_iff (env_of (List.replicate 300 7) full_write no_final_ack) 5
      { setup_state [1, 2, 3] with frame := sample_frame } [1, 2, 3] (by decide) rfl (by decide)
      rfl (by decide)).2.2.2.2.1 (by decide)

/-! ## The invariant of the transmission loop -/

theorem chunks_from_get (src : List Nat) (b k i : Nat) (h : i < k) :
    (chunks_from src b k)[i]? = some ((b + i + 1) % 256,
      (((src.drop (PAYLOAD_SIZE * i)).take PAYLOAD_SIZE).length : Int)) := by
  induction k generalizing src b i with
  | zero => omega
  | succ k ih =>
    cases i with
    | zero => simp [chunks_from]
    | succ i =>
      simp only [chunks_from, List.getElem?_cons_succ]
      rw [ih _ _ i (by omega), List.drop_drop]
      have h1 : ((b + 1) % 256 + i + 1) % 256 = (b + (i + 1) + 1) % 256 := by omega
      have h2 : PAYLOAD_SIZE + PAYLOAD_SIZE * i = PAYLOAD_SIZE * (i + 1) := by ring
      rw [h1, h2]

/-- What the transmission part of a run did, iteration by iteration. -/
theorem transfer_run_iterations (env : Env) (fuel n : Nat) (src : List Nat) (st : State)
    (res : Option Int) (ht : TransferRun env fuel (markers n ++ [[0]]) src st res) :
    ∃ k, k ≤ fuel
      ∧ (res ≠ none → 1 ≤ k)
      ∧ regular_frames st.sent = frames_from src 0 k
      ∧ chunk_log st.out = chunks_from src 0 k
      ∧ (∀ i, 1 ≤ i → i < k →
          Acked env (markers n ++ [[0]]) src 0 i ∧ PAYLOAD_SIZE * i ≤ src.length)
      ∧ ([END_OF_TRANSMISSION] ∈ st.sent
          ↔ 1 ≤ k ∧ src.length < PAYLOAD_SIZE * k ∧ Acked env (markers n ++ [[0]]) src 0 k) := by
  have hez : [END_OF_TRANSMISSION] ≠ [0] := by decide
  have hc : [END_OF_TRANSMISSION] ≠ [CANCEL] := by decide
  cases ht with
  | fuel hack hsent hchunks =>
    refine ⟨fuel, le_refl _, fun h => absurd rfl h, ?_, hchunks,
      fun i h1 h2 => hack i h1 (by omega), ?_⟩
    · rw [hsent, regular_frames_append, regular_frames_append, regular_frames_markers,
        regular_frames_byte, regular_frames_frames]
      rfl
    · constructor
      · intro hx
        rw [hsent] at hx
        simp only [List.mem_append, List.mem_singleton] at hx
        rcases hx with (hx | hx) | hx
        · exact absurd hx (eot_not_mem_markers _)
        · exact absurd hx hez
        · exact absurd hx (eot_not_mem_frames _ _ _)
      · rintro ⟨h1, h2, -⟩
        have := (hack fuel h1 (le_refl _)).2
        omega
  | rejected k h1 hk hack hrej hsent hchunks =>
    refine ⟨k, hk, fun _ => h1, ?_, hchunks, hack, ?_⟩
    · rw [hsent, regular_frames_append, regular_frames_append, regular_frames_append,
        regular_frames_markers, regular_frames_byte, regular_frames_byte,
        regular_frames_frames]
      simp
    · constructor
      · intro hx
        rw [hsent] at hx
        simp only [List.mem_append, List.mem_singleton] at hx
        rcases hx with ((hx | hx) | hx) | hx
        · exact absurd hx (eot_not_mem_markers _)
        · exact absurd hx hez
        · exact absurd hx (eot_not_mem_frames _ _ _)
        · exact absurd hx hc
      · rintro ⟨-, -, h3⟩
        exact absurd h3 hrej
  | finished k h1 hk hack hlast hshort hsent hchunks =>
    refine ⟨k, hk, fun _ => h1, ?_, hchunks, hack, ?_⟩
    · rw [hsent, regular_frames_append, regular_frames_append, regular_frames_append,
        regular_frames_markers, regular_frames_byte, regular_frames_byte,
        regular_frames_frames]
      simp
    · exact ⟨fun _ => ⟨h1, hshort, hlast⟩, fun _ => by rw [hsent]; simp⟩

/-- C14, as the code has it. Once the handshake has completed, the run is a
sequence of `k` iterations of the transmission loop, and iteration `i`
(counted from 0) announces and writes exactly one Regular frame: block number
`(i + 1) mod 256`, carrying the `min 128 (N - 128 i)` source bytes from offset
`128 i` on, which is between 0 and 128 bytes and is 0 when the source is
exhausted.  Every iteration but the last was acknowledged and carried a full
128 bytes.  The loop is left for the EOT byte exactly when the last frame
carried fewer than 128 bytes and was acknowledged; with a receiver that
acknowledges every frame and enough fuel this happens after `N / 128 + 1`
iterations. -/
theorem C14_loop_invariant (env : Env) (fuel n : Nat) (src : List Nat) (hok : SetupOk env)
    (hsrc : env.fopen = some src) (hs : Started env n) (hn : n ≤ fuel) :
    ∃ k, k ≤ fuel
      ∧ ((main env fuel).2 ≠ none → 1 ≤ k)
      ∧ (regular_frames (main env fuel).1.sent).length = k
      ∧ (chunk_log (main env fuel).1.out).length = k
      ∧ (∀ i, i < k →
          (regular_frames (main env fuel).1.sent)[i]?
              = some (frame_bytes (frame_for ((i + 1) % 256)
                  ((src.drop (PAYLOAD_SIZE * i)).take PAYLOAD_SIZE)))
            ∧ (chunk_log (main env fuel).1.out)[i]?
              = some ((i + 1) % 256,
                  ((min PAYLOAD_SIZE (src.length - PAYLOAD_SIZE * i) : Nat) : Int))
            ∧ min PAYLOAD_SIZE (src.length - PAYLOAD_SIZE * i) ≤ PAYLOAD_SIZE)
      ∧ (∀ i, i + 1 < k →
          Acked env (markers n ++ [[0]]) src 0 (i + 1)
            ∧ min PAYLOAD_SIZE (src.length - PAYLOAD_SIZE * i) = PAYLOAD_SIZE)
      ∧ ([END_OF_TRANSMISSION] ∈ (main env fuel).1.sent
          ↔ 1 ≤ k ∧ min PAYLOAD_SIZE (src.length - PAYLOAD_SIZE * (k - 1)) < PAYLOAD_SIZE
            ∧ Acked env (markers n ++ [[0]]) src 0 k)
      ∧ ((∀ log f, f.length = sizeof_xmodemframe → answer env (log ++ [f]) 500 = some ACK) →
          src.length / PAYLOAD_SIZE + 1 ≤ fuel → k = src.length / PAYLOAD_SIZE + 1) := by
  obtain ⟨hrun, -⟩ := main_spec env fuel src hok hsrc
  obtain ⟨ht, -, -⟩ := run_of_started env fuel src _ _ n hrun hs hn
  obtain ⟨k, hk, h1, hfr, hch, hack, heot⟩ := transfer_run_iterations env fuel n src _ _ ht
  refine ⟨k, hk, h1, by rw [hfr, frames_from_length], by rw [hch, chunks_from_length],
    ?_, ?_, ?_, ?_⟩
  · intro i hi
    rw [hfr, hch, frames_from_get src 0 k i hi, chunks_from_get src 0 k i hi]
    simp only [Nat.zero_add, List.length_take, List.length_drop]
    exact ⟨trivial, trivial, Nat.min_le_left _ _⟩
  · intro i hi
    obtain ⟨ha, hl⟩ := hack (i + 1) (by omega) hi
    refine ⟨ha, ?_⟩
    simp only [PAYLOAD_SIZE] at hl ⊢
    omega
  · rw [heot]
    constructor
    · rintro ⟨a, b, c⟩
      refine ⟨a, ?_, c⟩
      simp only [PAYLOAD_SIZE] at b ⊢
      omega
    · rintro ⟨a, b, c⟩
      refine ⟨a, ?_, c⟩
      have hprev : PAYLOAD_SIZE * (k - 1) ≤ src.length := by
        by_cases hk1 : k = 1
        · subst hk1; simp
        · exact (hack (k - 1) (by omega) (by omega)).2
      simp only [PAYLOAD_SIZE] at b hprev ⊢
      omega
  · intro hall hfuel
    have h := frames_of_all_acked env fuel n src hok hsrc hs hall hn hfuel
    rw [hfr] at h
    have := congrArg List.length h
    rw [frames_from_length, frames_from_length] at this
    exact this

set_option maxRecDepth 100000 in
/-- C14 fails as stated for the empty source: with a receiver that completes
the handshake and ACKs everything the run succeeds, and its one iteration
sends a Regular frame that carries 0 source bytes (128 zero bytes of padding),
not between 1 and 128. -/
theorem C14_loop_invariant_counterexample :
    (main (env_of [] full_write prompt_receiver) 3).2 = some 0
      ∧ chunk_log (main (env_of [] full_write prompt_receiver) 3).1.out = [(1, 0)]
      ∧ (regular_frames (main (env_of [] full_write prompt_receiver) 3).1.sent).map payload
          = [List.replicate 128 0]
      ∧ ¬ (1 ≤ ([] : List Nat).length) := by
  decide

set_option maxRecDepth 100000 in
/-- C14 (amended) at a 300-byte source with a receiver that ACKs everything:
three iterations announcing 128, 128 and 44 bytes, then the EOT byte. -/
theorem C14_loop_invariant_witness :
    chunk_log (main (env_of (List.replicate 300 7) full_write prompt_receiver) 5).1.out
        = [(1, 128), (2, 128), (3, 44)]
      ∧ [END_OF_TRANSMISSION]
          ∈ (main (env_of (List.replicate 300 7) full_write prompt_receiver) 5).1.sent := by
  obtain ⟨k, -, -, -, hlen, hget, -, heot, hall⟩ := C14_loop_invariant
    (env_of (List.replicate 300 7) full_write prompt_receiver) 5 1 (List.replicate 300 7)
    (by decide) rfl (prompt_receiver_started _) (by decide)
  have hk : k = 3 := by
    rw [hall (prompt_receiver_acks _) (by simp [PAYLOAD_SIZE])]
    simp [PAYLOAD_SIZE]
  subst hk
  refine ⟨?_, by decide⟩
  apply List.ext_getElem?
  intro i
  by_cases hi : i < 3
  · rw [(hget i hi).2.1]
    have : i = 0 ∨ i = 1 ∨ i = 2 := by omega
    rcases this with rfl | rfl | rfl <;> simp [PAYLOAD_SIZE]
  · rw [List.getElem?_eq_none (by omega), List.getElem?_eq_none (by simp; omega)]

/-! ## The read check of the transmission loop -/

theorem io_error_not_handshake {o : List Msg} (h : ∀ m ∈ o, Msg.handshake m = true) :
    Msg.io_error_reading ∉ o := by
  intro hm
  have := h _ hm
  simp [Msg.handshake, Msg.diag] at this

theorem io_error_not_diag {o : List Msg} (h : ∀ m ∈ o, Msg.diag m = true) :
    Msg.io_error_reading ∉ o := by
  intro hm
  have := h _ hm
  simp [Msg.diag] at this

theorem io_error_not_teardown {o : List Msg} (h : ∀ m ∈ o, Msg.teardown m = true) :
    Msg.io_error_reading ∉ o := by
  intro hm
  have := h _ hm
  simp [Msg.teardown, Msg.diag] at this

theorem io_error_not_after_nack {o : List Msg} (h : ∀ m ∈ o, Msg.after_nack m = true) :
    Msg.io_error_reading ∉ o := by
  intro hm
  have := h _ hm
  simp [Msg.after_nack, Msg.transfer, Msg.final, Msg.teardown, Msg.diag] at this

theorem main_done_no_io (env : Env) (s : State) (h : Msg.io_error_reading ∉ s.out) :
    NoIoError (main_done env s) := by
  obtain ⟨p, o, hd, ho, -⟩ := main_done_spec env s
  rw [NoIoError, hd]
  simp only [State.closed]
  intro hm
  rcases List.mem_append.1 hm with h1 | h1
  · exact h h1
  · exact io_error_not_teardown ho h1

theorem main_handshake_no_io (env : Env) (fuel : Nat) (s : State) (src : List Nat)
    (hsent : s.sent = []) (hfile : s.fileToSend = some src)
    (hdata : s.frame.data.length = PAYLOAD_SIZE) (hret : s.retval = EXIT_FAILURE)
    (hcl : chunk_log s.out = []) (hio : Msg.io_error_reading ∉ s.out) :
    NoIoError (main_handshake env fuel s) := by
  obtain ⟨n, p, o, hs, hn, hsil, ho, hex⟩ := handshake_loop_spec env fuel s
  simp only [main_handshake]
  rcases hloop : handshake_loop env fuel s with ⟨s1, e⟩
  rw [hloop] at hs hex
  simp only [hsent, List.nil_append] at hs hex hsil
  subst hs
  have hio1 : Msg.io_error_reading ∉ s.out ++ o := by
    intro hm
    rcases List.mem_append.1 hm with h | h
    · exact hio h
    · exact io_error_not_handshake ho h
  cases e with
  | fuel => exact hio1
  | done => exact main_done_no_io env _ hio1
  | next =>
    simp only
    rcases hwz : write_byte env { s with sent := markers n, polls := p, out := s.out ++ o } 0
      with ⟨s2, r2⟩
    obtain ⟨-, o2, rfl, ho2⟩ := write_byte_inv _ _ _ _ _ hwz
    simp only [Nat.zero_mod]
    have hio2 : Msg.io_error_reading ∉ s.out ++ o ++ o2 := by
      intro hm
      rcases List.mem_append.1 hm with h | h
      · exact hio1 h
      · exact io_error_not_diag ho2 h
    cases r2 with
    | false => exact main_done_no_io env _ hio2
    | true =>
      simp only
      rcases hnk : recv_nack env (print
        { s with sent := markers n ++ [[0]], polls := 0, out := s.out ++ o ++ o2 }
        Msg.waiting_for_nack) with ⟨s3, r3⟩
      obtain ⟨-, p3, o3, rfl, -, ho3⟩ := expect_inv _ _ _ _ _ hnk
      simp only [print]
      have hio3 : Msg.io_error_reading ∉
          s.out ++ o ++ o2 ++ [Msg.waiting_for_nack] ++ o3 := by
        intro hm
        rcases List.mem_append.1 hm with h | h
        · rcases List.mem_append.1 h with h | h
          · exact hio2 h
          · simp at h
        · exact io_error_not_diag ho3 h
      cases r3 with
      | false =>
        refine main_done_no_io env _ ?_
        intro hm
        rcases List.mem_append.1 hm with h | h
        · exact hio3 h
        · simp at h
      | true =>
        simp only
        obtain ⟨-, ⟨o4, hout4, ho4⟩, -⟩ := main_transfer_spec env fuel
          { s with sent := markers n ++ [[0]], polls := p3,
                   out := s.out ++ o ++ o2 ++ [Msg.waiting_for_nack] ++ o3 }
          src hfile hdata hret (by
            simp [chunk_log_append, hcl, chunk_log_handshake ho, chunk_log_diag ho2,
              chunk_log_diag ho3, chunk_log])
        rw [NoIoError, hout4]
        intro hm
        rcases List.mem_append.1 hm with h | h
        · exact hio3 h
        · exact io_error_not_after_nack ho4 h

/-- No run of `main` prints `I/O error while reading data from file`. -/
theorem main_no_io_error (env : Env) (fuel : Nat) : NoIoError (main env fuel) := by
  by_cases hok : SetupOk env
  · cases hsrc : env.fopen with
    | none => exact absurd hsrc hok.2.2.1
    | some src =>
      rw [main_of_setup_ok env fuel src hok hsrc]
      exact main_handshake_no_io env fuel (setup_state src) src rfl rfl
        (by simp [setup_state, State.init, frame_init]) rfl rfl (by simp [setup_state])
  simp only [main]
  by_cases c1 : env.argc < 2
  · rw [if_pos c1]; simp [NoIoError, print, State.init]
  rw [if_neg c1]
  by_cases c2 : (!env.signal_ok) = true
  · rw [if_pos c2]; simp [NoIoError, print, State.init]
  rw [if_neg c2]
  by_cases c3 : env.fopen = none
  · rw [if_pos c3]; simp [NoIoError, print, State.init]
  rw [if_neg c3]
  by_cases c4 : (!env.ftdi_new_ok) = true
  · rw [if_pos c4]; simp [NoIoError, print, State.init]
  rw [if_neg c4]
  by_cases c5 : env.ftdi_usb_find_all < 0
  · rw [if_pos c5]; exact main_done_no_io env _ (by simp [fail, print, State.init])
  rw [if_neg c5]
  by_cases c6 : env.ftdi_usb_find_all ≠ 1
  · rw [if_pos c6]; exact main_done_no_io env _ (by simp [fail, print, State.init])
  rw [if_neg c6]
  by_cases c7 : env.ftdi_usb_get_strings < 0
  · rw [if_pos c7]; exact main_done_no_io env _ (by simp [fail, print, State.init])
  rw [if_neg c7]
  by_cases c8 : env.ftdi_usb_open_dev < 0
  · rw [if_pos c8]; exact main_done_no_io env _ (by simp [fail, print, State.init])
  rw [if_neg c8]
  by_cases c9 : env.ftdi_set_baudrate < 0
  · rw [if_pos c9]; exact main_done_no_io env _ (by simp [fail, print, State.init])
  rw [if_neg c9]
  by_cases c10 : env.ftdi_set_line_property < 0
  · rw [if_pos c10]; exact main_done_no_io env _ (by simp [fail, print, State.init])
  rw [if_neg c10]
  by_cases c11 : env.ftdi_write_data_set_chunksize < 0
  · rw [if_pos c11]; exact main_done_no_io env _ (by simp [fail, print, State.init])
  rw [if_neg c11]
  by_cases c12 : env.ftdi_read_data_set_chunksize < 0
  · rw [if_pos c12]; exact main_done_no_io env _ (by simp [fail, print, State.init])
  rw [if_neg c12]
  exfalso
  apply hok
  simp only [Bool.not_eq_true', Bool.not_eq_false, Bool.not_eq_true] at c2 c4
  simp only [ne_eq, Decidable.not_not] at c6
  exact ⟨by omega, by simpa using c2, c3, by simpa using c4, c6, by omega, by omega,
    by omega, by omega, by omega, by omega⟩

/-- C18. `file_to_frame` returns `min 128 (bytes left in the stream)`, a count
between 0 and 128, so the test `bytesToTransmit < 0` of the transmission loop
never holds: no run of `main`, whatever the environment, prints `I/O error
while reading data from file`.  When the stream stops delivering at offset `e`
(a read error, or the end of the file) the short count is taken for the end of
the data.  With `N` the number of bytes delivered, a completed handshake and
the `N / 128` full frames acknowledged, the partial frame (the bytes from
offset `128 (N / 128)` on, padded) is sent as frame `N / 128 + 1`; if the
receiver answers it with ACK, the run has written exactly these
`N / 128 + 1` frames followed by the EOT byte, and it returns `EXIT_SUCCESS`
exactly when the receiver answers that EOT byte with ACK. -/
theorem C18_short_read_ends_data (env env0 : Env) (fuel fuel0 n e : Nat)
    (content file : List Nat) (frame : xmodemframe)
    (hok : SetupOk env) (hsrc : env.fopen = some (delivered content e))
    (hs : Started env n) (hn : n ≤ fuel)
    (hprev : ∀ i, 1 ≤ i → i ≤ (delivered content e).length / PAYLOAD_SIZE →
      Acked env (markers n ++ [[0]]) (delivered content e) 0 i)
    (hk : (delivered content e).length / PAYLOAD_SIZE + 1 ≤ fuel) :
    (file_to_frame file frame).2.2 = min PAYLOAD_SIZE file.length
      ∧ (file_to_frame file frame).2.2 ≤ PAYLOAD_SIZE
      ∧ ¬ (((file_to_frame file frame).2.2 : Nat) : Int) < 0
      ∧ Msg.io_error_reading ∉ (main env0 fuel0).1.out
      ∧ (delivered content e).length = min e content.length
      ∧ (regular_frames (main env fuel).1.sent)[(delivered content e).length / PAYLOAD_SIZE]?
          = some (frame_bytes (frame_for (((delivered content e).length / PAYLOAD_SIZE + 1) % 256)
              ((delivered content e).drop
                (PAYLOAD_SIZE * ((delivered content e).length / PAYLOAD_SIZE)))))
      ∧ (Acked env (markers n ++ [[0]]) (delivered content e) 0
            ((delivered content e).length / PAYLOAD_SIZE + 1) →
          regular_frames (main env fuel).1.sent
              = frames_from (delivered content e) 0
                  ((delivered content e).length / PAYLOAD_SIZE + 1)
            ∧ (main env fuel).1.sent
              = markers n ++ [[0]]
                  ++ frames_from (delivered content e) 0
                      ((delivered content e).length / PAYLOAD_SIZE + 1)
                  ++ [[END_OF_TRANSMISSION]]
            ∧ ((main env fuel).2 = some EXIT_SUCCESS
                ↔ answer env (markers n ++ [[0]]
                    ++ frames_from (delivered content e) 0
                        ((delivered content e).length / PAYLOAD_SIZE + 1)
                    ++ [[END_OF_TRANSMISSION]]) 500 = some ACK)) := by
  have hn0 : (file_to_frame file frame).2.2 = min PAYLOAD_SIZE file.length := by
    simp [file_to_frame, fread]
  refine ⟨hn0, by rw [hn0]; exact Nat.min_le_left _ _, by omega, main_no_io_error env0 fuel0,
    by simp [delivered], ?_, ?_⟩
  · have h := main_reaches env fuel n ((delivered content e).length / PAYLOAD_SIZE + 1) _
      hok hsrc hs hn (Nat.le_add_left _ _) hk
      (by simp only [PAYLOAD_SIZE, Nat.add_sub_cancel]; omega)
      (fun i h1 h2 => hprev i h1 (by omega))
    rw [Nat.add_sub_cancel] at h
    rw [h]
    have hlen : ((delivered content e).drop
        (PAYLOAD_SIZE * ((delivered content e).length / PAYLOAD_SIZE))).length
          ≤ PAYLOAD_SIZE := by
      simp only [List.length_drop, PAYLOAD_SIZE]
      omega
    rw [List.take_of_length_le hlen]
  · intro hlast
    obtain ⟨hrun, -⟩ := main_spec env fuel _ hok hsrc
    obtain ⟨ht, -, -⟩ := run_of_started env fuel _ _ _ n hrun hs hn
    obtain ⟨hsent, -, hres⟩ := transfer_all_acked env fuel _ _ _ _ ht
      (fun i h1 h2 => by
        rcases Nat.lt_or_ge i ((delivered content e).length / PAYLOAD_SIZE + 1) with h | h
        · exact hprev i h1 (by omega)
        · have : i = (delivered content e).length / PAYLOAD_SIZE + 1 := by omega
          rw [this]; exact hlast) hk
    refine ⟨?_, hsent, ?_⟩
    · rw [hsent, regular_frames_append, regular_frames_append, regular_frames_append,
        regular_frames_markers, regular_frames_byte, regular_frames_byte,
        regular_frames_frames]
      simp
    · rw [hres, hsent]
      by_cases ha : answer env (markers n ++ [[0]]
          ++ frames_from (delivered content e) 0
              ((delivered content e).length / PAYLOAD_SIZE + 1)
          ++ [[END_OF_TRANSMISSION]]) 500 = some ACK
      · rw [if_pos ha]
        exact ⟨fun _ => ha, fun _ => rfl⟩
      · rw [if_neg ha]
        exact ⟨fun h => absurd (Option.some.inj h) (by decide), fun h => absurd h ha⟩

set_option maxRecDepth 100000 in
/-- C18 at a 300-byte file whose reading fails after 200 bytes, with a receiver
that verifies each frame: two frames are written, the second with the 72 bytes
left, and the run returns 0. -/
theorem C18_short_read_ends_data_witness :
    (main (env_of (delivered (List.replicate 300 7) 200) full_write checking_receiver) 5).2
        = some 0
      ∧ (regular_frames (main (env_of (delivered (List.replicate 300 7) 200) full_write
          checking_receiver) 5).1.sent).length = 2 := by
  obtain ⟨-, -, -, -, -, -, hrun⟩ := C18_short_read_ends_data
    (env_of (delivered (List.replicate 300 7) 200) full_write checking_receiver)
    (env_of [] full_write dead_line) 5 0 1 200 (List.replicate 300 7) [1, 2, 3] sample_frame
    (env_of_setup_ok _ _ _) rfl (checking_receiver_started _) (by decide)
    (by
      intro i h1 h2
      have : i = 1 := by
        have : (delivered (List.replicate 300 7) 200).length / PAYLOAD_SIZE = 1 := by decide
        omega
      subst this
      unfold Acked
      decide)
    (by decide)
  obtain ⟨hfr, -, hres⟩ := hrun (by unfold Acked; decide)
  refine ⟨hres.2 (by decide), ?_⟩
  rw [hfr, frames_from_length]
  decide

end McsUpload
